import Mathlib

/-!
# Locomotion controller (locomotionThread.cpp): a shallow embedding

The development follows `src/src/locomotionControl/src/locomotionThread.cpp`.

* Part I: the linear algebra of `LocomotionThread::solveTaskHierarchy` and of
  `LocomotionThread::updateSelectionMatrix`, over an arbitrary commutative ring `R`
  (the reals for the statements, the rationals or integers when a definition is evaluated).
* Part II: the controller thread as a state machine with explicit state passing; every
  call to a collaborator (robot interface, parameter helper, trajectory generators) is
  appended to a log of actions.
-/

namespace Locomotion

open Matrix

/-! ## Part I.a  Pseudoinverse utilities -/

/-- Modelled from the spec: the utilities `pinvTrunc(A, tol, Apinv, &sv)` and
`pinvDampTrunc(A, tol, damp, Apinv, ApinvDamp, &sv)` are called by `solveTaskHierarchy`
but defined outside the sources. They are taken as two functions: `pinvTrunc A tol` is the
truncated pseudoinverse written to `Apinv`, and `pinvDampTrunc A tol damp` is the pair
`(Apinv, ApinvDamp)` of the truncated and the damped pseudoinverse. -/
structure PinvUtils (R : Type) where
  pinvTrunc : {r c : Nat} → Matrix (Fin r) (Fin c) R → R → Matrix (Fin c) (Fin r) R
  pinvDampTrunc : {r c : Nat} → Matrix (Fin r) (Fin c) R → R → R →
    Matrix (Fin c) (Fin r) R × Matrix (Fin c) (Fin r) R

/-- Modelled from the spec: `X` is the exact Moore-Penrose pseudoinverse of `A`
(the truncated pseudoinverse when no nonzero singular value lies below the tolerance):
the four Penrose equations. -/
structure IsPinv {R : Type} [CommRing R] {r c : Nat}
    (A : Matrix (Fin r) (Fin c) R) (X : Matrix (Fin c) (Fin r) R) : Prop where
  mul_pinv_mul : A * X * A = A
  pinv_mul_pinv : X * A * X = X
  mul_pinv_symm : (A * X)ᵀ = A * X
  pinv_mul_symm : (X * A)ᵀ = X * A

/-- Modelled from the spec: `XD` is the exact damped pseudoinverse of `A` for the damping
factor `damp`, where `X` is the pseudoinverse of `A`: with `A = U Σ Vᵀ` it is
`V diag(σ / (σ² + damp²)) Uᵀ` over the nonzero singular values. That matrix solves the
regularised normal equations `(AᵀA + damp² I) XD = Aᵀ` and its columns lie in the row space
of `A`, that is `X A XD = XD`. -/
structure IsDampedPinv {R : Type} [CommRing R] {r c : Nat}
    (A : Matrix (Fin r) (Fin c) R) (damp : R)
    (X XD : Matrix (Fin c) (Fin r) R) : Prop where
  normal_eq : (Aᵀ * A + (damp * damp) • (1 : Matrix (Fin c) (Fin c) R)) * XD = Aᵀ
  row_space : X * A * XD = XD

/-! ## Part I.b  `solveTaskHierarchy` -/

/-- The member variables read by `solveTaskHierarchy`, with the dimensions its local
declarations give them (`k = _k`, `n = _n`): `Jc` is `k x (n+6)`, `Jcom_2xN` is `2 x (n+6)`,
`Jfoot` is `6 x (n+6)`, `Jposture` is `n x (n+6)`, `dxc_comE` is a `Vector2d`, `dxc_footE` a
`Vector6d` and `dqcE` has `n` entries. -/
structure SolverInput (R : Type) (k n : Nat) where
  Jc : Matrix (Fin k) (Fin (n + 6)) R
  Jcom_2xN : Matrix (Fin 2) (Fin (n + 6)) R
  Jfoot : Matrix (Fin 6) (Fin (n + 6)) R
  Jposture : Matrix (Fin n) (Fin (n + 6)) R
  dxc_comE : Fin 2 → R
  dxc_footE : Fin 6 → R
  dqcE : Fin n → R
  pinvDamp : R

section Solver

variable {R : Type} [CommRing R] {k n : Nat}

/-- Line 239: `pinvTrunc(Jc, PINV_TOL, Jc_pinv, &svJc)`. -/
def Jc_pinv (U : PinvUtils R) (PINV_TOL : R) (inp : SolverInput R k n) :
    Matrix (Fin (n + 6)) (Fin k) R :=
  U.pinvTrunc inp.Jc PINV_TOL

/-- Lines 236 and 240: `N.setIdentity(); N -= Jc_pinv*Jc;`. -/
def N_contact (U : PinvUtils R) (PINV_TOL : R) (inp : SolverInput R k n) :
    Matrix (Fin (n + 6)) (Fin (n + 6)) R :=
  1 - Jc_pinv U PINV_TOL inp * inp.Jc

/-- Line 243: `pinvDampTrunc(Jcom_2xN*N, PINV_TOL, pinvDamp, Jcom_pinv, Jcom_pinvD, &svJcom)`;
the pair `(Jcom_pinv, Jcom_pinvD)`. -/
def Jcom_pinvs (U : PinvUtils R) (PINV_TOL : R) (inp : SolverInput R k n) :
    Matrix (Fin (n + 6)) (Fin 2) R × Matrix (Fin (n + 6)) (Fin 2) R :=
  U.pinvDampTrunc (inp.Jcom_2xN * N_contact U PINV_TOL inp) PINV_TOL inp.pinvDamp

/-- Lines 235 and 244: `dqDes.setZero(); dqDes += Jcom_pinvD*dxc_comE;`. -/
def dqDes_com (U : PinvUtils R) (PINV_TOL : R) (inp : SolverInput R k n) :
    Fin (n + 6) → R :=
  0 + (Jcom_pinvs U PINV_TOL inp).2.mulVec inp.dxc_comE

/-- Line 249: `N -= Jcom_pinv*Jcom_2xN*N;`. -/
def N_com (U : PinvUtils R) (PINV_TOL : R) (inp : SolverInput R k n) :
    Matrix (Fin (n + 6)) (Fin (n + 6)) R :=
  N_contact U PINV_TOL inp
    - (Jcom_pinvs U PINV_TOL inp).1 * inp.Jcom_2xN * N_contact U PINV_TOL inp

/-- Line 252: `pinvDampTrunc(Jfoot*N, PINV_TOL, pinvDamp, Jfoot_pinv, Jfoot_pinvD, &svJfoot)`;
the pair `(Jfoot_pinv, Jfoot_pinvD)`. -/
def Jfoot_pinvs (U : PinvUtils R) (PINV_TOL : R) (inp : SolverInput R k n) :
    Matrix (Fin (n + 6)) (Fin 6) R × Matrix (Fin (n + 6)) (Fin 6) R :=
  U.pinvDampTrunc (inp.Jfoot * N_com U PINV_TOL inp) PINV_TOL inp.pinvDamp

/-- Line 253: `dqDes += Jfoot_pinvD*(dxc_footE - Jfoot*dqDes);`. -/
def dqDes_foot (U : PinvUtils R) (PINV_TOL : R) (inp : SolverInput R k n) :
    Fin (n + 6) → R :=
  dqDes_com U PINV_TOL inp
    + (Jfoot_pinvs U PINV_TOL inp).2.mulVec
        (inp.dxc_footE - inp.Jfoot.mulVec (dqDes_com U PINV_TOL inp))

/-- Line 259: `N -= Jfoot_pinv*Jfoot*N;`. -/
def N_foot (U : PinvUtils R) (PINV_TOL : R) (inp : SolverInput R k n) :
    Matrix (Fin (n + 6)) (Fin (n + 6)) R :=
  N_com U PINV_TOL inp
    - (Jfoot_pinvs U PINV_TOL inp).1 * inp.Jfoot * N_com U PINV_TOL inp

/-- Line 262: `pinvTrunc(Jposture*N, PINV_TOL, Jposture_pinv)`. -/
def Jposture_pinv (U : PinvUtils R) (PINV_TOL : R) (inp : SolverInput R k n) :
    Matrix (Fin (n + 6)) (Fin n) R :=
  U.pinvTrunc (inp.Jposture * N_foot U PINV_TOL inp) PINV_TOL

/-- Line 263: `dqDes += Jposture_pinv*(dqcE - Jposture*dqDes);` the final value of the
local `dqDes`, an `(n+6)`-vector. -/
def dqDes (U : PinvUtils R) (PINV_TOL : R) (inp : SolverInput R k n) :
    Fin (n + 6) → R :=
  dqDes_foot U PINV_TOL inp
    + (Jposture_pinv U PINV_TOL inp).mulVec
        (inp.dqcE - inp.Jposture.mulVec (dqDes_foot U PINV_TOL inp))

/-- Line 272: `return dqDes.block(0,0,n,1);` the block that starts at row 0 and has `n`
rows, so entry `i` of the result is entry `i` of `dqDes`. -/
def solveTaskHierarchy (U : PinvUtils R) (PINV_TOL : R) (inp : SolverInput R k n) :
    Fin n → R :=
  fun i => dqDes U PINV_TOL inp (Fin.castAdd 6 i)

/-- The trailing `n` entries of an `(n+6)`-vector laid out as `[base(6); joints(n)]`, the
layout `readRobotStatus` gives `dq` (`dq.head<6>()` is the base velocity, `dq.tail(_n)` the
joint velocities): entry `i` is entry `6 + i` of the vector. -/
def jointTail (v : Fin (n + 6) → R) : Fin n → R :=
  fun i => v ⟨6 + i.val, by omega⟩

/-- The pseudoinverse utilities are exact at the four calls `solveTaskHierarchy` makes on
the input `inp`: every truncated pseudoinverse returned is the Moore-Penrose pseudoinverse
of its argument and every damped one is the damped pseudoinverse for `pinvDamp`. -/
structure ExactPinvs (U : PinvUtils R) (PINV_TOL : R) (inp : SolverInput R k n) : Prop where
  contact : IsPinv inp.Jc (Jc_pinv U PINV_TOL inp)
  com : IsPinv (inp.Jcom_2xN * N_contact U PINV_TOL inp) (Jcom_pinvs U PINV_TOL inp).1
  comD : IsDampedPinv (inp.Jcom_2xN * N_contact U PINV_TOL inp) inp.pinvDamp
    (Jcom_pinvs U PINV_TOL inp).1 (Jcom_pinvs U PINV_TOL inp).2
  foot : IsPinv (inp.Jfoot * N_com U PINV_TOL inp) (Jfoot_pinvs U PINV_TOL inp).1
  footD : IsDampedPinv (inp.Jfoot * N_com U PINV_TOL inp) inp.pinvDamp
    (Jfoot_pinvs U PINV_TOL inp).1 (Jfoot_pinvs U PINV_TOL inp).2
  posture : IsPinv (inp.Jposture * N_foot U PINV_TOL inp) (Jposture_pinv U PINV_TOL inp)

/-- A symmetric idempotent matrix (an orthogonal projector). -/
structure IsProjector {m : Nat} (N : Matrix (Fin m) (Fin m) R) : Prop where
  symm : Nᵀ = N
  idem : N * N = N

end Solver

/-! ## Part I.c  `updateSelectionMatrix` -/

section Selection
variable {R : Type} [CommRing R] [DecidableEq R]

/-- Lines 354-358, the body of the loop of `updateSelectionMatrix` for the index `i`, on
the loop state `(S, j)`: `if(activeJoints[i] != 0.0) { S(j,i) = 1.0; j++; }`. The result is
`none` when the write `S(j,i)` falls outside the `n` rows of `S`. -/
def updateSelectionMatrix_body {n D : Nat} (activeJoints : Nat → R) (i : Fin D)
    (st : Matrix (Fin n) (Fin D) R × Nat) : Option (Matrix (Fin n) (Fin D) R × Nat) :=
  if activeJoints i.val ≠ 0 then
    if h : st.2 < n then
      some (Matrix.of (fun r c => if r = ⟨st.2, h⟩ ∧ c = i then 1 else st.1 r c), st.2 + 1)
    else none
  else some st

/-- Lines 349-352 and 359: the loop state `(S, j)` after the iterations `i = 0 .. t-1` of
`for(int i=0; i<ICUB_DOFS; i++)`, from `S.resize(_n, ICUB_DOFS); S.zero(); int j=0;`.
`D` is `ICUB_DOFS`. -/
def updateSelectionMatrix_loop (n D : Nat) (activeJoints : Nat → R) :
    Nat → Option (Matrix (Fin n) (Fin D) R × Nat)
  | 0 => some (0, 0)
  | t + 1 =>
    match updateSelectionMatrix_loop n D activeJoints t with
    | none => none
    | some st =>
      if h : t < D then updateSelectionMatrix_body activeJoints ⟨t, h⟩ st else some st

/-- Lines 347-360, `updateSelectionMatrix`: the matrix `S` after all `D = ICUB_DOFS`
iterations, for `n = _n` rows and the mask `activeJoints` (read at the indices below `D`). -/
def updateSelectionMatrix (n D : Nat) (activeJoints : Nat → R) :
    Option (Matrix (Fin n) (Fin D) R) :=
  (updateSelectionMatrix_loop n D activeJoints D).map Prod.fst

/-- The number of nonzero entries of the mask with index below `i`; for a nonzero entry
`i` it is the rank of `i` among the nonzero entries in increasing order, counted from 0. -/
def nonzerosBefore (activeJoints : Nat → R) (i : Nat) : Nat :=
  ((Finset.range i).filter (fun c => activeJoints c ≠ 0)).card

end Selection

/-! ## Part II.a  Dynamically sized vectors and matrices

`yarp::sig::Vector` and `Eigen::VectorXd` are lists; their size is the length of the list.
`yarp::sig::Matrix` and `Eigen::MatrixXd` are `MatrixXd`: a row count, a column count and
the coefficients. The element-wise operations read an operand that is too short as far as
it goes, so they are exact whenever the sizes agree, which is what the C++ operators
require. -/

/-- A matrix whose dimensions are data, as those of `Eigen::MatrixXd` and
`yarp::sig::Matrix` are. -/
structure MatrixXd (R : Type) where
  rows : Nat
  cols : Nat
  coeff : Fin rows → Fin cols → R

namespace MatrixXd

variable {R : Type} [CommRing R]

/-- Coefficient `(i, j)`; zero outside the matrix. -/
def get (M : MatrixXd R) (i j : Nat) : R :=
  if h : i < M.rows ∧ j < M.cols then M.coeff ⟨i, h.1⟩ ⟨j, h.2⟩ else 0

/-- The `r x c` matrix with coefficients `f i j`. -/
def ofFn (r c : Nat) (f : Nat → Nat → R) : MatrixXd R :=
  ⟨r, c, fun i j => f i.val j.val⟩

/-- `MatrixXd::Zero(r, c)`. -/
def zero (r c : Nat) : MatrixXd R := ofFn r c (fun _ _ => 0)

/-- `MatrixXd::Identity(r, c)` and `eye(r, c)`: ones on the main diagonal `(i, i)`. -/
def identity (r c : Nat) : MatrixXd R := ofFn r c (fun i j => if i = j then 1 else 0)

/-- `M.resize(r, c)`: nothing happens when the dimensions are already `r x c`; otherwise
the storage is reallocated and the old coefficients are lost (the new ones are read as 0). -/
def resize (M : MatrixXd R) (r c : Nat) : MatrixXd R :=
  if M.rows = r ∧ M.cols = c then M else zero r c

/-- `M.resize(NoChange, c)`. -/
def resizeCols (M : MatrixXd R) (c : Nat) : MatrixXd R := M.resize M.rows c

/-- A buffer handed to a collaborator as `M.data()`: the collaborator writes the
coefficients, the dimensions stay. -/
def fill (M : MatrixXd R) (f : Nat → Nat → R) : MatrixXd R := ofFn M.rows M.cols f

/-- `M.topRows<r>()`. -/
def topRows (M : MatrixXd R) (r : Nat) : MatrixXd R := ofFn r M.cols M.get

/-- `M.leftCols<c>()`. -/
def leftCols (M : MatrixXd R) (c : Nat) : MatrixXd R := ofFn M.rows c M.get

/-- `M.rightCols(c)`. -/
def rightCols (M : MatrixXd R) (c : Nat) : MatrixXd R :=
  ofFn M.rows c (fun i j => M.get i (M.cols - c + j))

/-- `M.submatrix(r1, r2, c1, c2)` of yarp: rows `r1..r2` and columns `c1..c2`, inclusive. -/
def submatrix (M : MatrixXd R) (r1 r2 c1 c2 : Nat) : MatrixXd R :=
  ofFn (r2 + 1 - r1) (c2 + 1 - c1) (fun i j => M.get (r1 + i) (c1 + j))

/-- `M.topRows<r>() = B`: the first `r` rows of `M` are overwritten with `B`. -/
def setTopRows (M : MatrixXd R) (r : Nat) (B : MatrixXd R) : MatrixXd R :=
  ofFn M.rows M.cols (fun i j => if i < r then B.get i j else M.get i j)

/-- `M.bottomRows<r>() = B`: the last `r` rows of `M` are overwritten with `B`. -/
def setBottomRows (M : MatrixXd R) (r : Nat) (B : MatrixXd R) : MatrixXd R :=
  ofFn M.rows M.cols
    (fun i j => if M.rows - r ≤ i then B.get (i - (M.rows - r)) j else M.get i j)

/-- `M * v` for a vector `v`. -/
def mulVec (M : MatrixXd R) (v : List R) : List R :=
  (List.range M.rows).map
    (fun i => ((List.range M.cols).map (fun j => M.get i j * v.getD j 0)).sum)

/-- The `r x c` window of `M` as a statically sized matrix; it is `M` itself when `M` is
`r x c`. -/
def toMatrix (M : MatrixXd R) (r c : Nat) : Matrix (Fin r) (Fin c) R :=
  Matrix.of (fun i j => M.get i.val j.val)

/-- A statically sized matrix as a `MatrixXd`. -/
def ofMatrix {r c : Nat} (A : Matrix (Fin r) (Fin c) R) : MatrixXd R := ⟨r, c, A⟩

end MatrixXd

section Vectors

variable {R : Type} [CommRing R]

/-- `a + b` on vectors. -/
def vadd (a b : List R) : List R := List.zipWith (fun x y => x + y) a b

/-- `a - b` on vectors. -/
def vsub (a b : List R) : List R := List.zipWith (fun x y => x - y) a b

/-- `a * b` on yarp vectors: the element-wise product. -/
def vmul (a b : List R) : List R := List.zipWith (fun x y => x * y) a b

/-- A buffer of `len` entries handed to a collaborator as `v.data()`: the collaborator
writes the entries, the size stays. -/
def vfill (len : Nat) (f : Nat → R) : List R := (List.range len).map f

/-- `v.resize(len)` on an Eigen vector: nothing happens when the size is already `len`;
otherwise the storage is reallocated and the old entries are lost (the new ones are read
as 0). -/
def vresize (v : List R) (len : Nat) : List R :=
  if v.length = len then v else List.replicate len 0

/-- `v.head<k>() = w`: the first `k` entries of `v` are overwritten with `w`. -/
def setHead (v : List R) (k : Nat) (w : List R) : List R :=
  vfill v.length (fun i => if i < k then w.getD i 0 else v.getD i 0)

/-- `v.tail(k) = w`: the last `k` entries of `v` are overwritten with `w`. -/
def setTail (v : List R) (k : Nat) (w : List R) : List R :=
  vfill v.length
    (fun i => if v.length - k ≤ i then w.getD (i - (v.length - k)) 0 else v.getD i 0)

end Vectors

/-! ## Part II.b  Constants, collaborators and the thread state -/

inductive LocomotionStatus
  | LOCOMOTION_ON
  | LOCOMOTION_OFF
  deriving DecidableEq

inductive SupportPhase
  | SUPPORT_DOUBLE
  | SUPPORT_LEFT
  | SUPPORT_RIGHT
  deriving DecidableEq

inductive ControlMode
  | CTRL_MODE_POS
  | CTRL_MODE_VEL
  deriving DecidableEq

inductive LinkId
  | LINK_ID_RIGHT_FOOT
  | LINK_ID_LEFT_FOOT
  | COM_LINK_ID
  deriving DecidableEq

inductive MsgType
  | MSG_DEBUG
  | MSG_INFO
  | MSG_WARNING
  | MSG_ERROR
  deriving DecidableEq

/-- The identifiers `parameterUpdated` switches on; `other` is any further identifier. -/
inductive ParamId
  | PARAM_ID_TRAJ_TIME_COM
  | PARAM_ID_TRAJ_TIME_FOOT
  | PARAM_ID_TRAJ_TIME_POSTURE
  | PARAM_ID_ACTIVE_JOINTS
  | PARAM_ID_SUPPORT_PHASE
  | other (id : Nat)
  deriving DecidableEq

/-- The identifiers `commandReceived` switches on; `other` is any further identifier. -/
inductive CommandId
  | COMMAND_ID_START
  | COMMAND_ID_STOP
  | other (id : Nat)
  deriving DecidableEq

/-- A joint identifier of the robot interface (body part, index in the part). -/
structure LocalId where
  bodyPart : Nat
  index : Nat
  deriving DecidableEq

/-- The three trajectory generators owned by the thread. -/
inductive TrajGenId
  | trajGenCom
  | trajGenFoot
  | trajGenPosture
  deriving DecidableEq

/-- A call received by a trajectory generator. -/
inductive TrajCall (R : Type)
  | init (y0 : List R)
  | computeNextValues (xd : List R)
  | setT (T : R)
  deriving DecidableEq

/-- Modelled from the spec: `minJerkTrajGen` is a black box with a narrow contract. A
generator is what it was constructed with (dimension, sample time, trajectory time) and the
calls it has received since, oldest first; `getPos` and `getVel` are functions of that. -/
structure minJerkTrajGen (R : Type) where
  dim : Nat
  Ts : R
  T : R
  calls : List (TrajCall R)
  deriving DecidableEq

/-- A call to a collaborator (parameter helper, robot interface, trajectory generator), or
the start of the hierarchy solver. The thread appends each one to its log. -/
inductive Action (R : Type)
  | lock
  | unlock
  | readStreamParams
  | sendStreamParams
  | getQ (blockingRead : Bool)
  | getDq (blockingRead : Bool)
  | computeH (link : LinkId)
  | forwardKinematics (link : LinkId)
  | computeJacobian (link : LinkId)
  | setVelRef (dqMotors : List R)
  | setControlMode (mode : ControlMode)
  | removeJoint (lid : LocalId)
  | addJoint (lid : LocalId)
  | trajInit (g : TrajGenId) (y0 : List R)
  | trajComputeNextValues (g : TrajGenId) (xd : List R)
  | trajSetT (g : TrajGenId) (T : R)
  | solveTaskHierarchy
  | sendMsg (type : MsgType)
  deriving DecidableEq

/-- Constants of headers that are not among the sources; `Ts` is `getRate()*1e-3` and
`period` is `getRate()`. -/
structure Constants (R : Type) where
  ICUB_DOFS : Nat
  DEFAULT_XDES_COM_size : Nat
  DEFAULT_XDES_FOOT_size : Nat
  DEFAULT_TT_COM : R
  DEFAULT_TT_FOOT : R
  DEFAULT_TT_POSTURE : R
  PINV_TOL : R
  PRINT_PERIOD : Nat
  period : Nat
  Ts : R
  globalToLocalId : Nat → LocalId

/-- Modelled from the spec: the library functions the thread calls and that are not among
the sources: the pseudoinverse utilities, the least-squares solve of Eigen's `JacobiSVD`,
`SE3inv`, `dcm2axis`, `compute6DError`, and the outputs of a trajectory generator. -/
structure Library (R : Type) where
  utils : PinvUtils R
  svdSolve : MatrixXd R → List R → List R
  SE3inv : MatrixXd R → MatrixXd R
  dcm2axis : MatrixXd R → List R
  compute6DError : List R → List R → List R
  getPos : minJerkTrajGen R → List R
  getVel : minJerkTrajGen R → List R

/-- Modelled from the spec: what the robot interface answers during one transition. A read
(`getQ`, `getDq`) either fails (`none`, the buffer is left as it was) or delivers the
entries; the kinematic functions deliver the entries they write to the buffer passed. -/
structure RobotAnswers (R : Type) where
  getQ : Bool → Option (Nat → R)
  getDq : Bool → Option (Nat → R)
  computeH : List R → List R → LinkId → Nat → Nat → R
  forwardKinematics : List R → List R → LinkId → Nat → R
  computeJacobian : List R → List R → LinkId → Nat → Nat → R

/-- What `readStreamParams` finds on the input streams: for each input streaming parameter
either nothing or the entries of a new value. -/
structure StreamInput (R : Type) where
  xd_com : Option (Nat → R)
  xd_foot : Option (Nat → R)
  qd : Option (Nat → R)
  H_w2b : Option (Nat → Nat → R)

/-- The member variables of `LocomotionThread`, the joint list held by the robot interface
(`robotJointList`) and the log of collaborator calls. A vector and the Eigen map of its
storage (`dxc_com` and `dxc_comE`, `dxc_foot` and `dxc_footE`, `dqc` and `dqcE`) are one
field. The trajectory generators are pointers, unset before `threadInit` creates them. -/
structure LocomotionThread (R : Type) where
  status : LocomotionStatus
  printCountdown : Nat
  supportPhase : SupportPhase
  activeJoints : List R
  _n : Nat
  _k : Nat
  comLinkId : LinkId
  footLinkId : LinkId
  x_com : List R
  x_foot : List R
  xd_com : List R
  xd_foot : List R
  qd : List R
  xr_com : List R
  xr_foot : List R
  qr : List R
  dxr_com : List R
  dxr_foot : List R
  dqr : List R
  dxc_com : List R
  dxc_foot : List R
  kp_com : List R
  kp_foot : List R
  kp_posture : List R
  H_w2b : MatrixXd R
  xBase : List R
  q : List R
  dq : List R
  dqJ : List R
  dqc : List R
  Jcom_6xN : MatrixXd R
  Jcom_2xN : MatrixXd R
  Jfoot : MatrixXd R
  JfootR : MatrixXd R
  JfootL : MatrixXd R
  Jposture : MatrixXd R
  Jc : MatrixXd R
  S : MatrixXd R
  tt_com : R
  tt_foot : R
  tt_posture : R
  pinvDamp : R
  trajGenCom : Option (minJerkTrajGen R)
  trajGenFoot : Option (minJerkTrajGen R)
  trajGenPosture : Option (minJerkTrajGen R)
  robotJointList : List LocalId
  log : List (Action R)

namespace LocomotionThread

variable {R : Type} [CommRing R] [DecidableEq R]

/-- Append a collaborator call to the log. -/
def emit (st : LocomotionThread R) (a : Action R) : LocomotionThread R :=
  { st with log := st.log ++ [a] }

/-- Lines 29-34, the constructor: `status = LOCOMOTION_OFF; printCountdown = 0;`. The
members of class type are default-constructed (empty vectors, `xBase` with its 7 entries,
matrices without columns, the Jacobian types with their fixed row count, 6 and 2, which
`resize(NoChange, ...)` keeps); `robotJointList` is the joint list of the robot
interface passed in. The members the constructor leaves uninitialised (scalars, link
identifiers) keep the indeterminate value they have in `mem`. -/
def new (mem : LocomotionThread R) (robotJointList : List LocalId) : LocomotionThread R :=
  { mem with
    status := LocomotionStatus.LOCOMOTION_OFF
    printCountdown := 0
    activeJoints := []
    x_com := [], x_foot := [], xd_com := [], xd_foot := [], qd := []
    xr_com := [], xr_foot := [], qr := []
    dxr_com := [], dxr_foot := [], dqr := []
    dxc_com := [], dxc_foot := []
    kp_com := [], kp_foot := [], kp_posture := []
    H_w2b := MatrixXd.zero 0 0
    xBase := List.replicate 7 0
    q := [], dq := [], dqJ := [], dqc := []
    Jcom_6xN := MatrixXd.zero 6 0
    Jcom_2xN := MatrixXd.zero 2 0
    Jfoot := MatrixXd.zero 6 0
    JfootR := MatrixXd.zero 6 0
    JfootL := MatrixXd.zero 6 0
    Jposture := MatrixXd.zero 0 0
    Jc := MatrixXd.zero 0 0
    S := MatrixXd.zero 0 0
    trajGenCom := none, trajGenFoot := none, trajGenPosture := none
    robotJointList := robotJointList
    log := [] }

/-- Lines 347-360, `updateSelectionMatrix` on the thread state: `S` becomes the matrix the
loop builds for `_n` rows; `none` when the loop writes outside `S`. -/
def updateSelectionMatrix (C : Constants R) (st : LocomotionThread R) :
    Option (LocomotionThread R) :=
  match Locomotion.updateSelectionMatrix st._n C.ICUB_DOFS
      (fun i => st.activeJoints.getD i 0) with
  | none => none
  | some S => some { st with S := MatrixXd.ofMatrix S }

/-- Lines 298-302: `_k = supportPhase==SUPPORT_DOUBLE ? 12 : 6; Jc.resize(_k, _n+6);`. -/
def numberOfConstraintsChanged (st : LocomotionThread R) : LocomotionThread R :=
  let k := if st.supportPhase = SupportPhase.SUPPORT_DOUBLE then 12 else 6
  { st with _k := k, Jc := st.Jc.resize k (st._n + 6) }

/-- Modelled from the spec: `robot->removeJoint(lid)` takes the joint out of the joint
list of the robot interface. -/
def removeJoint (st : LocomotionThread R) (lid : LocalId) : LocomotionThread R :=
  { st with robotJointList := st.robotJointList.filter (fun x => x ≠ lid),
            log := st.log ++ [Action.removeJoint lid] }

/-- Modelled from the spec: `robot->addJoint(lid)` appends the joint to the joint list of
the robot interface unless the list holds it already. -/
def addJoint (st : LocomotionThread R) (lid : LocalId) : LocomotionThread R :=
  { st with robotJointList :=
              if lid ∈ st.robotJointList then st.robotJointList
              else st.robotJointList ++ [lid],
            log := st.log ++ [Action.addJoint lid] }

/-- Lines 311-321, the body of the loop of `numberOfJointsChanged` for the index `i`;
`currentActiveJoints` is the copy of the joint list taken before the loop. -/
def numberOfJointsChanged_body (C : Constants R) (currentActiveJoints : List LocalId)
    (st : LocomotionThread R) (i : Nat) : LocomotionThread R :=
  let lid := C.globalToLocalId i
  if lid ∈ currentActiveJoints then
    if st.activeJoints.getD i 0 = 0 then st.removeJoint lid else st
  else
    if st.activeJoints.getD i 0 = 1 then st.addJoint lid else st

/-- Lines 307-338 of `numberOfJointsChanged`: the loop that adds and removes joints at the
robot interface, `_n = robot->getJointList().size()`, and the resizes. A yarp vector is
resized and filled with 0.0 (`q`, `dqc`, `kp_posture`); an Eigen vector or matrix keeps
its coefficients when its size does not change and is read as 0 otherwise. -/
def numberOfJointsChanged_resize (C : Constants R) (st : LocomotionThread R) :
    LocomotionThread R :=
  let currentActiveJoints := st.robotJointList
  let st := (List.range st.activeJoints.length).foldl
    (numberOfJointsChanged_body C currentActiveJoints) st
  let n := st.robotJointList.length
  { st with
    _n := n
    Jcom_6xN := st.Jcom_6xN.resizeCols (n + 6)
    Jcom_2xN := st.Jcom_2xN.resizeCols (n + 6)
    Jfoot := st.Jfoot.resizeCols (n + 6)
    JfootR := st.JfootR.resizeCols (n + 6)
    JfootL := st.JfootL.resizeCols (n + 6)
    Jposture := MatrixXd.identity n (n + 6)
    Jc := st.Jc.resizeCols (n + 6)
    q := List.replicate n 0
    dq := vresize st.dq (n + 6)
    dqJ := vresize st.dqJ n
    dqc := List.replicate n 0
    kp_posture := List.replicate n 0 }

/-- Lines 305-344, `numberOfJointsChanged`: the loop and the resizes, then
`updateSelectionMatrix()`. The result is `none` when `updateSelectionMatrix` writes
outside `S`. -/
def numberOfJointsChanged (C : Constants R) (st : LocomotionThread R) :
    Option (LocomotionThread R) :=
  (numberOfJointsChanged_resize C st).updateSelectionMatrix C

/-- Lines 166-167: `bool res = robot->getQ(q.data(), blockingRead);
res = res && robot->getDq(dqJ.data(), -1.0, blockingRead);`. The second read is skipped
when the first fails. The result is the new state and `res`. -/
def readJointState (rob : RobotAnswers R) (blockingRead : Bool)
    (st : LocomotionThread R) : LocomotionThread R × Bool :=
  match rob.getQ blockingRead with
  | none => (st.emit (Action.getQ blockingRead), false)
  | some fq =>
    let st := { st.emit (Action.getQ blockingRead) with q := vfill st.q.length fq }
    match rob.getDq blockingRead with
    | none => (st.emit (Action.getDq blockingRead), false)
    | some fdq =>
      ({ st.emit (Action.getDq blockingRead) with dqJ := vfill st.dqJ.length fdq }, true)

/-- Lines 170-182: the foot to control, the rototranslation from world to base and
`xBase`. -/
def readBasePose (L : Library R) (rob : RobotAnswers R) (st : LocomotionThread R) :
    LocomotionThread R :=
  let zero7 : List R := List.replicate 7 0
  let H_base_leftFoot : MatrixXd R :=
    MatrixXd.ofFn 4 4 (rob.computeH st.q zero7 LinkId.LINK_ID_LEFT_FOOT)
  let H := L.SE3inv H_base_leftFoot
  let qu := L.dcm2axis (H.submatrix 0 2 0 2)
  { st.emit (Action.computeH LinkId.LINK_ID_LEFT_FOOT) with
    footLinkId :=
      if st.supportPhase = SupportPhase.SUPPORT_LEFT then LinkId.LINK_ID_RIGHT_FOOT
      else LinkId.LINK_ID_LEFT_FOOT
    H_w2b := H
    xBase := [H.get 0 3, H.get 1 3, H.get 2 3,
      qu.getD 0 0, qu.getD 1 0, qu.getD 2 0, qu.getD 3 0] }

/-- Lines 185-186: forward kinematics of the controlled foot and of the CoM. -/
def readForwardKinematics (rob : RobotAnswers R) (st : LocomotionThread R) :
    LocomotionThread R :=
  { st with
    x_foot := vfill st.x_foot.length (rob.forwardKinematics st.q st.xBase st.footLinkId)
    x_com := vfill st.x_com.length (rob.forwardKinematics st.q st.xBase st.comLinkId)
    log := st.log ++ [Action.forwardKinematics st.footLinkId,
      Action.forwardKinematics st.comLinkId] }

/-- Lines 188-190: the Jacobians of both feet and of the CoM. -/
def readJacobians (rob : RobotAnswers R) (st : LocomotionThread R) : LocomotionThread R :=
  { st with
    JfootR := st.JfootR.fill (rob.computeJacobian st.q st.xBase LinkId.LINK_ID_RIGHT_FOOT)
    JfootL := st.JfootL.fill (rob.computeJacobian st.q st.xBase LinkId.LINK_ID_LEFT_FOOT)
    Jcom_6xN := st.Jcom_6xN.fill (rob.computeJacobian st.q st.xBase st.comLinkId)
    log := st.log ++ [Action.computeJacobian LinkId.LINK_ID_RIGHT_FOOT,
      Action.computeJacobian LinkId.LINK_ID_LEFT_FOOT,
      Action.computeJacobian st.comLinkId] }

/-- Lines 192-195: `Jcom_2xN = Jcom_6xN.topRows<2>();` and the three-way choice of `Jfoot`
and `Jc` on the support phase. An assignment of a whole matrix copies its dimensions too. -/
def convertJacobians (st : LocomotionThread R) : LocomotionThread R :=
  let st := { st with Jcom_2xN := st.Jcom_6xN.topRows 2 }
  match st.supportPhase with
  | SupportPhase.SUPPORT_DOUBLE =>
    { st with
      Jfoot := MatrixXd.zero st.Jfoot.rows st.Jfoot.cols
      Jc := (st.Jc.setTopRows 6 st.JfootR).setBottomRows 6 st.JfootL }
  | SupportPhase.SUPPORT_LEFT =>
    { st with
      Jfoot := st.JfootR
      Jc := st.JfootL }
  | SupportPhase.SUPPORT_RIGHT =>
    { st with
      Jfoot := st.JfootL
      Jc := st.JfootR }

/-- Lines 197-200: the base velocity estimated from the joint velocities,
`dq.head<6>() = svd.solve(Jc.rightCols(_n)*dqJ); dq.tail(_n) = dqJ;` with `svd` the
decomposition of `Jcb = Jc.leftCols<6>()`. -/
def estimateBaseVelocity (L : Library R) (st : LocomotionThread R) : LocomotionThread R :=
  let Jcb := st.Jc.leftCols 6
  let head := L.svdSolve Jcb ((st.Jc.rightCols st._n).mulVec st.dqJ)
  { st with dq := setTail (setHead st.dq 6 head) st._n st.dqJ }

/-- Lines 163-210, `readRobotStatus(blockingRead)`; the result is the new state and the
value returned. The diagnostic printing of lines 202-208 changes nothing. -/
def readRobotStatus (L : Library R) (rob : RobotAnswers R) (blockingRead : Bool)
    (st : LocomotionThread R) : LocomotionThread R × Bool :=
  let r := readJointState rob blockingRead st
  (estimateBaseVelocity L
    (convertJacobians (readJacobians rob (readForwardKinematics rob (readBasePose L rob r.1)))),
   r.2)

/-- One call on a trajectory generator pointer; nothing happens to the generator when the
pointer is unset. -/
def trajCall (g : Option (minJerkTrajGen R)) (c : TrajCall R) : Option (minJerkTrajGen R) :=
  g.map (fun t => { t with calls := t.calls ++ [c] })

/-- `getPos()` through a generator pointer. -/
def trajPos (L : Library R) (g : Option (minJerkTrajGen R)) : List R :=
  match g with
  | some t => L.getPos t
  | none => []

/-- `getVel()` through a generator pointer. -/
def trajVel (L : Library R) (g : Option (minJerkTrajGen R)) : List R :=
  match g with
  | some t => L.getVel t
  | none => []

/-- Lines 213-225, `updateReferenceTrajectories`. -/
def updateReferenceTrajectories (L : Library R) (st : LocomotionThread R) :
    LocomotionThread R :=
  let gCom := trajCall st.trajGenCom (TrajCall.computeNextValues st.xd_com)
  let gFoot := trajCall st.trajGenFoot (TrajCall.computeNextValues st.xd_foot)
  let gPosture := trajCall st.trajGenPosture (TrajCall.computeNextValues st.qd)
  { st with
    trajGenCom := gCom
    trajGenFoot := gFoot
    trajGenPosture := gPosture
    xr_com := trajPos L gCom
    xr_foot := trajPos L gFoot
    qr := trajPos L gPosture
    dxr_com := trajVel L gCom
    dxr_foot := trajVel L gFoot
    dqr := trajVel L gPosture
    log := st.log ++ [Action.trajComputeNextValues TrajGenId.trajGenCom st.xd_com,
      Action.trajComputeNextValues TrajGenId.trajGenFoot st.xd_foot,
      Action.trajComputeNextValues TrajGenId.trajGenPosture st.qd] }

/-- The member variables `solveTaskHierarchy` reads, in the dimensions its local
declarations assume for `k = _k` and `n = _n`. -/
def solverInput (st : LocomotionThread R) : SolverInput R st._k st._n where
  Jc := st.Jc.toMatrix st._k (st._n + 6)
  Jcom_2xN := st.Jcom_2xN.toMatrix 2 (st._n + 6)
  Jfoot := st.Jfoot.toMatrix 6 (st._n + 6)
  Jposture := st.Jposture.toMatrix st._n (st._n + 6)
  dxc_comE := fun i => st.dxc_com.getD i.val 0
  dxc_footE := fun i => st.dxc_foot.getD i.val 0
  dqcE := fun i => st.dqc.getD i.val 0
  pinvDamp := st.pinvDamp

/-- Lines 228-273, `solveTaskHierarchy` on the thread state: the vector returned. -/
def solveTaskHierarchy (C : Constants R) (L : Library R) (st : LocomotionThread R) :
    List R :=
  List.ofFn (Locomotion.solveTaskHierarchy L.utils C.PINV_TOL st.solverInput)

/-- Lines 128: `readStreamParams` writes the values found on the input streams to the
linked variables. -/
def readStreamParams (inp : StreamInput R) (st : LocomotionThread R) : LocomotionThread R :=
  { st.emit Action.readStreamParams with
    xd_com := match inp.xd_com with
      | some f => vfill st.xd_com.length f
      | none => st.xd_com
    xd_foot := match inp.xd_foot with
      | some f => vfill st.xd_foot.length f
      | none => st.xd_foot
    qd := match inp.qd with
      | some f => vfill st.qd.length f
      | none => st.qd
    H_w2b := match inp.H_w2b with
      | some f => st.H_w2b.fill f
      | none => st.H_w2b }

/-- Lines 135-137, the feedback law: `dxc_com = dxr_com + kp_com * (xr_com - x_com);
dxc_foot = kp_foot * compute6DError(x_foot, xr_foot);
dqc = S*dqr + (S*kp_posture) * (S*qr - q);`. These are the values of the three lines
where their operand sizes agree (`feedbackLawDefined`); `run` applies the law only
there. -/
def feedbackLaw (L : Library R) (st : LocomotionThread R) : LocomotionThread R :=
  { st with
    dxc_com := vadd st.dxr_com (vmul st.kp_com (vsub st.xr_com st.x_com))
    dxc_foot := vmul st.kp_foot (L.compute6DError st.x_foot st.xr_foot)
    dqc := vadd (st.S.mulVec st.dqr)
        (vmul (st.S.mulVec st.kp_posture) (vsub (st.S.mulVec st.qr) st.q)) }

/-- The operand sizes of line 135 agree: for `xr_com - x_com`, for the element-wise
product with `kp_com` and for the sum with `dxr_com`. -/
def feedbackComDefined (st : LocomotionThread R) : Bool :=
  decide (st.xr_com.length = st.x_com.length ∧ st.kp_com.length = st.xr_com.length ∧
    st.dxr_com.length = st.kp_com.length)

/-- The operand sizes of line 136 agree: `kp_foot` has as many entries as the error that
`compute6DError` returns. -/
def feedbackFootDefined (L : Library R) (st : LocomotionThread R) : Bool :=
  decide (st.kp_foot.length = (L.compute6DError st.x_foot st.xr_foot).length)

/-- The operand sizes of line 137 agree: `dqr`, `kp_posture` and `qr` have as many entries
as `S` has columns, and `q` as many as `S` has rows (the products `S*dqr`, `S*kp_posture`
and `S*qr` then have that many entries too). -/
def feedbackPostureDefined (st : LocomotionThread R) : Bool :=
  decide (st.S.cols = st.dqr.length ∧ st.S.cols = st.kp_posture.length ∧
    st.S.cols = st.qr.length ∧ st.S.rows = st.q.length)

/-- Lines 135-137 are well-formed: in each of the three lines the operand sizes of every
operation of `yarp::math` agree. The library checks the sizes in each operation; on
operands whose sizes do not agree the operation has no result and the process ends there.
The values `feedbackLaw` gives are those of the source exactly when this holds. -/
def feedbackLawDefined (L : Library R) (st : LocomotionThread R) : Bool :=
  feedbackComDefined st && feedbackFootDefined L st && feedbackPostureDefined st

/-- The state in which a tick stops when one of the lines 135-137 is ill-formed: the
assignments of the lines before the first ill-formed one are made. -/
def feedbackLawStopped (L : Library R) (st : LocomotionThread R) : LocomotionThread R :=
  if feedbackComDefined st then
    if feedbackFootDefined L st then
      { st with
        dxc_com := vadd st.dxr_com (vmul st.kp_com (vsub st.xr_com st.x_com))
        dxc_foot := vmul st.kp_foot (L.compute6DError st.x_foot st.xr_foot) }
    else
      { st with dxc_com := vadd st.dxr_com (vmul st.kp_com (vsub st.xr_com st.x_com)) }
  else st

/-- Lines 147-148: `VectorXd dqMotors = solveTaskHierarchy(); robot->setVelRef(dqMotors.data());`. -/
def solveAndCommand (C : Constants R) (L : Library R) (st : LocomotionThread R) :
    LocomotionThread R :=
  { st with log := st.log ++ [Action.solveTaskHierarchy,
      Action.setVelRef (solveTaskHierarchy C L st)] }

/-- Lines 133-151, the branch of `run` taken when `status==LOCOMOTION_ON`, for a tick in
which lines 135-137 are well-formed. The printing of lines 150-151 changes nothing. -/
def runOn (C : Constants R) (L : Library R) (st : LocomotionThread R) : LocomotionThread R :=
  solveAndCommand C L (feedbackLaw L (updateReferenceTrajectories L st))

/-- Lines 154-159, the end of a tick: the output streams, the unlock and the print
countdown. -/
def runEnd (C : Constants R) (st : LocomotionThread R) : LocomotionThread R :=
  { st with
    log := st.log ++ [Action.sendStreamParams, Action.unlock]
    printCountdown :=
      if st.printCountdown + C.period ≥ C.PRINT_PERIOD then 0
      else st.printCountdown + C.period }

/-- Lines 125-160, `run`: one tick. `readRobotStatus()` is the non-blocking read. With the
status ON, the tick goes through the feedback law, the solver, the velocity reference and
the end of the tick when lines 135-137 are well-formed; when they are not, the tick stops
in those lines, after `updateReferenceTrajectories()`: there is no solver run, no velocity
reference, no stream send and no unlock, and the result is the state the tick stopped
in. -/
def run (C : Constants R) (L : Library R) (inp : StreamInput R) (rob : RobotAnswers R)
    (st : LocomotionThread R) : LocomotionThread R :=
  let st := (readRobotStatus L rob false (readStreamParams inp (st.emit Action.lock))).1
  if st.status = LocomotionStatus.LOCOMOTION_ON then
    if feedbackLawDefined L (updateReferenceTrajectories L st) then runEnd C (runOn C L st)
    else feedbackLawStopped L (updateReferenceTrajectories L st)
  else runEnd C st

/-- Lines 280-284 of `preStartOperations`: the three generators are initialised with
`x_com`, `x_foot` and `q`, the status is set and the control mode switched. -/
def startControl (st : LocomotionThread R) : LocomotionThread R :=
  { st with
    trajGenCom := trajCall st.trajGenCom (TrajCall.init st.x_com)
    trajGenFoot := trajCall st.trajGenFoot (TrajCall.init st.x_foot)
    trajGenPosture := trajCall st.trajGenPosture (TrajCall.init st.q)
    status := LocomotionStatus.LOCOMOTION_ON
    log := st.log ++ [Action.trajInit TrajGenId.trajGenCom st.x_com,
      Action.trajInit TrajGenId.trajGenFoot st.x_foot,
      Action.trajInit TrajGenId.trajGenPosture st.q,
      Action.setControlMode ControlMode.CTRL_MODE_VEL] }

/-- Lines 276-285, `preStartOperations`. -/
def preStartOperations (L : Library R) (rob : RobotAnswers R) (st : LocomotionThread R) :
    LocomotionThread R :=
  startControl (readRobotStatus L rob true st).1

/-- Lines 288-295, `preStopOperations`. -/
def preStopOperations (st : LocomotionThread R) : LocomotionThread R :=
  let dqMotors : List R := List.replicate st._n 0
  { st with
    status := LocomotionStatus.LOCOMOTION_OFF
    log := st.log ++ [Action.setVelRef dqMotors,
      Action.setControlMode ControlMode.CTRL_MODE_POS] }

/-- Lines 408-412, `sendMsg`: it only prints. -/
def sendMsg (st : LocomotionThread R) (type : MsgType) : LocomotionThread R :=
  st.emit (Action.sendMsg type)

/-- Lines 371-388, `parameterUpdated`; `none` when `numberOfJointsChanged` writes outside
the selection matrix. -/
def parameterUpdated (C : Constants R) (pd : ParamId) (st : LocomotionThread R) :
    Option (LocomotionThread R) :=
  match pd with
  | ParamId.PARAM_ID_TRAJ_TIME_COM =>
    some { st.emit (Action.trajSetT TrajGenId.trajGenCom st.tt_com) with
      trajGenCom := trajCall st.trajGenCom (TrajCall.setT st.tt_com) }
  | ParamId.PARAM_ID_TRAJ_TIME_FOOT =>
    some { st.emit (Action.trajSetT TrajGenId.trajGenFoot st.tt_foot) with
      trajGenFoot := trajCall st.trajGenFoot (TrajCall.setT st.tt_foot) }
  | ParamId.PARAM_ID_TRAJ_TIME_POSTURE =>
    some { st.emit (Action.trajSetT TrajGenId.trajGenPosture st.tt_posture) with
      trajGenPosture := trajCall st.trajGenPosture (TrajCall.setT st.tt_posture) }
  | ParamId.PARAM_ID_ACTIVE_JOINTS => numberOfJointsChanged C st
  | ParamId.PARAM_ID_SUPPORT_PHASE => some (numberOfConstraintsChanged st)
  | ParamId.other _ => some (st.sendMsg MsgType.MSG_WARNING)

/-- Lines 391-405, `commandReceived`. -/
def commandReceived (L : Library R) (rob : RobotAnswers R) (cd : CommandId)
    (st : LocomotionThread R) : LocomotionThread R :=
  match cd with
  | CommandId.COMMAND_ID_START => preStartOperations L rob st
  | CommandId.COMMAND_ID_STOP => (preStopOperations st).sendMsg MsgType.MSG_INFO
  | CommandId.other _ => st.sendMsg MsgType.MSG_WARNING

/-- Lines 51-73 of `threadInit`: the vectors are resized and zeroed, `H_w2b = eye(4,4)`. -/
def resizeVectors (C : Constants R) (st : LocomotionThread R) : LocomotionThread R :=
  { st with
    x_com := List.replicate C.DEFAULT_XDES_COM_size 0
    x_foot := List.replicate C.DEFAULT_XDES_FOOT_size 0
    xd_com := List.replicate C.DEFAULT_XDES_COM_size 0
    xd_foot := List.replicate C.DEFAULT_XDES_FOOT_size 0
    qd := List.replicate C.ICUB_DOFS 0
    xr_com := List.replicate C.DEFAULT_XDES_COM_size 0
    xr_foot := List.replicate C.DEFAULT_XDES_FOOT_size 0
    qr := List.replicate C.ICUB_DOFS 0
    dxr_com := List.replicate C.DEFAULT_XDES_COM_size 0
    dxr_foot := List.replicate 6 0
    dqr := List.replicate C.ICUB_DOFS 0
    dxc_com := List.replicate C.DEFAULT_XDES_COM_size 0
    dxc_foot := List.replicate 6 0
    kp_com := List.replicate C.DEFAULT_XDES_COM_size 0
    kp_foot := List.replicate 6 0
    kp_posture := List.replicate C.ICUB_DOFS 0
    H_w2b := MatrixXd.identity 4 4 }

/-- Lines 116-118 of `threadInit`: the three trajectory generators are created with the
dimensions 2, 7 and `ICUB_DOFS`. -/
def createTrajGens (C : Constants R) (st : LocomotionThread R) : LocomotionThread R :=
  { st with
    trajGenCom := some ⟨2, C.Ts, C.DEFAULT_TT_COM, []⟩
    trajGenFoot := some ⟨7, C.Ts, C.DEFAULT_TT_FOOT, []⟩
    trajGenPosture := some ⟨C.ICUB_DOFS, C.Ts, C.DEFAULT_TT_POSTURE, []⟩ }

/-- Lines 37-122, `threadInit`; `activeJoints` and `supportPhase` are the values the
parameter helper gives the two variables linked first. The result is the new state and
the value returned; `none` when `numberOfJointsChanged` writes outside the selection
matrix. The `linkParam` calls and the callback registrations are calls to the parameter
helper that are asserted to succeed. -/
def threadInit (C : Constants R) (L : Library R) (rob : RobotAnswers R)
    (activeJoints : List R) (supportPhase : SupportPhase) (st : LocomotionThread R) :
    Option (LocomotionThread R × Bool) :=
  match numberOfJointsChanged C
      { st with
        comLinkId := LinkId.COM_LINK_ID
        activeJoints := activeJoints
        supportPhase := supportPhase } with
  | none => none
  | some st =>
    let r := readRobotStatus L rob true (resizeVectors C (numberOfConstraintsChanged st))
    if r.2 then some (createTrajGens C r.1, true) else some (r.1, false)

end LocomotionThread

/-! ## Part II.c  Traces and observers of the log -/

section Observers

variable {R : Type} [CommRing R] [DecidableEq R]

/-- The actions `readRobotStatus(blockingRead)` appends to the log from the state `st`. -/
def readActions (rob : RobotAnswers R) (blockingRead : Bool) (st : LocomotionThread R) :
    List (Action R) :=
  (match rob.getQ blockingRead with
    | none => [Action.getQ blockingRead]
    | some _ => [Action.getQ blockingRead, Action.getDq blockingRead])
  ++ [Action.computeH LinkId.LINK_ID_LEFT_FOOT,
      Action.forwardKinematics
        (if st.supportPhase = SupportPhase.SUPPORT_LEFT then LinkId.LINK_ID_RIGHT_FOOT
          else LinkId.LINK_ID_LEFT_FOOT),
      Action.forwardKinematics st.comLinkId,
      Action.computeJacobian LinkId.LINK_ID_RIGHT_FOOT,
      Action.computeJacobian LinkId.LINK_ID_LEFT_FOOT,
      Action.computeJacobian st.comLinkId]

/-- The state a tick has after its state read. -/
def tickRead (L : Library R) (inp : StreamInput R) (rob : RobotAnswers R)
    (st : LocomotionThread R) : LocomotionThread R :=
  (LocomotionThread.readRobotStatus L rob false
    (LocomotionThread.readStreamParams inp (st.emit Action.lock))).1

/-- The velocity reference written last in a log, if any. -/
def lastVelRef : List (Action R) → Option (List R)
  | [] => none
  | a :: as =>
    match lastVelRef as with
    | some v => some v
    | none =>
      match a with
      | Action.setVelRef v => some v
      | _ => none

/-- The control mode set last in a log, if any. -/
def lastControlMode : List (Action R) → Option ControlMode
  | [] => none
  | a :: as =>
    match lastControlMode as with
    | some m => some m
    | none =>
      match a with
      | Action.setControlMode m => some m
      | _ => none

/-- A sequence of ticks, each with what it finds on the input streams and what the robot
interface answers. -/
def runTicks (C : Constants R) (L : Library R) :
    List (StreamInput R × RobotAnswers R) → LocomotionThread R → LocomotionThread R
  | [], st => st
  | t :: ts, st => runTicks C L ts (LocomotionThread.run C L t.1 t.2 st)

end Observers

/-! ## Part II.c, continued  The actions of a tick, events, and the dimension invariant -/

section TickObservers

variable {R : Type} [CommRing R] [DecidableEq R]

/-- The actions the branch `status==LOCOMOTION_ON` of a tick appends to the log, from the
state `X` the tick has after its state read: the three generator advances, the solver run
and the velocity reference written, which is the vector the solver returned. -/
def controlActions (C : Constants R) (L : Library R) (X : LocomotionThread R) :
    List (Action R) :=
  [Action.trajComputeNextValues TrajGenId.trajGenCom X.xd_com,
    Action.trajComputeNextValues TrajGenId.trajGenFoot X.xd_foot,
    Action.trajComputeNextValues TrajGenId.trajGenPosture X.qd,
    Action.solveTaskHierarchy,
    Action.setVelRef (LocomotionThread.solveTaskHierarchy C L
      (LocomotionThread.feedbackLaw L (LocomotionThread.updateReferenceTrajectories L X)))]

/-- The actions of `updateReferenceTrajectories()` from the state `X` the tick has after its
state read: the three generator advances. -/
def referenceActions (X : LocomotionThread R) : List (Action R) :=
  [Action.trajComputeNextValues TrajGenId.trajGenCom X.xd_com,
    Action.trajComputeNextValues TrajGenId.trajGenFoot X.xd_foot,
    Action.trajComputeNextValues TrajGenId.trajGenPosture X.qd]

/-- The actions one tick appends to the log from the state `st`: the lock, the stream read
and the state read; then, with the status ON, either the control actions, the stream send
and the unlock, or, when lines 135-137 are ill-formed, the generator advances only; with
the status OFF the stream send and the unlock. -/
def tickActions (C : Constants R) (L : Library R) (inp : StreamInput R)
    (rob : RobotAnswers R) (st : LocomotionThread R) : List (Action R) :=
  Action.lock :: Action.readStreamParams ::
    (readActions rob false st
      ++ (if st.status = LocomotionStatus.LOCOMOTION_ON then
            (if LocomotionThread.feedbackLawDefined L
                (LocomotionThread.updateReferenceTrajectories L (tickRead L inp rob st))
              then controlActions C L (tickRead L inp rob st)
                ++ [Action.sendStreamParams, Action.unlock]
              else referenceActions (tickRead L inp rob st))
          else [Action.sendStreamParams, Action.unlock]))

/-- Whether the lock is held at the end of a log: `lock` takes it, `unlock` releases
it. -/
def lockHeld (log : List (Action R)) : Bool :=
  log.foldl (fun held a =>
    if a = Action.lock then true else if a = Action.unlock then false else held) false

/-- Modelled from the spec: an event the controller reacts to. For a change of the active
joints or of the support phase the parameter helper writes the new value to the member it
is linked to (the mask keeps its size) and then calls `parameterUpdated`; `callback` is
`parameterUpdated` for a parameter whose value the thread state does not hold anew. -/
inductive Event (R : Type)
  | activeJointsChanged (mask : Nat → R)
  | supportPhaseChanged (phase : SupportPhase)
  | callback (pd : ParamId)
  | tick (inp : StreamInput R) (rob : RobotAnswers R)
  | command (cd : CommandId) (rob : RobotAnswers R)

/-- The state after one event; `none` when `updateSelectionMatrix` writes outside `S`. After
a tick that stopped in lines 135-137 the program handles no further event; the states
this function gives from there on are more than the program reaches. -/
def step (C : Constants R) (L : Library R) (e : Event R) (st : LocomotionThread R) :
    Option (LocomotionThread R) :=
  match e with
  | Event.activeJointsChanged mask =>
    LocomotionThread.parameterUpdated C ParamId.PARAM_ID_ACTIVE_JOINTS
      { st with activeJoints := vfill st.activeJoints.length mask }
  | Event.supportPhaseChanged phase =>
    LocomotionThread.parameterUpdated C ParamId.PARAM_ID_SUPPORT_PHASE
      { st with supportPhase := phase }
  | Event.callback pd => LocomotionThread.parameterUpdated C pd st
  | Event.tick inp rob => some (LocomotionThread.run C L inp rob st)
  | Event.command cd rob => some (LocomotionThread.commandReceived L rob cd st)

/-- The state after a sequence of events, first event first. -/
def runEvents (C : Constants R) (L : Library R) :
    List (Event R) → LocomotionThread R → Option (LocomotionThread R)
  | [], st => some st
  | e :: es, st =>
    match step C L e st with
    | none => none
    | some st' => runEvents C L es st'

/-- The dimension invariant: with `n = _n` and `k = _k`, `k` is 12 in double support and 6
otherwise, `Jc` is `k x (n+6)`, `Jcom_2xN` is `2 x (n+6)`, `Jfoot` is `6 x (n+6)`,
`Jposture` is `n x (n+6)`, `S` is `n x ICUB_DOFS`, `q`, `dqJ` and `dqc` have `n` entries
and `dq` has `n+6`; and the buffers the robot interface fills, `Jcom_6xN`, `JfootR` and
`JfootL`, are `6 x (n+6)`. -/
structure DimInv (C : Constants R) (st : LocomotionThread R) : Prop where
  k_eq : st._k = if st.supportPhase = SupportPhase.SUPPORT_DOUBLE then 12 else 6
  Jc_rows : st.Jc.rows = st._k
  Jc_cols : st.Jc.cols = st._n + 6
  Jcom_2xN_rows : st.Jcom_2xN.rows = 2
  Jcom_2xN_cols : st.Jcom_2xN.cols = st._n + 6
  Jfoot_rows : st.Jfoot.rows = 6
  Jfoot_cols : st.Jfoot.cols = st._n + 6
  Jposture_rows : st.Jposture.rows = st._n
  Jposture_cols : st.Jposture.cols = st._n + 6
  S_rows : st.S.rows = st._n
  S_cols : st.S.cols = C.ICUB_DOFS
  q_length : st.q.length = st._n
  dqJ_length : st.dqJ.length = st._n
  dqc_length : st.dqc.length = st._n
  dq_length : st.dq.length = st._n + 6
  Jcom_6xN_rows : st.Jcom_6xN.rows = 6
  Jcom_6xN_cols : st.Jcom_6xN.cols = st._n + 6
  JfootR_rows : st.JfootR.rows = 6
  JfootR_cols : st.JfootR.cols = st._n + 6
  JfootL_rows : st.JfootL.rows = 6
  JfootL_cols : st.JfootL.cols = st._n + 6

/-- The row counts that the types of the Jacobian members fix: 6 for `Jcom_6xN`, `Jfoot`,
`JfootR` and `JfootL`, 2 for `Jcom_2xN`. -/
structure FixedRows (st : LocomotionThread R) : Prop where
  Jcom_6xN_rows : st.Jcom_6xN.rows = 6
  Jcom_2xN_rows : st.Jcom_2xN.rows = 2
  Jfoot_rows : st.Jfoot.rows = 6
  JfootR_rows : st.JfootR.rows = 6
  JfootL_rows : st.JfootL.rows = 6

end TickObservers

/-! ## Part II.d  A concrete controller, used to evaluate the definitions -/

section Examples

/-- Pseudoinverse utilities that are exact on every matrix whose nonzero singular values
are all 1 (then the pseudoinverse is the transpose and the damped pseudoinverse for `damp`
is the transpose divided by `1 + damp²`). -/
def isometryUtils : PinvUtils ℚ where
  pinvTrunc := fun A _ => Aᵀ
  pinvDampTrunc := fun A _ damp => (Aᵀ, (1 / (1 + damp * damp)) • Aᵀ)

/-- The active-joint mask `(1, 0, 1)` over three joints. -/
def exampleMask : Nat → ℤ := fun i => [1, 0, 1].getD i 0

/-- A solver input with `k = 6` constraints and `n = 2` joints whose projected task
Jacobians all have singular values 0 or 1: the contact Jacobian constrains the columns
2 to 7, the CoM Jacobian reads column 0, there is no foot task and `Jposture` is
`MatrixXd::Identity(2, 8)` as `numberOfJointsChanged` builds it. The damping factor is 1. -/
def exampleInput : SolverInput ℚ 6 2 where
  Jc := Matrix.of (fun i j => if j.val = i.val + 2 then 1 else 0)
  Jcom_2xN := Matrix.of (fun i j => if i.val = 0 ∧ j.val = 0 then 1 else 0)
  Jfoot := 0
  Jposture := Matrix.of (fun i j => if i.val = j.val then 1 else 0)
  dxc_comE := ![3, 0]
  dxc_footE := 0
  dqcE := ![5, 7]
  pinvDamp := 1

/-- A solver input in the layout `[base(6); joints(2)]` of `readRobotStatus`: the stance
foot moves with the base (`Jc = [I | 0]`), the CoM moves with the first joint (column 6),
there is no foot task and `Jposture` is `MatrixXd::Identity(2, 8)`. No damping. -/
def baseFirstInput : SolverInput ℚ 6 2 where
  Jc := Matrix.of (fun i j => if j.val = i.val then 1 else 0)
  Jcom_2xN := Matrix.of (fun i j => if i.val = 0 ∧ j.val = 6 then 1 else 0)
  Jfoot := 0
  Jposture := Matrix.of (fun i j => if i.val = j.val then 1 else 0)
  dxc_comE := ![3, 0]
  dxc_footE := 0
  dqcE := ![5, 7]
  pinvDamp := 0

/-- The diagonal 8 x 8 matrix with ones at the diagonal positions where `p` holds. -/
def diag8 (p : Nat → Bool) : Matrix (Fin 8) (Fin 8) ℚ :=
  Matrix.of (fun i j => if i = j ∧ p i.val = true then 1 else 0)

/-- A robot with `ICUB_DOFS = 3` joints, all in body part 0. -/
def exampleConstants : Constants ℚ where
  ICUB_DOFS := 3
  DEFAULT_XDES_COM_size := 2
  DEFAULT_XDES_FOOT_size := 7
  DEFAULT_TT_COM := 4
  DEFAULT_TT_FOOT := 2
  DEFAULT_TT_POSTURE := 4
  PINV_TOL := 0
  PRINT_PERIOD := 1000
  period := 10
  Ts := 1 / 100
  globalToLocalId := fun i => ⟨0, i⟩

/-- Stand-ins for the library functions: generators that report their last call. -/
def exampleLibrary : Library ℚ where
  utils := isometryUtils
  svdSolve := fun _ _ => List.replicate 6 0
  SE3inv := fun H => H
  dcm2axis := fun _ => [0, 0, 1, 0]
  compute6DError := fun x xr => (vsub xr x).take 6
  getPos := fun g =>
    match g.calls.getLast? with
    | some (TrajCall.init y0) => y0
    | some (TrajCall.computeNextValues xd) => xd
    | _ => List.replicate g.dim 0
  getVel := fun g => List.replicate g.dim 0

/-- A robot at rest whose joint `i` reads `i + 1`, whose right-foot Jacobian has ones and
whose left-foot Jacobian has twos on the main diagonal. -/
def exampleRobot : RobotAnswers ℚ where
  getQ := fun _ => some (fun i => (i : ℚ) + 1)
  getDq := fun _ => some (fun _ => 0)
  computeH := fun _ _ _ i j => if i = j then 1 else 0
  forwardKinematics := fun q _ link i =>
    match link with
    | LinkId.LINK_ID_RIGHT_FOOT => if i = 1 then -1 else 0
    | LinkId.LINK_ID_LEFT_FOOT => if i = 1 then 1 else 0
    | LinkId.COM_LINK_ID => q.getD i 0
  computeJacobian := fun _ _ link i j =>
    match link with
    | LinkId.LINK_ID_RIGHT_FOOT => if i = j then 1 else 0
    | LinkId.LINK_ID_LEFT_FOOT => if i = j then 2 else 0
    | LinkId.COM_LINK_ID => 0

/-- Memory before the constructor runs. -/
def blankMemory : LocomotionThread ℚ where
  status := LocomotionStatus.LOCOMOTION_ON
  printCountdown := 7
  supportPhase := SupportPhase.SUPPORT_RIGHT
  activeJoints := []
  _n := 0
  _k := 0
  comLinkId := LinkId.LINK_ID_LEFT_FOOT
  footLinkId := LinkId.LINK_ID_LEFT_FOOT
  x_com := []
  x_foot := []
  xd_com := []
  xd_foot := []
  qd := []
  xr_com := []
  xr_foot := []
  qr := []
  dxr_com := []
  dxr_foot := []
  dqr := []
  dxc_com := []
  dxc_foot := []
  kp_com := []
  kp_foot := []
  kp_posture := []
  H_w2b := MatrixXd.zero 0 0
  xBase := []
  q := []
  dq := []
  dqJ := []
  dqc := []
  Jcom_6xN := MatrixXd.zero 0 0
  Jcom_2xN := MatrixXd.zero 0 0
  Jfoot := MatrixXd.zero 0 0
  JfootR := MatrixXd.zero 0 0
  JfootL := MatrixXd.zero 0 0
  Jposture := MatrixXd.zero 0 0
  Jc := MatrixXd.zero 0 0
  S := MatrixXd.zero 0 0
  tt_com := 0
  tt_foot := 0
  tt_posture := 0
  pinvDamp := 0
  trajGenCom := none
  trajGenFoot := none
  trajGenPosture := none
  robotJointList := []
  log := []

/-- The thread after the constructor and `threadInit` with the joints 0 and 2 of 3 active
and the left foot as support; the log is emptied. -/
def exampleThread : LocomotionThread ℚ :=
  match LocomotionThread.threadInit exampleConstants exampleLibrary exampleRobot
      [1, 0, 1] SupportPhase.SUPPORT_LEFT (LocomotionThread.new blankMemory []) with
  | some r => { r.1 with log := [] }
  | none => LocomotionThread.new blankMemory []

/-- The example thread after the start command. -/
def startedThread : LocomotionThread ℚ :=
  LocomotionThread.commandReceived exampleLibrary exampleRobot CommandId.COMMAND_ID_START
    exampleThread

end Examples

section MoreExamples

/-- A solver input in the layout `[base(6); joints(2)]` with a foot task: the stance foot
moves with the base (`Jc = [I | 0]`), the CoM moves with the first joint (column 6), the
first coordinate of the swing foot moves with the second joint (column 7). No damping. -/
def footTaskInput : SolverInput ℚ 6 2 where
  Jc := Matrix.of (fun i j => if j.val = i.val then 1 else 0)
  Jcom_2xN := Matrix.of (fun i j => if i.val = 0 ∧ j.val = 6 then 1 else 0)
  Jfoot := Matrix.of (fun i j => if i.val = 0 ∧ j.val = 7 then 1 else 0)
  Jposture := Matrix.of (fun i j => if i.val = j.val then 1 else 0)
  dxc_comE := ![3, 0]
  dxc_footE := ![4, 0, 0, 0, 0, 0]
  dqcE := ![5, 7]
  pinvDamp := 0

/-- A freshly constructed thread with the joint list `jl` at the robot interface and
`mask` as the active-joint mask, as `threadInit` has it when it calls
`numberOfJointsChanged`. -/
def freshThread (jl : List LocalId) (mask : List ℚ) : LocomotionThread ℚ :=
  { LocomotionThread.new blankMemory jl with activeJoints := mask }

/-- The thread after the constructor and `threadInit` with the joints 0 and 2 of 3 active
and both feet as support; the log is emptied. -/
def doubleSupportThread : LocomotionThread ℚ :=
  match LocomotionThread.threadInit exampleConstants exampleLibrary exampleRobot
      [1, 0, 1] SupportPhase.SUPPORT_DOUBLE (LocomotionThread.new blankMemory []) with
  | some r => { r.1 with log := [] }
  | none => LocomotionThread.new blankMemory []

/-- Three events: the support phase becomes double support, the mask becomes `(0, 1, 0)`,
and one tick. -/
def exampleEvents : List (Event ℚ) :=
  [Event.supportPhaseChanged SupportPhase.SUPPORT_DOUBLE,
    Event.activeJointsChanged (fun i => if i = 1 then 1 else 0),
    Event.tick ⟨none, none, none, none⟩ exampleRobot]

end MoreExamples

section FeedbackExamples

/-- The input `baseFirstInput` with the damping factor 1. -/
def dampedBaseFirstInput : SolverInput ℚ 6 2 :=
  { baseFirstInput with pinvDamp := 1 }

/-- A library like `exampleLibrary` whose `svd.solve` is exact for a diagonal matrix without
a zero on the diagonal: entry `i` of the solution of `A x = b` is `b i / A i i`. -/
def diagonalSolveLibrary : Library ℚ :=
  { exampleLibrary with svdSolve := fun A b => vfill 6 (fun i => b.getD i 0 / A.get i i) }

/-- A robot like `exampleRobot` whose joints move with the velocities `(1, 2)`. -/
def movingRobot : RobotAnswers ℚ :=
  { exampleRobot with getDq := fun _ => some (fun i => (i : ℚ) + 1) }

/-- A robot whose first joint moves with velocity 1 and whose left foot moves with the base
(twos on the diagonal of the 6 base columns of its Jacobian) and also, in its first
coordinate, along the first joint (a 1 at row 0 of column 6). -/
def slidingRobot : RobotAnswers ℚ :=
  { exampleRobot with
    getDq := fun _ => some (fun i => if i = 0 then 1 else 0)
    computeJacobian := fun _ _ link i j =>
      match link with
      | LinkId.LINK_ID_RIGHT_FOOT => if i = j then 1 else 0
      | LinkId.LINK_ID_LEFT_FOOT => if i = j then 2 else if i = 0 ∧ j = 6 then 1 else 0
      | LinkId.COM_LINK_ID => 0 }

end FeedbackExamples


/-! # Theorems -/

set_option linter.unusedSectionVars false

/-! ## Theorems, Part I: the solver and the selection matrix -/

section SolverLemmas

variable {R : Type} [CommRing R]

theorem isProjector_one {m : Nat} : IsProjector (1 : Matrix (Fin m) (Fin m) R) :=
  ⟨Matrix.transpose_one, Matrix.mul_one 1⟩

/-- The pseudoinverse of `J * N`, for a symmetric `N`, has its columns in the range of `N`. -/
theorem IsPinv.eq_proj_mul {r m : Nat} {J : Matrix (Fin r) (Fin m) R}
    {N : Matrix (Fin m) (Fin m) R} {X : Matrix (Fin m) (Fin r) R}
    (h : IsPinv (J * N) X) (hN : Nᵀ = N) : X = N * (Jᵀ * Xᵀ * X) := by
  calc X = X * (J * N) * X := h.pinv_mul_pinv.symm
    _ = (X * (J * N))ᵀ * X := by rw [h.pinv_mul_symm]
    _ = N * (Jᵀ * Xᵀ * X) := by
      simp only [Matrix.transpose_mul, hN, Matrix.mul_assoc]

/-- What `N` annihilates on the left, the pseudoinverse of `J * N` annihilates too. -/
theorem IsPinv.left_annihilated {r m s : Nat} {J : Matrix (Fin r) (Fin m) R}
    {N : Matrix (Fin m) (Fin m) R} {X : Matrix (Fin m) (Fin r) R}
    (h : IsPinv (J * N) X) (hN : Nᵀ = N) (C : Matrix (Fin s) (Fin m) R)
    (hC : C * N = 0) : C * X = 0 := by
  rw [h.eq_proj_mul hN, ← Matrix.mul_assoc, hC, Matrix.zero_mul]

/-- What `N` annihilates on the left, the damped pseudoinverse of `J * N` annihilates too. -/
theorem IsDampedPinv.damped_left_annihilated {r m s : Nat} {J : Matrix (Fin r) (Fin m) R}
    {N : Matrix (Fin m) (Fin m) R} {X XD : Matrix (Fin m) (Fin r) R} {damp : R}
    (h : IsPinv (J * N) X) (hD : IsDampedPinv (J * N) damp X XD) (hN : Nᵀ = N)
    (C : Matrix (Fin s) (Fin m) R) (hC : C * N = 0) : C * XD = 0 := by
  rw [← hD.row_space, ← Matrix.mul_assoc, ← Matrix.mul_assoc, h.left_annihilated hN C hC,
    Matrix.zero_mul, Matrix.zero_mul]

/-- One projector update `N - X * J * N` with `X` the pseudoinverse of `J * N`: the result
is again a projector, it annihilates `J`, and it annihilates whatever `N` annihilated. -/
theorem projector_step {r m : Nat} {J : Matrix (Fin r) (Fin m) R}
    {N : Matrix (Fin m) (Fin m) R} {X : Matrix (Fin m) (Fin r) R}
    (h : IsPinv (J * N) X) (hN : IsProjector N) :
    IsProjector (N - X * J * N) ∧ J * (N - X * J * N) = 0 ∧
      ∀ {s : Nat} (C : Matrix (Fin s) (Fin m) R), C * N = 0 → C * (N - X * J * N) = 0 := by
  have hNX : N * X = X := by
    have e := h.eq_proj_mul hN.symm
    have e' : N * X = N * (N * (Jᵀ * Xᵀ * X)) := congrArg (fun Y => N * Y) e
    rw [e', ← Matrix.mul_assoc, hN.idem]
    exact e.symm
  have hP : X * J * N = X * (J * N) := Matrix.mul_assoc _ _ _
  have hPs : (X * (J * N))ᵀ = X * (J * N) := h.pinv_mul_symm
  have hPP : X * (J * N) * (X * (J * N)) = X * (J * N) := by
    rw [← Matrix.mul_assoc, h.pinv_mul_pinv]
  have hNP : N * (X * (J * N)) = X * (J * N) := by
    rw [← Matrix.mul_assoc, hNX]
  have hPN : X * (J * N) * N = X * (J * N) := by
    rw [Matrix.mul_assoc, Matrix.mul_assoc, hN.idem]
  refine ⟨⟨?_, ?_⟩, ?_, ?_⟩
  · rw [hP, Matrix.transpose_sub, hPs, hN.symm]
  · rw [hP, Matrix.sub_mul, Matrix.mul_sub, Matrix.mul_sub, hN.idem, hNP, hPN, hPP]
    simp
  · rw [hP, Matrix.mul_sub]
    have : J * (X * (J * N)) = J * N * X * (J * N) := by
      conv_lhs => rw [← hNX]
      simp only [Matrix.mul_assoc]
    rw [this, h.mul_pinv_mul, sub_self]
  · intro s C hC
    rw [Matrix.mul_sub, hC, hP, ← Matrix.mul_assoc, h.left_annihilated hN.symm C hC,
      Matrix.zero_mul, sub_self]

variable {k n : Nat}

theorem N_contact_facts (U : PinvUtils R) (tol : R) (inp : SolverInput R k n)
    (h : ExactPinvs U tol inp) :
    IsProjector (N_contact U tol inp) ∧ inp.Jc * N_contact U tol inp = 0 := by
  have h1 : IsPinv (inp.Jc * (1 : Matrix (Fin (n + 6)) (Fin (n + 6)) R)) (Jc_pinv U tol inp) := by
    rw [Matrix.mul_one]; exact h.contact
  have := projector_step h1 isProjector_one
  simp only [Matrix.mul_one] at this
  exact ⟨this.1, this.2.1⟩

theorem N_com_facts (U : PinvUtils R) (tol : R) (inp : SolverInput R k n)
    (h : ExactPinvs U tol inp) :
    IsProjector (N_com U tol inp) ∧ inp.Jc * N_com U tol inp = 0 ∧
      inp.Jcom_2xN * N_com U tol inp = 0 := by
  obtain ⟨hp, hc⟩ := N_contact_facts U tol inp h
  obtain ⟨h1, h2, h3⟩ := projector_step h.com hp
  exact ⟨h1, h3 _ hc, h2⟩

theorem N_foot_facts (U : PinvUtils R) (tol : R) (inp : SolverInput R k n)
    (h : ExactPinvs U tol inp) :
    IsProjector (N_foot U tol inp) ∧ inp.Jc * N_foot U tol inp = 0 ∧
      inp.Jcom_2xN * N_foot U tol inp = 0 ∧ inp.Jfoot * N_foot U tol inp = 0 := by
  obtain ⟨hp, hc, hcom⟩ := N_com_facts U tol inp h
  obtain ⟨h1, h2, h3⟩ := projector_step h.foot hp
  exact ⟨h1, h3 _ hc, h3 _ hcom, h2⟩

theorem Jc_mulVec_dqDes_com (U : PinvUtils R) (tol : R) (inp : SolverInput R k n)
    (h : ExactPinvs U tol inp) : inp.Jc.mulVec (dqDes_com U tol inp) = 0 := by
  obtain ⟨hp, hc⟩ := N_contact_facts U tol inp h
  simp only [dqDes_com, zero_add, Matrix.mulVec_mulVec,
    IsDampedPinv.damped_left_annihilated h.com h.comD hp.symm inp.Jc hc, Matrix.zero_mulVec]

theorem Jc_mulVec_dqDes_foot (U : PinvUtils R) (tol : R) (inp : SolverInput R k n)
    (h : ExactPinvs U tol inp) : inp.Jc.mulVec (dqDes_foot U tol inp) = 0 := by
  obtain ⟨hp, hc, _⟩ := N_com_facts U tol inp h
  simp only [dqDes_foot, Matrix.mulVec_add, Jc_mulVec_dqDes_com U tol inp h,
    Matrix.mulVec_mulVec, IsDampedPinv.damped_left_annihilated h.foot h.footD hp.symm inp.Jc hc,
    Matrix.zero_mulVec, add_zero]

theorem Jc_mulVec_dqDes (U : PinvUtils R) (tol : R) (inp : SolverInput R k n)
    (h : ExactPinvs U tol inp) : inp.Jc.mulVec (dqDes U tol inp) = 0 := by
  obtain ⟨hp, hc, _⟩ := N_foot_facts U tol inp h
  simp only [dqDes, Matrix.mulVec_add, Jc_mulVec_dqDes_foot U tol inp h,
    Matrix.mulVec_mulVec, h.posture.left_annihilated hp.symm inp.Jc hc,
    Matrix.zero_mulVec, add_zero]

/-- The posture step does not change the CoM task velocity. -/
theorem Jcom_mulVec_dqDes (U : PinvUtils R) (tol : R) (inp : SolverInput R k n)
    (h : ExactPinvs U tol inp) :
    inp.Jcom_2xN.mulVec (dqDes U tol inp)
      = inp.Jcom_2xN.mulVec (dqDes_foot U tol inp) := by
  obtain ⟨hp, _, hcom, _⟩ := N_foot_facts U tol inp h
  have hX : inp.Jcom_2xN * Jposture_pinv U tol inp = 0 :=
    h.posture.left_annihilated hp.symm inp.Jcom_2xN hcom
  simp only [dqDes, Matrix.mulVec_add, Matrix.mulVec_mulVec, hX, Matrix.zero_mulVec,
    add_zero]

end SolverLemmas

section ExampleLemmas

theorem exampleInput_N_contact :
    N_contact isometryUtils 0 exampleInput = diag8 (fun i => decide (i < 2)) := by
  with_unfolding_all decide

theorem exampleInput_Jcom_pinvs :
    (Jcom_pinvs isometryUtils 0 exampleInput).1 = exampleInput.Jcom_2xNᵀ ∧
    (Jcom_pinvs isometryUtils 0 exampleInput).2 = (1 / 2 : ℚ) • exampleInput.Jcom_2xNᵀ := by
  unfold Jcom_pinvs
  rw [exampleInput_N_contact]
  with_unfolding_all decide

theorem exampleInput_N_com :
    N_com isometryUtils 0 exampleInput = diag8 (fun i => decide (i = 1)) := by
  unfold N_com
  rw [exampleInput_Jcom_pinvs.1, exampleInput_N_contact]
  with_unfolding_all decide

theorem exampleInput_Jfoot_pinvs :
    (Jfoot_pinvs isometryUtils 0 exampleInput).1 = 0 ∧
    (Jfoot_pinvs isometryUtils 0 exampleInput).2 = 0 := by
  unfold Jfoot_pinvs
  rw [exampleInput_N_com]
  with_unfolding_all decide

theorem exampleInput_N_foot :
    N_foot isometryUtils 0 exampleInput = diag8 (fun i => decide (i = 1)) := by
  unfold N_foot
  rw [exampleInput_Jfoot_pinvs.1, exampleInput_N_com]
  with_unfolding_all decide

theorem exampleInput_Jposture_pinv :
    Jposture_pinv isometryUtils 0 exampleInput = Matrix.of (fun i j => if i.val = 1 ∧ j.val = 1 then 1 else 0) := by
  unfold Jposture_pinv
  rw [exampleInput_N_foot]
  with_unfolding_all decide

/-- The utilities `isometryUtils` are exact at the four calls made on `exampleInput`. -/
theorem exampleInput_exact : ExactPinvs isometryUtils 0 exampleInput := by
  refine ⟨⟨?_, ?_, ?_, ?_⟩, ⟨?_, ?_, ?_, ?_⟩, ⟨?_, ?_⟩, ⟨?_, ?_, ?_, ?_⟩, ⟨?_, ?_⟩,
    ⟨?_, ?_, ?_, ?_⟩⟩
  all_goals
    simp only [Jc_pinv, exampleInput_Jcom_pinvs.1, exampleInput_Jcom_pinvs.2,
      exampleInput_Jfoot_pinvs.1, exampleInput_Jfoot_pinvs.2, exampleInput_Jposture_pinv,
      exampleInput_N_contact, exampleInput_N_com, exampleInput_N_foot]
    with_unfolding_all decide

theorem exampleInput_dqDes_com :
    dqDes_com isometryUtils 0 exampleInput = ![3 / 2, 0, 0, 0, 0, 0, 0, 0] := by
  unfold dqDes_com
  rw [exampleInput_Jcom_pinvs.2]
  with_unfolding_all decide

theorem exampleInput_dqDes_foot :
    dqDes_foot isometryUtils 0 exampleInput = ![3 / 2, 0, 0, 0, 0, 0, 0, 0] := by
  unfold dqDes_foot
  rw [exampleInput_dqDes_com, exampleInput_Jfoot_pinvs.2]
  with_unfolding_all decide

theorem exampleInput_dqDes :
    dqDes isometryUtils 0 exampleInput = ![3 / 2, 7, 0, 0, 0, 0, 0, 0] := by
  unfold dqDes
  rw [exampleInput_dqDes_foot, exampleInput_Jposture_pinv]
  with_unfolding_all decide

theorem baseFirstInput_N_contact :
    N_contact isometryUtils 0 baseFirstInput = diag8 (fun i => decide (6 ≤ i)) := by
  with_unfolding_all decide

theorem baseFirstInput_Jcom_pinvs :
    (Jcom_pinvs isometryUtils 0 baseFirstInput).1 = baseFirstInput.Jcom_2xNᵀ ∧
    (Jcom_pinvs isometryUtils 0 baseFirstInput).2 = (1 : ℚ) • baseFirstInput.Jcom_2xNᵀ := by
  unfold Jcom_pinvs
  rw [baseFirstInput_N_contact]
  with_unfolding_all decide

theorem baseFirstInput_N_com :
    N_com isometryUtils 0 baseFirstInput = diag8 (fun i => decide (i = 7)) := by
  unfold N_com
  rw [baseFirstInput_Jcom_pinvs.1, baseFirstInput_N_contact]
  with_unfolding_all decide

theorem baseFirstInput_Jfoot_pinvs :
    (Jfoot_pinvs isometryUtils 0 baseFirstInput).1 = 0 ∧
    (Jfoot_pinvs isometryUtils 0 baseFirstInput).2 = 0 := by
  unfold Jfoot_pinvs
  rw [baseFirstInput_N_com]
  with_unfolding_all decide

theorem baseFirstInput_N_foot :
    N_foot isometryUtils 0 baseFirstInput = diag8 (fun i => decide (i = 7)) := by
  unfold N_foot
  rw [baseFirstInput_Jfoot_pinvs.1, baseFirstInput_N_com]
  with_unfolding_all decide

theorem baseFirstInput_Jposture_pinv :
    Jposture_pinv isometryUtils 0 baseFirstInput = 0 := by
  unfold Jposture_pinv
  rw [baseFirstInput_N_foot]
  with_unfolding_all decide

/-- The utilities `isometryUtils` are exact at the four calls made on `baseFirstInput`. -/
theorem baseFirstInput_exact : ExactPinvs isometryUtils 0 baseFirstInput := by
  refine ⟨⟨?_, ?_, ?_, ?_⟩, ⟨?_, ?_, ?_, ?_⟩, ⟨?_, ?_⟩, ⟨?_, ?_, ?_, ?_⟩, ⟨?_, ?_⟩,
    ⟨?_, ?_, ?_, ?_⟩⟩
  all_goals
    simp only [Jc_pinv, baseFirstInput_Jcom_pinvs.1, baseFirstInput_Jcom_pinvs.2,
      baseFirstInput_Jfoot_pinvs.1, baseFirstInput_Jfoot_pinvs.2, baseFirstInput_Jposture_pinv,
      baseFirstInput_N_contact, baseFirstInput_N_com, baseFirstInput_N_foot]
    with_unfolding_all decide

theorem baseFirstInput_dqDes_com :
    dqDes_com isometryUtils 0 baseFirstInput = ![0, 0, 0, 0, 0, 0, 3, 0] := by
  unfold dqDes_com
  rw [baseFirstInput_Jcom_pinvs.2]
  with_unfolding_all decide

theorem baseFirstInput_dqDes_foot :
    dqDes_foot isometryUtils 0 baseFirstInput = ![0, 0, 0, 0, 0, 0, 3, 0] := by
  unfold dqDes_foot
  rw [baseFirstInput_dqDes_com, baseFirstInput_Jfoot_pinvs.2]
  with_unfolding_all decide

theorem baseFirstInput_dqDes :
    dqDes isometryUtils 0 baseFirstInput = ![0, 0, 0, 0, 0, 0, 3, 0] := by
  unfold dqDes
  rw [baseFirstInput_dqDes_foot, baseFirstInput_Jposture_pinv]
  with_unfolding_all decide

theorem exampleInput_dqDes_other_target :
    dqDes isometryUtils 0 { exampleInput with dqcE := ![0, 1] }
      = ![3 / 2, 1, 0, 0, 0, 0, 0, 0] := by
  show dqDes_foot isometryUtils 0 exampleInput
    + (Jposture_pinv isometryUtils 0 exampleInput).mulVec
        (![0, 1] - exampleInput.Jposture.mulVec (dqDes_foot isometryUtils 0 exampleInput)) = _
  rw [exampleInput_dqDes_foot, exampleInput_Jposture_pinv]
  with_unfolding_all decide

end ExampleLemmas

/-- C1. With the pseudoinverse utilities exact at the calls made, the vector `dqDes`
accumulated by `solveTaskHierarchy` satisfies `Jc * dqDes = 0`, for every constraint count
`k`, joint count `n`, Jacobians, task targets and damping factor. -/
theorem C1_contact_constraint_holds {R : Type} [CommRing R] {k n : Nat}
    (U : PinvUtils R) (PINV_TOL : R) (inp : SolverInput R k n)
    (h : ExactPinvs U PINV_TOL inp) :
    inp.Jc.mulVec (dqDes U PINV_TOL inp) = 0 :=
  Jc_mulVec_dqDes U PINV_TOL inp h

/-- C1 at `exampleInput` (damping 1): the utilities are exact there, the accumulated
velocity is `(3/2, 7, 0, 0, 0, 0, 0, 0)` and the contact Jacobian annihilates it. -/
theorem C1_contact_constraint_holds_witness :
    ExactPinvs isometryUtils 0 exampleInput ∧
      dqDes isometryUtils 0 exampleInput = ![3 / 2, 7, 0, 0, 0, 0, 0, 0] ∧
      exampleInput.Jc.mulVec (dqDes isometryUtils 0 exampleInput) = 0 :=
  ⟨exampleInput_exact, exampleInput_dqDes,
    C1_contact_constraint_holds isometryUtils 0 exampleInput exampleInput_exact⟩

/-- C2. Two runs of `solveTaskHierarchy` that differ only in the posture target `dqcE`
give the same `Jc * dqDes` and the same `Jcom_2xN * dqDes` (utilities exact at the calls
made, which do not depend on the posture target). -/
theorem C2_posture_target_non_interference {R : Type} [CommRing R] {k n : Nat}
    (U : PinvUtils R) (PINV_TOL : R) (inp : SolverInput R k n) (dqc' : Fin n → R)
    (h : ExactPinvs U PINV_TOL inp) :
    inp.Jc.mulVec (dqDes U PINV_TOL { inp with dqcE := dqc' })
        = inp.Jc.mulVec (dqDes U PINV_TOL inp) ∧
      inp.Jcom_2xN.mulVec (dqDes U PINV_TOL { inp with dqcE := dqc' })
        = inp.Jcom_2xN.mulVec (dqDes U PINV_TOL inp) := by
  have h' : ExactPinvs U PINV_TOL { inp with dqcE := dqc' } :=
    ⟨h.contact, h.com, h.comD, h.foot, h.footD, h.posture⟩
  constructor
  · rw [Jc_mulVec_dqDes U PINV_TOL inp h]
    exact Jc_mulVec_dqDes U PINV_TOL { inp with dqcE := dqc' } h'
  · rw [Jcom_mulVec_dqDes U PINV_TOL inp h]
    exact Jcom_mulVec_dqDes U PINV_TOL { inp with dqcE := dqc' } h'

/-- C2 at `exampleInput` against the posture target `(0, 1)` in place of `(5, 7)`: the two
accumulated velocities differ, their images under `Jc` and `Jcom_2xN` do not. -/
theorem C2_posture_target_non_interference_witness :
    ExactPinvs isometryUtils 0 exampleInput ∧
      dqDes isometryUtils 0 { exampleInput with dqcE := ![0, 1] }
        ≠ dqDes isometryUtils 0 exampleInput ∧
      exampleInput.Jc.mulVec (dqDes isometryUtils 0 { exampleInput with dqcE := ![0, 1] })
        = exampleInput.Jc.mulVec (dqDes isometryUtils 0 exampleInput) ∧
      exampleInput.Jcom_2xN.mulVec
          (dqDes isometryUtils 0 { exampleInput with dqcE := ![0, 1] })
        = exampleInput.Jcom_2xN.mulVec (dqDes isometryUtils 0 exampleInput) :=
  ⟨exampleInput_exact,
    by rw [exampleInput_dqDes_other_target, exampleInput_dqDes]; with_unfolding_all decide,
    C2_posture_target_non_interference isometryUtils 0 exampleInput ![0, 1]
      exampleInput_exact⟩

/-- C3, the code at the failing input `baseFirstInput` (layout `[base(6); joints(2)]`,
utilities exact): the accumulated `dqDes` is `(0, 0, 0, 0, 0, 0, 3, 0)`, its trailing two
entries, the joint velocities, are `(3, 0)`, and `solveTaskHierarchy` returns the leading
two entries `(0, 0)`. -/
theorem C3_returns_leading_entries :
    ExactPinvs isometryUtils 0 baseFirstInput ∧
      dqDes isometryUtils 0 baseFirstInput = ![0, 0, 0, 0, 0, 0, 3, 0] ∧
      jointTail (dqDes isometryUtils 0 baseFirstInput) = ![3, 0] ∧
      solveTaskHierarchy isometryUtils 0 baseFirstInput = ![0, 0] := by
  refine ⟨baseFirstInput_exact, baseFirstInput_dqDes, ?_, ?_⟩
  · rw [baseFirstInput_dqDes]; with_unfolding_all decide
  · unfold solveTaskHierarchy
    rw [baseFirstInput_dqDes]; with_unfolding_all decide

section SelectionLemmas

variable {R : Type} [CommRing R] [DecidableEq R]

theorem nonzerosBefore_zero (aj : Nat → R) : nonzerosBefore aj 0 = 0 := by
  simp [nonzerosBefore]

theorem nonzerosBefore_succ (aj : Nat → R) (t : Nat) :
    nonzerosBefore aj (t + 1) = nonzerosBefore aj t + if aj t ≠ 0 then 1 else 0 := by
  unfold nonzerosBefore
  rw [Finset.range_succ, Finset.filter_insert]
  split_ifs with h
  · rw [Finset.card_insert_of_not_mem]
    simp
  · rfl

theorem nonzerosBefore_mono (aj : Nat → R) {s t : Nat} (h : s ≤ t) :
    nonzerosBefore aj s ≤ nonzerosBefore aj t := by
  induction h with
  | refl => exact le_refl _
  | step _ ih => rw [nonzerosBefore_succ]; omega

theorem nonzerosBefore_lt (aj : Nat → R) {s t : Nat} (h : s < t) (hs : aj s ≠ 0) :
    nonzerosBefore aj s < nonzerosBefore aj t := by
  have h1 := nonzerosBefore_mono aj (Nat.succ_le_of_lt h)
  rw [Nat.succ_eq_add_one, nonzerosBefore_succ, if_pos hs] at h1
  omega

/-- Every rank below the count is attained. -/
theorem exists_index_of_lt_nonzerosBefore (aj : Nat → R) (D j : Nat)
    (h : j < nonzerosBefore aj D) : ∃ i, i < D ∧ aj i ≠ 0 ∧ nonzerosBefore aj i = j := by
  induction D with
  | zero => simp [nonzerosBefore_zero] at h
  | succ D ih =>
    rw [nonzerosBefore_succ] at h
    by_cases hj : j < nonzerosBefore aj D
    · obtain ⟨i, hi, h1, h2⟩ := ih hj
      exact ⟨i, by omega, h1, h2⟩
    · by_cases hD : aj D ≠ 0
      · rw [if_pos hD] at h
        exact ⟨D, by omega, hD, by omega⟩
      · rw [if_neg hD] at h
        omega

theorem updateSelectionMatrix_loop_eq (n D : Nat) (aj : Nat → R)
    (hn : nonzerosBefore aj D = n) (t : Nat) (ht : t ≤ D) :
    updateSelectionMatrix_loop n D aj t
      = some (Matrix.of (fun (j : Fin n) (i : Fin D) =>
          if i.val < t ∧ aj i.val ≠ 0 ∧ nonzerosBefore aj i.val = j.val then (1 : R) else 0),
          nonzerosBefore aj t) := by
  induction t with
  | zero =>
    simp only [updateSelectionMatrix_loop, nonzerosBefore_zero]
    congr 2
  | succ t ih =>
    have htD : t < D := ht
    rw [updateSelectionMatrix_loop, ih (by omega)]
    simp only [htD, dite_true, updateSelectionMatrix_body]
    by_cases hz : aj t ≠ 0
    · have hlt : nonzerosBefore aj t < n := by
        rw [← hn]; exact nonzerosBefore_lt aj htD hz
      rw [if_pos hz, dif_pos hlt, nonzerosBefore_succ, if_pos hz]
      congr 2
      ext j i
      simp only [Matrix.of_apply, Fin.ext_iff]
      by_cases hit : i.val = t
      · by_cases hj : j.val = nonzerosBefore aj t
        · simp [hit, hj, hz]
        · have : ¬ (nonzerosBefore aj t = j.val) := fun h => hj h.symm
          simp [hit, hj, this]
      · have : (i.val < t + 1) = (i.val < t) := by
          apply propext; omega
        simp [hit, this]
    · rw [if_neg hz, nonzerosBefore_succ, if_neg hz]
      congr 2
      ext j i
      simp only [Matrix.of_apply]
      by_cases hit : i.val = t
      · have h1 : ¬ (i.val < t) := by omega
        have h2 : aj i.val = 0 := by rw [hit]; exact not_not.mp hz
        simp [h1, h2]
      · have : (i.val < t + 1) ↔ (i.val < t) := by omega
        simp only [this]

/-- The matrix the loop builds when the row count is the number of nonzero mask entries. -/
theorem updateSelectionMatrix_eq (n D : Nat) (aj : Nat → R)
    (hn : nonzerosBefore aj D = n) :
    updateSelectionMatrix n D aj
      = some (Matrix.of (fun (j : Fin n) (i : Fin D) =>
          if aj i.val ≠ 0 ∧ nonzerosBefore aj i.val = j.val then (1 : R) else 0)) := by
  rw [updateSelectionMatrix, updateSelectionMatrix_loop_eq n D aj hn D (le_refl D)]
  simp only [Option.map_some', Option.some.injEq]
  ext j i
  simp [i.isLt]

theorem selection_row_unique (aj : Nat → R) {i i' j : Nat}
    (h : aj i ≠ 0 ∧ nonzerosBefore aj i = j) (h' : aj i' ≠ 0 ∧ nonzerosBefore aj i' = j) :
    i = i' := by
  rcases Nat.lt_trichotomy i i' with hlt | heq | hgt
  · have := nonzerosBefore_lt aj hlt h.1; omega
  · exact heq
  · have := nonzerosBefore_lt aj hgt h'.1; omega

/-- C4. For a mask with exactly `n` nonzero entries among its first `D`, the loop of
`updateSelectionMatrix` writes inside `S` and builds the `n x D` matrix with `S(j,i) = 1`
exactly when entry `i` of the mask is nonzero and `j` nonzero entries precede it (so `i` is
the index of the `j`-th nonzero entry, counting from 0), and 0 elsewhere; every row holds
exactly one 1, the column of the 1 increases strictly with the row, and no column holds
two. -/
theorem C4_selection_matrix_entries [Nontrivial R] (n D : Nat) (activeJoints : Nat → R)
    (hn : nonzerosBefore activeJoints D = n) :
    ∃ S : Matrix (Fin n) (Fin D) R,
      updateSelectionMatrix n D activeJoints = some S ∧
      (∀ j i, S j i =
        if activeJoints i.val ≠ 0 ∧ nonzerosBefore activeJoints i.val = j.val then 1 else 0) ∧
      (∀ j i, S j i = 1 ↔
        (activeJoints i.val ≠ 0 ∧ nonzerosBefore activeJoints i.val = j.val)) ∧
      (∀ j, ∃! i, S j i = 1) ∧
      (∀ j j' i i', j < j' → S j i = 1 → S j' i' = 1 → i < i') ∧
      (∀ i j j', S j i = 1 → S j' i = 1 → j = j') := by
  refine ⟨_, updateSelectionMatrix_eq n D activeJoints hn, fun j i => rfl, ?_⟩
  have hiff : ∀ (j : Fin n) (i : Fin D),
      (Matrix.of (fun (j : Fin n) (i : Fin D) =>
        if activeJoints i.val ≠ 0 ∧ nonzerosBefore activeJoints i.val = j.val
          then (1 : R) else 0)) j i = 1 ↔
        (activeJoints i.val ≠ 0 ∧ nonzerosBefore activeJoints i.val = j.val) := by
    intro j i
    simp only [Matrix.of_apply]
    split_ifs with h
    · simp [h]
    · simp [h]
  refine ⟨hiff, ?_, ?_, ?_⟩
  · intro j
    obtain ⟨i, hi, h1, h2⟩ := exists_index_of_lt_nonzerosBefore activeJoints D j.val
      (by rw [hn]; exact j.isLt)
    refine ⟨⟨i, hi⟩, (hiff j ⟨i, hi⟩).2 ⟨h1, h2⟩, ?_⟩
    intro i' hi'
    have := selection_row_unique activeJoints ((hiff j i').1 hi') ⟨h1, h2⟩
    exact Fin.ext this
  · intro j j' i i' hjj hS hS'
    have h1 := (hiff j i).1 hS
    have h2 := (hiff j' i').1 hS'
    have hlt : j.val < j'.val := hjj
    by_contra hcon
    have hle : i'.val ≤ i.val := Nat.le_of_not_lt hcon
    have := nonzerosBefore_mono activeJoints hle
    omega
  · intro i j j' hS hS'
    have h1 := (hiff j i).1 hS
    have h2 := (hiff j' i).1 hS'
    exact Fin.ext (by omega)

/-- C5. For a mask with exactly `n` nonzero entries among its first `D`, the matrix `S`
built by `updateSelectionMatrix` satisfies `S * Sᵀ = 1`, so `S * (Sᵀ * x) = x` for every
reduced vector `x`. -/
theorem C5_selection_times_transpose (n D : Nat) (activeJoints : Nat → R)
    (hn : nonzerosBefore activeJoints D = n) :
    ∃ S : Matrix (Fin n) (Fin D) R,
      updateSelectionMatrix n D activeJoints = some S ∧ S * Sᵀ = 1 ∧
      ∀ x : Fin n → R, S.mulVec (Sᵀ.mulVec x) = x := by
  refine ⟨_, updateSelectionMatrix_eq n D activeJoints hn, ?_⟩
  have key : (Matrix.of (fun (j : Fin n) (i : Fin D) =>
        if activeJoints i.val ≠ 0 ∧ nonzerosBefore activeJoints i.val = j.val
          then (1 : R) else 0))
      * (Matrix.of (fun (j : Fin n) (i : Fin D) =>
        if activeJoints i.val ≠ 0 ∧ nonzerosBefore activeJoints i.val = j.val
          then (1 : R) else 0))ᵀ = 1 := by
    ext j j'
    simp only [Matrix.mul_apply, Matrix.transpose_apply, Matrix.of_apply, Matrix.one_apply]
    obtain ⟨i, hi, h1, h2⟩ := exists_index_of_lt_nonzerosBefore activeJoints D j.val
      (by rw [hn]; exact j.isLt)
    rw [Finset.sum_eq_single (⟨i, hi⟩ : Fin D)]
    · by_cases hjj : j = j'
      · subst hjj
        simp [h1, h2]
      · have hv : ¬ (j.val = j'.val) := fun h => hjj (Fin.ext h)
        simp [h1, h2, hv, hjj]
    · intro b _ hb
      have : ¬ (activeJoints b.val ≠ 0 ∧ nonzerosBefore activeJoints b.val = j.val) := by
        intro h
        exact hb (Fin.ext (selection_row_unique activeJoints h ⟨h1, h2⟩))
      rw [if_neg this, zero_mul]
    · intro h; exact absurd (Finset.mem_univ _) h
  refine ⟨key, fun x => ?_⟩
  rw [Matrix.mulVec_mulVec, key, Matrix.one_mulVec]

end SelectionLemmas

/-- C4 at the mask `(1, 0, 1)`: two nonzero entries among three. -/
theorem C4_selection_matrix_entries_witness :
    nonzerosBefore exampleMask 3 = 2 ∧
      ∃ S : Matrix (Fin 2) (Fin 3) ℤ,
        updateSelectionMatrix 2 3 exampleMask = some S ∧
        (∀ j i, S j i =
          if exampleMask i.val ≠ 0 ∧ nonzerosBefore exampleMask i.val = j.val then 1 else 0) ∧
        (∀ j i, S j i = 1 ↔
          (exampleMask i.val ≠ 0 ∧ nonzerosBefore exampleMask i.val = j.val)) ∧
        (∀ j, ∃! i, S j i = 1) ∧
        (∀ j j' i i', j < j' → S j i = 1 → S j' i' = 1 → i < i') ∧
        (∀ i j j', S j i = 1 → S j' i = 1 → j = j') :=
  ⟨by decide, C4_selection_matrix_entries 2 3 exampleMask (by decide)⟩

/-- C5 at the mask `(1, 0, 1)`. -/
theorem C5_selection_times_transpose_witness :
    nonzerosBefore exampleMask 3 = 2 ∧
      ∃ S : Matrix (Fin 2) (Fin 3) ℤ,
        updateSelectionMatrix 2 3 exampleMask = some S ∧ S * Sᵀ = 1 ∧
        ∀ x : Fin 2 → ℤ, S.mulVec (Sᵀ.mulVec x) = x :=
  ⟨by decide, C5_selection_times_transpose 2 3 exampleMask (by decide)⟩

/-! ## Theorems, Part II: the thread -/

section ThreadLemmas

variable {R : Type} [CommRing R] [DecidableEq R]

open LocomotionThread

/-- The joint read changes `q`, `dqJ` and the log only; the sizes of `q` and `dqJ` stay. -/
theorem readJointState_eq (rob : RobotAnswers R) (b : Bool) (st : LocomotionThread R) :
    ∃ (q' dqJ' : List R) (res : Bool),
      readJointState rob b st =
        ({ st with
            q := q'
            dqJ := dqJ'
            log := st.log ++
              (match rob.getQ b with
                | none => [Action.getQ b]
                | some _ => [Action.getQ b, Action.getDq b]) }, res)
      ∧ q'.length = st.q.length ∧ dqJ'.length = st.dqJ.length := by
  unfold readJointState
  cases hq : rob.getQ b with
  | none => exact ⟨st.q, st.dqJ, false, rfl, rfl, rfl⟩
  | some fq =>
    cases hdq : rob.getDq b with
    | none =>
      refine ⟨vfill st.q.length fq, st.dqJ, false, ?_, by simp [vfill], rfl⟩
      simp [emit]
    | some fdq =>
      refine ⟨vfill st.q.length fq, vfill st.dqJ.length fdq, true, ?_, by simp [vfill],
        by simp [vfill]⟩
      simp [emit]

/-- What a state read leaves as it was, and what it appends to the log. -/
theorem readRobotStatus_frame (L : Library R) (rob : RobotAnswers R) (b : Bool)
    (st : LocomotionThread R) :
    (readRobotStatus L rob b st).1.status = st.status ∧
    (readRobotStatus L rob b st).1.supportPhase = st.supportPhase ∧
    (readRobotStatus L rob b st).1.comLinkId = st.comLinkId ∧
    (readRobotStatus L rob b st).1._n = st._n ∧
    (readRobotStatus L rob b st).1._k = st._k ∧
    (readRobotStatus L rob b st).1.trajGenCom = st.trajGenCom ∧
    (readRobotStatus L rob b st).1.trajGenFoot = st.trajGenFoot ∧
    (readRobotStatus L rob b st).1.trajGenPosture = st.trajGenPosture ∧
    (readRobotStatus L rob b st).1.q.length = st.q.length ∧
    (readRobotStatus L rob b st).1.log = st.log ++ readActions rob b st := by
  obtain ⟨q', dqJ', res, h, hq, _⟩ := readJointState_eq rob b st
  unfold readRobotStatus
  rw [h]
  cases hsp : st.supportPhase <;>
    simp [estimateBaseVelocity, convertJacobians, readJacobians, readForwardKinematics,
      readBasePose, emit, readActions, hsp, hq]

/-- The contact stack of a state read in each single-support phase and in double support. -/
theorem readRobotStatus_Jc (L : Library R) (rob : RobotAnswers R) (b : Bool)
    (st : LocomotionThread R) :
    (st.supportPhase = SupportPhase.SUPPORT_LEFT →
      (readRobotStatus L rob b st).1.Jc = (readRobotStatus L rob b st).1.JfootL ∧
      (readRobotStatus L rob b st).1.Jfoot = (readRobotStatus L rob b st).1.JfootR) ∧
    (st.supportPhase = SupportPhase.SUPPORT_RIGHT →
      (readRobotStatus L rob b st).1.Jc = (readRobotStatus L rob b st).1.JfootR ∧
      (readRobotStatus L rob b st).1.Jfoot = (readRobotStatus L rob b st).1.JfootL) := by
  obtain ⟨q', dqJ', res, h, _, _⟩ := readJointState_eq rob b st
  unfold readRobotStatus
  rw [h]
  constructor <;> intro hsp <;>
    simp [estimateBaseVelocity, convertJacobians, readJacobians, readForwardKinematics,
      readBasePose, emit, hsp]

/-- The foot Jacobians held after a state read are the ones the robot interface computed
in that read, for the joint positions and base pose of that read. -/
theorem readRobotStatus_Jfoot_buffers (L : Library R) (rob : RobotAnswers R) (b : Bool)
    (st : LocomotionThread R) :
    (readRobotStatus L rob b st).1.JfootR = st.JfootR.fill
      (rob.computeJacobian (readRobotStatus L rob b st).1.q
        (readRobotStatus L rob b st).1.xBase LinkId.LINK_ID_RIGHT_FOOT) ∧
    (readRobotStatus L rob b st).1.JfootL = st.JfootL.fill
      (rob.computeJacobian (readRobotStatus L rob b st).1.q
        (readRobotStatus L rob b st).1.xBase LinkId.LINK_ID_LEFT_FOOT) := by
  obtain ⟨q', dqJ', res, h, _, _⟩ := readJointState_eq rob b st
  unfold readRobotStatus
  rw [h]
  cases hsp : st.supportPhase <;>
    simp [estimateBaseVelocity, convertJacobians, readJacobians, readForwardKinematics,
      readBasePose, emit, hsp]

theorem readStreamParams_frame (inp : StreamInput R) (st : LocomotionThread R) :
    (readStreamParams inp st).status = st.status ∧
    (readStreamParams inp st).supportPhase = st.supportPhase ∧
    (readStreamParams inp st).comLinkId = st.comLinkId ∧
    (readStreamParams inp st)._n = st._n ∧
    (readStreamParams inp st)._k = st._k ∧
    (readStreamParams inp st).trajGenCom = st.trajGenCom ∧
    (readStreamParams inp st).trajGenFoot = st.trajGenFoot ∧
    (readStreamParams inp st).trajGenPosture = st.trajGenPosture ∧
    (readStreamParams inp st).log = st.log ++ [Action.readStreamParams] :=
  ⟨rfl, rfl, rfl, rfl, rfl, rfl, rfl, rfl, rfl⟩

theorem tickRead_frame (L : Library R) (inp : StreamInput R) (rob : RobotAnswers R)
    (st : LocomotionThread R) :
    (tickRead L inp rob st).status = st.status ∧
    (tickRead L inp rob st).supportPhase = st.supportPhase ∧
    (tickRead L inp rob st)._n = st._n ∧
    (tickRead L inp rob st)._k = st._k ∧
    (tickRead L inp rob st).trajGenCom = st.trajGenCom ∧
    (tickRead L inp rob st).trajGenFoot = st.trajGenFoot ∧
    (tickRead L inp rob st).trajGenPosture = st.trajGenPosture ∧
    (tickRead L inp rob st).log
      = st.log ++ Action.lock :: Action.readStreamParams :: readActions rob false st := by
  obtain ⟨h1, h2, h3, h4, h5, h6, h7, h8, _, h10⟩ :=
    readRobotStatus_frame L rob false (readStreamParams inp (st.emit Action.lock))
  unfold tickRead
  refine ⟨h1, h2, h4, h5, h6, h7, h8, ?_⟩
  rw [h10]
  simp [readStreamParams, emit, readActions]

theorem run_eq (C : Constants R) (L : Library R) (inp : StreamInput R)
    (rob : RobotAnswers R) (st : LocomotionThread R) :
    run C L inp rob st =
      if st.status = LocomotionStatus.LOCOMOTION_ON then
        (if feedbackLawDefined L (updateReferenceTrajectories L (tickRead L inp rob st))
          then runEnd C (runOn C L (tickRead L inp rob st))
          else feedbackLawStopped L (updateReferenceTrajectories L (tickRead L inp rob st)))
      else runEnd C (tickRead L inp rob st) := by
  have h := (tickRead_frame L inp rob st).1
  unfold tickRead at h
  unfold run tickRead
  simp only [h]

/-- The state a tick stops in differs from the state after the reference update in
`dxc_com` and `dxc_foot` at most. -/
theorem feedbackLawStopped_eq (L : Library R) (X : LocomotionThread R) :
    ∃ a b : List R, feedbackLawStopped L X = { X with dxc_com := a, dxc_foot := b } := by
  unfold feedbackLawStopped
  split_ifs
  · exact ⟨_, _, rfl⟩
  · exact ⟨_, X.dxc_foot, rfl⟩
  · exact ⟨X.dxc_com, X.dxc_foot, rfl⟩

/-- The three ways a tick ends: with the status ON and lines 135-137 well-formed, through
the control branch and the end of the tick; with the status ON and lines 135-137
ill-formed, stopped after the reference update; with another status, through the end of
the tick. -/
theorem run_cases (C : Constants R) (L : Library R) (inp : StreamInput R)
    (rob : RobotAnswers R) (st : LocomotionThread R) :
    (st.status = LocomotionStatus.LOCOMOTION_ON ∧
        feedbackLawDefined L (updateReferenceTrajectories L (tickRead L inp rob st)) = true ∧
        run C L inp rob st = runEnd C (runOn C L (tickRead L inp rob st))) ∨
      (st.status = LocomotionStatus.LOCOMOTION_ON ∧
        feedbackLawDefined L (updateReferenceTrajectories L (tickRead L inp rob st)) = false ∧
        ∃ a b : List R, run C L inp rob st
          = { updateReferenceTrajectories L (tickRead L inp rob st) with
              dxc_com := a, dxc_foot := b }) ∨
      (st.status ≠ LocomotionStatus.LOCOMOTION_ON ∧
        run C L inp rob st = runEnd C (tickRead L inp rob st)) := by
  rw [run_eq]
  by_cases hs : st.status = LocomotionStatus.LOCOMOTION_ON
  · rw [if_pos hs]
    cases hd : feedbackLawDefined L (updateReferenceTrajectories L (tickRead L inp rob st))
    · right; left
      refine ⟨hs, rfl, ?_⟩
      rw [if_neg (by simp)]
      exact feedbackLawStopped_eq L _
    · left
      refine ⟨hs, rfl, ?_⟩
      rw [if_pos rfl]
  · right; right
    rw [if_neg hs]
    exact ⟨hs, rfl⟩

theorem runOn_frame (C : Constants R) (L : Library R) (st : LocomotionThread R) :
    (runOn C L st).status = st.status ∧ (runOn C L st)._n = st._n ∧
    (runOn C L st)._k = st._k ∧ (runOn C L st).supportPhase = st.supportPhase ∧
    (runOn C L st).Jc = st.Jc ∧ (runOn C L st).JfootL = st.JfootL ∧
    (runOn C L st).JfootR = st.JfootR ∧ (runOn C L st).Jfoot = st.Jfoot :=
  ⟨rfl, rfl, rfl, rfl, rfl, rfl, rfl, rfl⟩

theorem runEnd_frame (C : Constants R) (st : LocomotionThread R) :
    (runEnd C st).status = st.status ∧ (runEnd C st)._n = st._n ∧
    (runEnd C st)._k = st._k ∧ (runEnd C st).supportPhase = st.supportPhase :=
  ⟨rfl, rfl, rfl, rfl⟩

theorem runEnd_jacobians (C : Constants R) (st : LocomotionThread R) :
    (runEnd C st).Jc = st.Jc ∧ (runEnd C st).JfootL = st.JfootL ∧
    (runEnd C st).JfootR = st.JfootR ∧ (runEnd C st).Jfoot = st.Jfoot :=
  ⟨rfl, rfl, rfl, rfl⟩

/-- A tick leaves the Jacobians as its state read assembled them. -/
theorem run_jacobians (C : Constants R) (L : Library R) (inp : StreamInput R)
    (rob : RobotAnswers R) (st : LocomotionThread R) :
    (run C L inp rob st).Jc = (tickRead L inp rob st).Jc ∧
    (run C L inp rob st).JfootL = (tickRead L inp rob st).JfootL ∧
    (run C L inp rob st).JfootR = (tickRead L inp rob st).JfootR ∧
    (run C L inp rob st).Jfoot = (tickRead L inp rob st).Jfoot := by
  rcases run_cases C L inp rob st with ⟨_, _, h⟩ | ⟨_, _, a, b, h⟩ | ⟨_, h⟩
  · obtain ⟨e1, e2, e3, e4⟩ := runEnd_jacobians C (runOn C L (tickRead L inp rob st))
    obtain ⟨_, _, _, _, o1, o2, o3, o4⟩ := runOn_frame C L (tickRead L inp rob st)
    rw [h, e1, e2, e3, e4]
    exact ⟨o1, o2, o3, o4⟩
  · rw [h]
    exact ⟨rfl, rfl, rfl, rfl⟩
  · rw [h]
    exact ⟨rfl, rfl, rfl, rfl⟩

theorem run_frame (C : Constants R) (L : Library R) (inp : StreamInput R)
    (rob : RobotAnswers R) (st : LocomotionThread R) :
    (run C L inp rob st).status = st.status ∧ (run C L inp rob st)._n = st._n ∧
    (run C L inp rob st)._k = st._k ∧
    (run C L inp rob st).supportPhase = st.supportPhase := by
  obtain ⟨h1, h2, h3, h4, _⟩ := tickRead_frame L inp rob st
  rcases run_cases C L inp rob st with ⟨_, _, h⟩ | ⟨_, _, a, b, h⟩ | ⟨_, h⟩
  · obtain ⟨e1, e2, e3, e4⟩ := runEnd_frame C (runOn C L (tickRead L inp rob st))
    obtain ⟨o1, o2, o3, o4, _⟩ := runOn_frame C L (tickRead L inp rob st)
    rw [h, e1, e2, e3, e4, o1, o2, o3, o4]
    exact ⟨h1, h3, h4, h2⟩
  · have e : ∀ X : LocomotionThread R,
        ({ updateReferenceTrajectories L X with dxc_com := a, dxc_foot := b } :
            LocomotionThread R).status = X.status ∧
        ({ updateReferenceTrajectories L X with dxc_com := a, dxc_foot := b } :
            LocomotionThread R)._n = X._n ∧
        ({ updateReferenceTrajectories L X with dxc_com := a, dxc_foot := b } :
            LocomotionThread R)._k = X._k ∧
        ({ updateReferenceTrajectories L X with dxc_com := a, dxc_foot := b } :
            LocomotionThread R).supportPhase = X.supportPhase :=
      fun _ => ⟨rfl, rfl, rfl, rfl⟩
    obtain ⟨e1, e2, e3, e4⟩ := e (tickRead L inp rob st)
    rw [h, e1, e2, e3, e4]
    exact ⟨h1, h3, h4, h2⟩
  · obtain ⟨e1, e2, e3, e4⟩ := runEnd_frame C (tickRead L inp rob st)
    rw [h, e1, e2, e3, e4]
    exact ⟨h1, h3, h4, h2⟩

theorem runTicks_frame (C : Constants R) (L : Library R)
    (ticks : List (StreamInput R × RobotAnswers R)) (st : LocomotionThread R) :
    (runTicks C L ticks st).status = st.status ∧ (runTicks C L ticks st)._n = st._n := by
  induction ticks generalizing st with
  | nil => exact ⟨rfl, rfl⟩
  | cons t ts ih =>
    obtain ⟨h1, h2, _⟩ := run_frame C L t.1 t.2 st
    obtain ⟨i1, i2⟩ := ih (run C L t.1 t.2 st)
    exact ⟨i1.trans h1, i2.trans h2⟩

theorem lastVelRef_append_of_some (l1 l2 : List (Action R)) (v : List R)
    (h : lastVelRef l2 = some v) : lastVelRef (l1 ++ l2) = some v := by
  induction l1 with
  | nil => exact h
  | cons a as ih => simp [lastVelRef, ih]

theorem lastControlMode_append_of_some (l1 l2 : List (Action R)) (m : ControlMode)
    (h : lastControlMode l2 = some m) : lastControlMode (l1 ++ l2) = some m := by
  induction l1 with
  | nil => exact h
  | cons a as ih => simp [lastControlMode, ih]

end ThreadLemmas

section ThreadClaims

variable {R : Type} [CommRing R] [DecidableEq R]

open LocomotionThread

theorem numberOfJointsChanged_body_status (C : Constants R) (cur : List LocalId)
    (st : LocomotionThread R) (i : Nat) :
    (numberOfJointsChanged_body C cur st i).status = st.status := by
  unfold numberOfJointsChanged_body
  simp only []
  split_ifs <;> rfl

theorem numberOfJointsChanged_loop_status (C : Constants R) (cur : List LocalId)
    (l : List Nat) (st : LocomotionThread R) :
    (l.foldl (numberOfJointsChanged_body C cur) st).status = st.status := by
  induction l generalizing st with
  | nil => rfl
  | cons i l ih =>
    rw [List.foldl_cons, ih, numberOfJointsChanged_body_status]

theorem numberOfJointsChanged_status (C : Constants R) (st st' : LocomotionThread R)
    (h : numberOfJointsChanged C st = some st') : st'.status = st.status := by
  unfold numberOfJointsChanged LocomotionThread.updateSelectionMatrix at h
  split at h
  · exact absurd h (by simp)
  · injection h with h
    rw [← h]
    exact numberOfJointsChanged_loop_status C st.robotJointList _ st

/-- C6. The stop command, from any state, appends exactly one velocity reference, the zero
vector of length `_n`, then the switch to position control (and a message), and leaves
the status OFF; after start, any ticks and stop, the last velocity reference of the log
is that zero vector and the last control mode is position control. -/
theorem C6_stop_commands_zero_velocity (C : Constants R) (L : Library R)
    (rob robStart : RobotAnswers R) (ticks : List (StreamInput R × RobotAnswers R))
    (st : LocomotionThread R) :
    (commandReceived L rob CommandId.COMMAND_ID_STOP st).log
        = st.log ++ [Action.setVelRef (List.replicate st._n 0),
            Action.setControlMode ControlMode.CTRL_MODE_POS,
            Action.sendMsg MsgType.MSG_INFO] ∧
      (commandReceived L rob CommandId.COMMAND_ID_STOP st).status
        = LocomotionStatus.LOCOMOTION_OFF ∧
      (commandReceived L rob CommandId.COMMAND_ID_STOP st)._n = st._n ∧
      lastVelRef (commandReceived L rob CommandId.COMMAND_ID_STOP
          (runTicks C L ticks
            (commandReceived L robStart CommandId.COMMAND_ID_START st))).log
        = some (List.replicate st._n 0) ∧
      lastControlMode (commandReceived L rob CommandId.COMMAND_ID_STOP
          (runTicks C L ticks
            (commandReceived L robStart CommandId.COMMAND_ID_START st))).log
        = some ControlMode.CTRL_MODE_POS ∧
      (commandReceived L rob CommandId.COMMAND_ID_STOP
          (runTicks C L ticks
            (commandReceived L robStart CommandId.COMMAND_ID_START st))).status
        = LocomotionStatus.LOCOMOTION_OFF := by
  have hstop : ∀ s : LocomotionThread R,
      (commandReceived L rob CommandId.COMMAND_ID_STOP s).log
        = s.log ++ [Action.setVelRef (List.replicate s._n 0),
            Action.setControlMode ControlMode.CTRL_MODE_POS,
            Action.sendMsg MsgType.MSG_INFO] := by
    intro s
    simp [commandReceived, preStopOperations, sendMsg, emit]
  have hn : (runTicks C L ticks
      (commandReceived L robStart CommandId.COMMAND_ID_START st))._n = st._n := by
    rw [(runTicks_frame C L ticks _).2]
    exact (readRobotStatus_frame L robStart true st).2.2.2.1
  refine ⟨hstop st, rfl, rfl, ?_, ?_, rfl⟩
  · rw [hstop, hn]
    exact lastVelRef_append_of_some _ _ _ rfl
  · rw [hstop]
    exact lastControlMode_append_of_some _ _ _ rfl

/-- C9. The status is OFF after construction; a tick, a parameter callback for any
parameter identifier and a command callback for any identifier other than start and stop
leave it as it was; start yields ON and stop yields OFF. The parameter callback yields a
state for every identifier but `PARAM_ID_ACTIVE_JOINTS`, for which it yields none exactly
when `updateSelectionMatrix` would write outside `S`. -/
theorem C9_status_changed_only_by_start_and_stop (C : Constants R) (L : Library R)
    (mem : LocomotionThread R) (robotJointList : List LocalId)
    (inp : StreamInput R) (rob : RobotAnswers R) (st : LocomotionThread R)
    (pd : ParamId) (id : Nat) :
    (LocomotionThread.new mem robotJointList).status = LocomotionStatus.LOCOMOTION_OFF ∧
      (run C L inp rob st).status = st.status ∧
      (∀ st', parameterUpdated C pd st = some st' → st'.status = st.status) ∧
      (pd ≠ ParamId.PARAM_ID_ACTIVE_JOINTS → (parameterUpdated C pd st).isSome = true) ∧
      (commandReceived L rob (CommandId.other id) st).status = st.status ∧
      (commandReceived L rob CommandId.COMMAND_ID_START st).status
        = LocomotionStatus.LOCOMOTION_ON ∧
      (commandReceived L rob CommandId.COMMAND_ID_STOP st).status
        = LocomotionStatus.LOCOMOTION_OFF := by
  refine ⟨rfl, (run_frame C L inp rob st).1, ?_, ?_, rfl, rfl, rfl⟩
  · intro st' h
    cases pd with
    | PARAM_ID_ACTIVE_JOINTS => exact numberOfJointsChanged_status C st st' h
    | _ =>
      simp only [parameterUpdated, Option.some.injEq] at h
      rw [← h]
      rfl
  · intro hpd
    cases pd with
    | PARAM_ID_ACTIVE_JOINTS => exact absurd rfl hpd
    | _ => rfl

/-- C10, as amended. In left-foot support `numberOfConstraintsChanged` sets `_k = 6`, and
after the state read (and so after the tick) the contact Jacobian `Jc` is the left-foot
Jacobian `JfootL` computed in that read, while the right-foot Jacobian `JfootR` is the
foot-task Jacobian `Jfoot`. -/
theorem C10_left_support_contact_is_left_foot (C : Constants R) (L : Library R)
    (inp : StreamInput R) (rob : RobotAnswers R) (b : Bool) (st : LocomotionThread R)
    (h : st.supportPhase = SupportPhase.SUPPORT_LEFT) :
    (numberOfConstraintsChanged st)._k = 6 ∧
      (readRobotStatus L rob b st).1.Jc = (readRobotStatus L rob b st).1.JfootL ∧
      (readRobotStatus L rob b st).1.Jfoot = (readRobotStatus L rob b st).1.JfootR ∧
      (readRobotStatus L rob b st).1.JfootL = st.JfootL.fill
        (rob.computeJacobian (readRobotStatus L rob b st).1.q
          (readRobotStatus L rob b st).1.xBase LinkId.LINK_ID_LEFT_FOOT) ∧
      (run C L inp rob st).Jc = (run C L inp rob st).JfootL ∧
      (run C L inp rob st).Jfoot = (run C L inp rob st).JfootR := by
  obtain ⟨h1, h2⟩ := (readRobotStatus_Jc L rob b st).1 h
  have hk : (numberOfConstraintsChanged st)._k = 6 := by
    simp [numberOfConstraintsChanged, h]
  have hl : (readStreamParams inp (st.emit Action.lock)).supportPhase
      = SupportPhase.SUPPORT_LEFT := h
  obtain ⟨t1, t2⟩ :=
    (readRobotStatus_Jc L rob false (readStreamParams inp (st.emit Action.lock))).1 hl
  obtain ⟨j1, j2, j3, j4⟩ := run_jacobians C L inp rob st
  refine ⟨hk, h1, h2, (readRobotStatus_Jfoot_buffers L rob b st).2, ?_, ?_⟩
  · rw [j1, j2]; exact t1
  · rw [j4, j3]; exact t2

end ThreadClaims

section ThreadExamples

open LocomotionThread

/-- C7, the code at the failing input `exampleThread` (two of the three joints active):
the posture generator has dimension `ICUB_DOFS = 3`, and the start command initialises it
with `q`, a vector of the `_n = 2` active joints; the CoM and foot generators receive the
CoM and the foot pose read in the same transition, the status becomes ON and the control
mode is switched to velocity last. -/
theorem C7_start_seeds_posture_generator_with_active_joints :
    exampleConstants.ICUB_DOFS = 3 ∧ exampleThread._n = 2 ∧
      exampleThread.trajGenPosture = some ⟨3, 1 / 100, 4, []⟩ ∧
      (commandReceived exampleLibrary exampleRobot CommandId.COMMAND_ID_START
          exampleThread).trajGenPosture
        = some ⟨3, 1 / 100, 4, [TrajCall.init [1, 2]]⟩ ∧
      (commandReceived exampleLibrary exampleRobot CommandId.COMMAND_ID_START
          exampleThread).q = [1, 2] ∧
      (commandReceived exampleLibrary exampleRobot CommandId.COMMAND_ID_START
          exampleThread).status = LocomotionStatus.LOCOMOTION_ON ∧
      (commandReceived exampleLibrary exampleRobot CommandId.COMMAND_ID_START
          exampleThread).log
        = [Action.getQ true, Action.getDq true,
            Action.computeH LinkId.LINK_ID_LEFT_FOOT,
            Action.forwardKinematics LinkId.LINK_ID_RIGHT_FOOT,
            Action.forwardKinematics LinkId.COM_LINK_ID,
            Action.computeJacobian LinkId.LINK_ID_RIGHT_FOOT,
            Action.computeJacobian LinkId.LINK_ID_LEFT_FOOT,
            Action.computeJacobian LinkId.COM_LINK_ID,
            Action.trajInit TrajGenId.trajGenCom [1, 2],
            Action.trajInit TrajGenId.trajGenFoot [0, -1, 0, 0, 0, 0, 0],
            Action.trajInit TrajGenId.trajGenPosture [1, 2],
            Action.setControlMode ControlMode.CTRL_MODE_VEL] := by
  refine ⟨rfl, ?_, ?_, ?_, ?_, ?_, ?_⟩ <;> with_unfolding_all decide

/-- C9 at `exampleThread`: the callback for the active joints yields a state, with the
status it had. -/
theorem C9_status_changed_only_by_start_and_stop_witness :
    ∃ st', parameterUpdated exampleConstants ParamId.PARAM_ID_ACTIVE_JOINTS exampleThread
        = some st' ∧ st'.status = exampleThread.status := by
  have h : (parameterUpdated exampleConstants ParamId.PARAM_ID_ACTIVE_JOINTS
      exampleThread).isSome = true := by with_unfolding_all decide
  obtain ⟨st', hst⟩ := Option.isSome_iff_exists.mp h
  exact ⟨st', hst,
    (C9_status_changed_only_by_start_and_stop exampleConstants exampleLibrary blankMemory []
      ⟨none, none, none, none⟩ exampleRobot exampleThread
      ParamId.PARAM_ID_ACTIVE_JOINTS 0).2.2.1 st' hst⟩

/-- C10 as stated fails: `exampleThread` is in left-foot support, and after the state read
`Jc` is not the right-foot Jacobian `JfootR` (their entries (0,0) are 2 and 1). -/
theorem C10_left_support_contact_is_not_right_foot :
    exampleThread.supportPhase = SupportPhase.SUPPORT_LEFT ∧
      ((readRobotStatus exampleLibrary exampleRobot false exampleThread).1.Jc.get 0 0 = 2 ∧
        (readRobotStatus exampleLibrary exampleRobot false exampleThread).1.JfootR.get 0 0
          = 1) ∧
      (readRobotStatus exampleLibrary exampleRobot false exampleThread).1.Jc
        ≠ (readRobotStatus exampleLibrary exampleRobot false exampleThread).1.JfootR := by
  have h : (readRobotStatus exampleLibrary exampleRobot false exampleThread).1.Jc.get 0 0 = 2 ∧
      (readRobotStatus exampleLibrary exampleRobot false exampleThread).1.JfootR.get 0 0
        = 1 := by
    constructor <;> with_unfolding_all decide
  refine ⟨by with_unfolding_all decide, h, fun heq => ?_⟩
  have h2 := h.1
  rw [heq, h.2] at h2
  exact absurd h2 (by decide)

/-- C10 as amended, at `exampleThread`. -/
theorem C10_left_support_contact_is_left_foot_witness :
    exampleThread.supportPhase = SupportPhase.SUPPORT_LEFT ∧
      (numberOfConstraintsChanged exampleThread)._k = 6 ∧
      (readRobotStatus exampleLibrary exampleRobot false exampleThread).1.Jc
        = (readRobotStatus exampleLibrary exampleRobot false exampleThread).1.JfootL ∧
      (readRobotStatus exampleLibrary exampleRobot false exampleThread).1.Jfoot
        = (readRobotStatus exampleLibrary exampleRobot false exampleThread).1.JfootR :=
  ⟨by with_unfolding_all decide,
    (C10_left_support_contact_is_left_foot exampleConstants exampleLibrary
      ⟨none, none, none, none⟩ exampleRobot false exampleThread
      (by with_unfolding_all decide)).1,
    (C10_left_support_contact_is_left_foot exampleConstants exampleLibrary
      ⟨none, none, none, none⟩ exampleRobot false exampleThread
      (by with_unfolding_all decide)).2.1,
    (C10_left_support_contact_is_left_foot exampleConstants exampleLibrary
      ⟨none, none, none, none⟩ exampleRobot false exampleThread
      (by with_unfolding_all decide)).2.2.1⟩

end ThreadExamples

/-! ## Theorems, Part III: dimensions and reconfiguration -/

section DimensionLemmas

variable {R : Type} [CommRing R] [DecidableEq R]

open LocomotionThread

theorem MatrixXd.resize_dims (M : MatrixXd R) (r c : Nat) :
    (M.resize r c).rows = r ∧ (M.resize r c).cols = c := by
  unfold MatrixXd.resize
  split_ifs with h
  · exact h
  · exact ⟨rfl, rfl⟩

theorem MatrixXd.resizeCols_dims (M : MatrixXd R) (c : Nat) :
    (M.resizeCols c).rows = M.rows ∧ (M.resizeCols c).cols = c :=
  MatrixXd.resize_dims M M.rows c

theorem MatrixXd.resize_self (M : MatrixXd R) (r c : Nat) (hr : M.rows = r)
    (hc : M.cols = c) : M.resize r c = M := by
  unfold MatrixXd.resize
  rw [if_pos ⟨hr, hc⟩]

theorem vresize_length (v : List R) (len : Nat) : (vresize v len).length = len := by
  unfold vresize
  split_ifs with h
  · exact h
  · simp

theorem vfill_length (len : Nat) (f : Nat → R) : (vfill len f).length = len := by
  simp [vfill]

theorem mulVec_length (M : MatrixXd R) (v : List R) : (M.mulVec v).length = M.rows := by
  simp [MatrixXd.mulVec]

/-- The loop of `numberOfJointsChanged` changes the joint list of the robot interface and
the log, nothing else. -/
theorem numberOfJointsChanged_loop_eq (C : Constants R) (cur : List LocalId)
    (l : List Nat) (st : LocomotionThread R) :
    ∃ (jl : List LocalId) (lg : List (Action R)),
      l.foldl (numberOfJointsChanged_body C cur) st
        = { st with robotJointList := jl, log := lg } := by
  induction l generalizing st with
  | nil => exact ⟨st.robotJointList, st.log, rfl⟩
  | cons i l ih =>
    rw [List.foldl_cons]
    have hb : ∃ (jl : List LocalId) (lg : List (Action R)),
        numberOfJointsChanged_body C cur st i = { st with robotJointList := jl, log := lg } := by
      unfold numberOfJointsChanged_body
      simp only []
      split_ifs
      · exact ⟨_, _, rfl⟩
      · exact ⟨st.robotJointList, st.log, rfl⟩
      · exact ⟨_, _, rfl⟩
      · exact ⟨st.robotJointList, st.log, rfl⟩
    obtain ⟨jl, lg, hjl⟩ := hb
    rw [hjl]
    obtain ⟨jl', lg', h'⟩ := ih { st with robotJointList := jl, log := lg }
    exact ⟨jl', lg', h'⟩

/-- The state after the loop and the resizes of `numberOfJointsChanged`, in terms of the
joint list `jl` the loop leaves at the robot interface. -/
theorem numberOfJointsChanged_resize_eq (C : Constants R) (st : LocomotionThread R) :
    ∃ (jl : List LocalId) (lg : List (Action R)),
      (List.range st.activeJoints.length).foldl
          (numberOfJointsChanged_body C st.robotJointList) st
        = { st with robotJointList := jl, log := lg } ∧
      numberOfJointsChanged_resize C st =
        { st with
          robotJointList := jl
          log := lg
          _n := jl.length
          Jcom_6xN := st.Jcom_6xN.resizeCols (jl.length + 6)
          Jcom_2xN := st.Jcom_2xN.resizeCols (jl.length + 6)
          Jfoot := st.Jfoot.resizeCols (jl.length + 6)
          JfootR := st.JfootR.resizeCols (jl.length + 6)
          JfootL := st.JfootL.resizeCols (jl.length + 6)
          Jposture := MatrixXd.identity jl.length (jl.length + 6)
          Jc := st.Jc.resizeCols (jl.length + 6)
          q := List.replicate jl.length 0
          dq := vresize st.dq (jl.length + 6)
          dqJ := vresize st.dqJ jl.length
          dqc := List.replicate jl.length 0
          kp_posture := List.replicate jl.length 0 } := by
  obtain ⟨jl, lg, h⟩ := numberOfJointsChanged_loop_eq C st.robotJointList
    (List.range st.activeJoints.length) st
  refine ⟨jl, lg, h, ?_⟩
  unfold numberOfJointsChanged_resize
  simp only [h]

/-- The dimensions after the loop and the resizes of `numberOfJointsChanged`. -/
theorem numberOfJointsChanged_resize_dims (C : Constants R) (st : LocomotionThread R) :
    (numberOfJointsChanged_resize C st).supportPhase = st.supportPhase ∧
    (numberOfJointsChanged_resize C st)._k = st._k ∧
    (numberOfJointsChanged_resize C st).activeJoints = st.activeJoints ∧
    (numberOfJointsChanged_resize C st)._n
      = (numberOfJointsChanged_resize C st).robotJointList.length ∧
    (numberOfJointsChanged_resize C st).Jc.rows = st.Jc.rows ∧
    (numberOfJointsChanged_resize C st).Jc.cols = (numberOfJointsChanged_resize C st)._n + 6 ∧
    (numberOfJointsChanged_resize C st).Jposture.rows = (numberOfJointsChanged_resize C st)._n ∧
    (numberOfJointsChanged_resize C st).Jposture.cols
      = (numberOfJointsChanged_resize C st)._n + 6 ∧
    (numberOfJointsChanged_resize C st).q.length = (numberOfJointsChanged_resize C st)._n ∧
    (numberOfJointsChanged_resize C st).dqJ.length = (numberOfJointsChanged_resize C st)._n ∧
    (numberOfJointsChanged_resize C st).dqc.length = (numberOfJointsChanged_resize C st)._n ∧
    (numberOfJointsChanged_resize C st).kp_posture.length
      = (numberOfJointsChanged_resize C st)._n ∧
    (numberOfJointsChanged_resize C st).dq.length
      = (numberOfJointsChanged_resize C st)._n + 6 := by
  obtain ⟨jl, lg, _, h⟩ := numberOfJointsChanged_resize_eq C st
  rw [h]
  exact ⟨rfl, rfl, rfl, rfl, (MatrixXd.resizeCols_dims _ _).1, (MatrixXd.resizeCols_dims _ _).2,
    rfl, rfl, List.length_replicate _ _, vresize_length _ _, List.length_replicate _ _,
    List.length_replicate _ _, vresize_length _ _⟩

/-- The Jacobian buffers after the loop and the resizes of `numberOfJointsChanged`: the
row counts stay, the column count is `_n + 6`. -/
theorem numberOfJointsChanged_resize_jacobians (C : Constants R) (st : LocomotionThread R) :
    ((numberOfJointsChanged_resize C st).Jcom_6xN.rows = st.Jcom_6xN.rows ∧
      (numberOfJointsChanged_resize C st).Jcom_6xN.cols
        = (numberOfJointsChanged_resize C st)._n + 6) ∧
    ((numberOfJointsChanged_resize C st).Jcom_2xN.rows = st.Jcom_2xN.rows ∧
      (numberOfJointsChanged_resize C st).Jcom_2xN.cols
        = (numberOfJointsChanged_resize C st)._n + 6) ∧
    ((numberOfJointsChanged_resize C st).Jfoot.rows = st.Jfoot.rows ∧
      (numberOfJointsChanged_resize C st).Jfoot.cols
        = (numberOfJointsChanged_resize C st)._n + 6) ∧
    ((numberOfJointsChanged_resize C st).JfootR.rows = st.JfootR.rows ∧
      (numberOfJointsChanged_resize C st).JfootR.cols
        = (numberOfJointsChanged_resize C st)._n + 6) ∧
    ((numberOfJointsChanged_resize C st).JfootL.rows = st.JfootL.rows ∧
      (numberOfJointsChanged_resize C st).JfootL.cols
        = (numberOfJointsChanged_resize C st)._n + 6) := by
  obtain ⟨jl, lg, _, h⟩ := numberOfJointsChanged_resize_eq C st
  rw [h]
  exact ⟨MatrixXd.resizeCols_dims _ _, MatrixXd.resizeCols_dims _ _,
    MatrixXd.resizeCols_dims _ _, MatrixXd.resizeCols_dims _ _, MatrixXd.resizeCols_dims _ _⟩

/-- What `updateSelectionMatrix` on the thread state changes: `S`, which gets `_n` rows
and `ICUB_DOFS` columns. -/
theorem updateSelectionMatrix_state_eq (C : Constants R) (st st' : LocomotionThread R)
    (h : st.updateSelectionMatrix C = some st') :
    ∃ S : MatrixXd R, st' = { st with S := S } ∧ S.rows = st._n ∧ S.cols = C.ICUB_DOFS := by
  unfold LocomotionThread.updateSelectionMatrix at h
  split at h
  · exact absurd h (by simp)
  · injection h with h
    exact ⟨_, h.symm, rfl, rfl⟩

end DimensionLemmas

section DimInvLemmas

variable {R : Type} [CommRing R] [DecidableEq R]

open LocomotionThread

theorem MatrixXd.fill_dims (M : MatrixXd R) (f : Nat → Nat → R) :
    (M.fill f).rows = M.rows ∧ (M.fill f).cols = M.cols := ⟨rfl, rfl⟩

theorem setTail_setHead_length (v w u : List R) (a b : Nat) :
    (setTail (setHead v a w) b u).length = v.length := by
  simp [setTail, setHead, vfill]

/-- The dimensions of the buffers after a state read, in terms of those before. -/
theorem readRobotStatus_dims (L : Library R) (rob : RobotAnswers R) (b : Bool)
    (st : LocomotionThread R) :
    (readRobotStatus L rob b st).1.q.length = st.q.length ∧
    (readRobotStatus L rob b st).1.dqJ.length = st.dqJ.length ∧
    (readRobotStatus L rob b st).1.dq.length = st.dq.length ∧
    (readRobotStatus L rob b st).1.dqc = st.dqc ∧
    (readRobotStatus L rob b st).1.Jposture = st.Jposture ∧
    (readRobotStatus L rob b st).1.S = st.S ∧
    (readRobotStatus L rob b st).1.kp_posture = st.kp_posture ∧
    (readRobotStatus L rob b st).1.Jcom_6xN.rows = st.Jcom_6xN.rows ∧
    (readRobotStatus L rob b st).1.Jcom_6xN.cols = st.Jcom_6xN.cols ∧
    (readRobotStatus L rob b st).1.JfootR.rows = st.JfootR.rows ∧
    (readRobotStatus L rob b st).1.JfootR.cols = st.JfootR.cols ∧
    (readRobotStatus L rob b st).1.JfootL.rows = st.JfootL.rows ∧
    (readRobotStatus L rob b st).1.JfootL.cols = st.JfootL.cols ∧
    (readRobotStatus L rob b st).1.Jcom_2xN.rows = 2 ∧
    (readRobotStatus L rob b st).1.Jcom_2xN.cols = st.Jcom_6xN.cols := by
  obtain ⟨q', dqJ', res, hr, hq, hdq⟩ := readJointState_eq rob b st
  unfold LocomotionThread.readRobotStatus
  rw [hr]
  cases hsp : st.supportPhase <;>
    simp only [estimateBaseVelocity, convertJacobians, readJacobians, readForwardKinematics,
      readBasePose, emit, hsp, hq, hdq, setTail_setHead_length, MatrixXd.fill_dims,
      MatrixXd.topRows, MatrixXd.ofFn, and_self]

/-- The dimensions of `Jfoot` and `Jc` after a state read: in double support they stay, in
single support they are those of the foot Jacobian assigned. -/
theorem readRobotStatus_dims_contact (L : Library R) (rob : RobotAnswers R) (b : Bool)
    (st : LocomotionThread R) :
    (st.supportPhase = SupportPhase.SUPPORT_DOUBLE →
      (readRobotStatus L rob b st).1.Jfoot.rows = st.Jfoot.rows ∧
      (readRobotStatus L rob b st).1.Jfoot.cols = st.Jfoot.cols ∧
      (readRobotStatus L rob b st).1.Jc.rows = st.Jc.rows ∧
      (readRobotStatus L rob b st).1.Jc.cols = st.Jc.cols) ∧
    (st.supportPhase = SupportPhase.SUPPORT_LEFT →
      (readRobotStatus L rob b st).1.Jfoot.rows = st.JfootR.rows ∧
      (readRobotStatus L rob b st).1.Jfoot.cols = st.JfootR.cols ∧
      (readRobotStatus L rob b st).1.Jc.rows = st.JfootL.rows ∧
      (readRobotStatus L rob b st).1.Jc.cols = st.JfootL.cols) ∧
    (st.supportPhase = SupportPhase.SUPPORT_RIGHT →
      (readRobotStatus L rob b st).1.Jfoot.rows = st.JfootL.rows ∧
      (readRobotStatus L rob b st).1.Jfoot.cols = st.JfootL.cols ∧
      (readRobotStatus L rob b st).1.Jc.rows = st.JfootR.rows ∧
      (readRobotStatus L rob b st).1.Jc.cols = st.JfootR.cols) := by
  obtain ⟨q', dqJ', res, hr, hq, hdq⟩ := readJointState_eq rob b st
  unfold LocomotionThread.readRobotStatus
  rw [hr]
  refine ⟨fun hsp => ?_, fun hsp => ?_, fun hsp => ?_⟩ <;>
    simp only [estimateBaseVelocity, convertJacobians, readJacobians, readForwardKinematics,
      readBasePose, emit, hsp, MatrixXd.fill_dims, MatrixXd.zero, MatrixXd.setTopRows,
      MatrixXd.setBottomRows, MatrixXd.ofFn, MatrixXd.fill, and_self]

/-- A state read keeps the dimension invariant. -/
theorem DimInv.after_readRobotStatus {C : Constants R} {st : LocomotionThread R}
    (h : DimInv C st) (L : Library R) (rob : RobotAnswers R) (b : Bool) :
    DimInv C (readRobotStatus L rob b st).1 := by
  obtain ⟨_, f2, _, f4, f5, _⟩ := readRobotStatus_frame L rob b st
  obtain ⟨d1, d2, d3, d4, d5, d6, _, d8, d9, d10, d11, d12, d13, d14, d15⟩ :=
    readRobotStatus_dims L rob b st
  obtain ⟨cD, cL, cR⟩ := readRobotStatus_dims_contact L rob b st
  have hk := h.k_eq
  have hJ : (LocomotionThread.readRobotStatus L rob b st).1.Jfoot.rows = 6 ∧
      (LocomotionThread.readRobotStatus L rob b st).1.Jfoot.cols = st._n + 6 ∧
      (LocomotionThread.readRobotStatus L rob b st).1.Jc.rows = st._k ∧
      (LocomotionThread.readRobotStatus L rob b st).1.Jc.cols = st._n + 6 := by
    cases hsp : st.supportPhase
    · obtain ⟨c1, c2, c3, c4⟩ := cD hsp
      exact ⟨c1.trans h.Jfoot_rows, c2.trans h.Jfoot_cols, c3.trans h.Jc_rows,
        c4.trans h.Jc_cols⟩
    · obtain ⟨c1, c2, c3, c4⟩ := cL hsp
      rw [hsp] at hk
      simp only [reduceCtorEq, if_false] at hk
      exact ⟨c1.trans h.JfootR_rows, c2.trans h.JfootR_cols,
        (c3.trans h.JfootL_rows).trans hk.symm, c4.trans h.JfootL_cols⟩
    · obtain ⟨c1, c2, c3, c4⟩ := cR hsp
      rw [hsp] at hk
      simp only [reduceCtorEq, if_false] at hk
      exact ⟨c1.trans h.JfootL_rows, c2.trans h.JfootL_cols,
        (c3.trans h.JfootR_rows).trans hk.symm, c4.trans h.JfootR_cols⟩
  obtain ⟨j1, j2, j3, j4⟩ := hJ
  constructor
  · rw [f5, f2]; exact hk
  · rw [f5]; exact j3
  · rw [f4]; exact j4
  · exact d14
  · rw [f4, d15]; exact h.Jcom_6xN_cols
  · exact j1
  · rw [f4]; exact j2
  · rw [f4, d5]; exact h.Jposture_rows
  · rw [f4, d5]; exact h.Jposture_cols
  · rw [f4, d6]; exact h.S_rows
  · rw [d6]; exact h.S_cols
  · rw [f4, d1]; exact h.q_length
  · rw [f4, d2]; exact h.dqJ_length
  · rw [f4, d4]; exact h.dqc_length
  · rw [f4, d3]; exact h.dq_length
  · rw [d8]; exact h.Jcom_6xN_rows
  · rw [f4, d9]; exact h.Jcom_6xN_cols
  · rw [d10]; exact h.JfootR_rows
  · rw [f4, d11]; exact h.JfootR_cols
  · rw [d12]; exact h.JfootL_rows
  · rw [f4, d13]; exact h.JfootL_cols

/-- The dimension invariant only reads the support phase, `_k`, `_n` and the dimensions
of the buffers it names. -/
theorem DimInv.of_same_buffers {C : Constants R} {st st' : LocomotionThread R}
    (h : DimInv C st)
    (e1 : st'.supportPhase = st.supportPhase) (e2 : st'._k = st._k) (e3 : st'._n = st._n)
    (e4 : st'.Jc = st.Jc) (e5 : st'.Jcom_2xN = st.Jcom_2xN) (e6 : st'.Jfoot = st.Jfoot)
    (e7 : st'.Jposture = st.Jposture) (e8 : st'.S = st.S)
    (e9 : st'.q.length = st.q.length) (e10 : st'.dqJ.length = st.dqJ.length)
    (e11 : st'.dqc.length = st.dqc.length) (e12 : st'.dq.length = st.dq.length)
    (e13 : st'.Jcom_6xN = st.Jcom_6xN) (e14 : st'.JfootR = st.JfootR)
    (e15 : st'.JfootL = st.JfootL) : DimInv C st' := by
  constructor
  · rw [e1, e2]; exact h.k_eq
  · rw [e4, e2]; exact h.Jc_rows
  · rw [e4, e3]; exact h.Jc_cols
  · rw [e5]; exact h.Jcom_2xN_rows
  · rw [e5, e3]; exact h.Jcom_2xN_cols
  · rw [e6]; exact h.Jfoot_rows
  · rw [e6, e3]; exact h.Jfoot_cols
  · rw [e7, e3]; exact h.Jposture_rows
  · rw [e7, e3]; exact h.Jposture_cols
  · rw [e8, e3]; exact h.S_rows
  · rw [e8]; exact h.S_cols
  · rw [e9, e3]; exact h.q_length
  · rw [e10, e3]; exact h.dqJ_length
  · rw [e11, e3]; exact h.dqc_length
  · rw [e12, e3]; exact h.dq_length
  · rw [e13]; exact h.Jcom_6xN_rows
  · rw [e13, e3]; exact h.Jcom_6xN_cols
  · rw [e14]; exact h.JfootR_rows
  · rw [e14, e3]; exact h.JfootR_cols
  · rw [e15]; exact h.JfootL_rows
  · rw [e15, e3]; exact h.JfootL_cols

theorem vadd_length (a b : List R) : (vadd a b).length = min a.length b.length := by
  simp [vadd]

theorem vmul_length (a b : List R) : (vmul a b).length = min a.length b.length := by
  simp [vmul]

theorem vsub_length (a b : List R) : (vsub a b).length = min a.length b.length := by
  simp [vsub]

/-- The posture velocity the feedback law commands has `_n` entries. -/
theorem runOn_dqc_length {C : Constants R} {st : LocomotionThread R} (h : DimInv C st)
    (L : Library R) : (runOn C L st).dqc.length = st._n := by
  show (vadd (st.S.mulVec _) (vmul (st.S.mulVec _) (vsub (st.S.mulVec _) st.q))).length = _
  rw [vadd_length, vmul_length, vsub_length, mulVec_length, mulVec_length, mulVec_length,
    h.S_rows, h.q_length]
  simp

theorem DimInv.after_runOn {C : Constants R} {st : LocomotionThread R} (h : DimInv C st)
    (L : Library R) : DimInv C (runOn C L st) :=
  h.of_same_buffers rfl rfl rfl rfl rfl rfl rfl rfl rfl rfl
    ((runOn_dqc_length h L).trans h.dqc_length.symm) rfl rfl rfl rfl

/-- The dimension invariant holds in the state a stopped tick leaves. -/
theorem DimInv.after_stop {C : Constants R} {X : LocomotionThread R} (h : DimInv C X)
    (L : Library R) (a b : List R) :
    DimInv C { updateReferenceTrajectories L X with dxc_com := a, dxc_foot := b } :=
  h.of_same_buffers rfl rfl rfl rfl rfl rfl rfl rfl rfl rfl rfl rfl rfl rfl rfl

theorem DimInv.after_runEnd {C : Constants R} {X : LocomotionThread R} (h : DimInv C X) :
    DimInv C (runEnd C X) :=
  h.of_same_buffers rfl rfl rfl rfl rfl rfl rfl rfl rfl rfl rfl rfl rfl rfl rfl

theorem DimInv.after_run {C : Constants R} {st : LocomotionThread R} (h : DimInv C st)
    (L : Library R) (inp : StreamInput R) (rob : RobotAnswers R) :
    DimInv C (run C L inp rob st) := by
  have h0 : DimInv C (readStreamParams inp (st.emit Action.lock)) :=
    h.of_same_buffers rfl rfl rfl rfl rfl rfl rfl rfl rfl rfl rfl rfl rfl rfl rfl
  have h1 : DimInv C (tickRead L inp rob st) := h0.after_readRobotStatus L rob false
  rcases run_cases C L inp rob st with ⟨_, _, e⟩ | ⟨_, _, a, b, e⟩ | ⟨_, e⟩
  · rw [e]
    exact (h1.after_runOn L).after_runEnd
  · rw [e]
    exact h1.after_stop L a b
  · rw [e]
    exact h1.after_runEnd

theorem DimInv.after_commandReceived {C : Constants R} {st : LocomotionThread R}
    (h : DimInv C st) (L : Library R) (rob : RobotAnswers R) (cd : CommandId) :
    DimInv C (commandReceived L rob cd st) := by
  cases cd with
  | COMMAND_ID_START =>
    exact (h.after_readRobotStatus L rob true).of_same_buffers rfl rfl rfl rfl rfl rfl rfl
      rfl rfl rfl rfl rfl rfl rfl rfl
  | COMMAND_ID_STOP =>
    exact h.of_same_buffers rfl rfl rfl rfl rfl rfl rfl rfl rfl rfl rfl rfl rfl rfl rfl
  | other id =>
    exact h.of_same_buffers rfl rfl rfl rfl rfl rfl rfl rfl rfl rfl rfl rfl rfl rfl rfl

/-- The function `numberOfConstraintsChanged` establishes the dimensions of `Jc` for the
support phase the state holds, whatever `_k` and `Jc` were. -/
theorem DimInv.after_numberOfConstraintsChanged {C : Constants R}
    {st : LocomotionThread R} (h : DimInv C st) (phase : SupportPhase) :
    DimInv C (numberOfConstraintsChanged { st with supportPhase := phase }) := by
  constructor
  · rfl
  · exact (MatrixXd.resize_dims _ _ _).1
  · exact (MatrixXd.resize_dims _ _ _).2
  · exact h.Jcom_2xN_rows
  · exact h.Jcom_2xN_cols
  · exact h.Jfoot_rows
  · exact h.Jfoot_cols
  · exact h.Jposture_rows
  · exact h.Jposture_cols
  · exact h.S_rows
  · exact h.S_cols
  · exact h.q_length
  · exact h.dqJ_length
  · exact h.dqc_length
  · exact h.dq_length
  · exact h.Jcom_6xN_rows
  · exact h.Jcom_6xN_cols
  · exact h.JfootR_rows
  · exact h.JfootR_cols
  · exact h.JfootL_rows
  · exact h.JfootL_cols

/-- The function `numberOfJointsChanged` establishes every dimension but the row count of
`Jc`, which it keeps, from the fixed row counts of the Jacobian members. -/
theorem numberOfJointsChanged_dims (C : Constants R) (st st' : LocomotionThread R)
    (hf : FixedRows st) (h : numberOfJointsChanged C st = some st') :
    FixedRows st' ∧ st'.supportPhase = st.supportPhase ∧ st'._k = st._k ∧
      st'.Jc.rows = st.Jc.rows ∧ st'.Jc.cols = st'._n + 6 ∧
      st'.Jcom_2xN.cols = st'._n + 6 ∧ st'.Jfoot.cols = st'._n + 6 ∧
      st'.Jposture.rows = st'._n ∧ st'.Jposture.cols = st'._n + 6 ∧
      st'.S.rows = st'._n ∧ st'.S.cols = C.ICUB_DOFS ∧
      st'.q.length = st'._n ∧ st'.dqJ.length = st'._n ∧ st'.dqc.length = st'._n ∧
      st'.dq.length = st'._n + 6 ∧ st'.Jcom_6xN.cols = st'._n + 6 ∧
      st'.JfootR.cols = st'._n + 6 ∧ st'.JfootL.cols = st'._n + 6 := by
  obtain ⟨S, hS, hr, hc⟩ := updateSelectionMatrix_state_eq C _ st' h
  obtain ⟨a1, a2, _, _, a5, a6, a7, a8, a9, a10, a11, _, a13⟩ :=
    numberOfJointsChanged_resize_dims C st
  obtain ⟨⟨b1, b2⟩, ⟨b3, b4⟩, ⟨b5, b6⟩, ⟨b7, b8⟩, ⟨b9, b10⟩⟩ :=
    numberOfJointsChanged_resize_jacobians C st
  rw [hS]
  exact ⟨⟨b1.trans hf.Jcom_6xN_rows, b3.trans hf.Jcom_2xN_rows, b5.trans hf.Jfoot_rows,
    b7.trans hf.JfootR_rows, b9.trans hf.JfootL_rows⟩, a1, a2, a5, a6, b4, b6, a7, a8, hr, hc,
    a9, a10, a11, a13, b2, b8, b10⟩

theorem DimInv.fixedRows {C : Constants R} {st : LocomotionThread R} (h : DimInv C st) :
    FixedRows st :=
  ⟨h.Jcom_6xN_rows, h.Jcom_2xN_rows, h.Jfoot_rows, h.JfootR_rows, h.JfootL_rows⟩

theorem DimInv.after_numberOfJointsChanged {C : Constants R} {st st' : LocomotionThread R}
    (h : DimInv C st) (hk : st'._k = st._k) (hp : st'.supportPhase = st.supportPhase)
    (hJc : st'.Jc.rows = st.Jc.rows) (hf : FixedRows st')
    (hd : st'.Jc.cols = st'._n + 6 ∧
      st'.Jcom_2xN.cols = st'._n + 6 ∧ st'.Jfoot.cols = st'._n + 6 ∧
      st'.Jposture.rows = st'._n ∧ st'.Jposture.cols = st'._n + 6 ∧
      st'.S.rows = st'._n ∧ st'.S.cols = C.ICUB_DOFS ∧
      st'.q.length = st'._n ∧ st'.dqJ.length = st'._n ∧ st'.dqc.length = st'._n ∧
      st'.dq.length = st'._n + 6 ∧ st'.Jcom_6xN.cols = st'._n + 6 ∧
      st'.JfootR.cols = st'._n + 6 ∧ st'.JfootL.cols = st'._n + 6) : DimInv C st' := by
  obtain ⟨d1, d2, d3, d4, d5, d6, d7, d8, d9, d10, d11, d12, d13, d14⟩ := hd
  exact ⟨by rw [hk, hp]; exact h.k_eq, by rw [hJc, hk]; exact h.Jc_rows, d1,
    hf.Jcom_2xN_rows, d2, hf.Jfoot_rows, d3, d4, d5, d6, d7, d8, d9, d10, d11,
    hf.Jcom_6xN_rows, d12, hf.JfootR_rows, d13, hf.JfootL_rows, d14⟩

theorem DimInv.after_parameterUpdated {C : Constants R} {st st' : LocomotionThread R}
    (h : DimInv C st) (pd : ParamId) (hst : parameterUpdated C pd st = some st') :
    DimInv C st' := by
  cases pd with
  | PARAM_ID_ACTIVE_JOINTS =>
    obtain ⟨hf, hp, hk, hJc, hd⟩ := numberOfJointsChanged_dims C st st' h.fixedRows hst
    exact h.after_numberOfJointsChanged hk hp hJc hf hd
  | PARAM_ID_SUPPORT_PHASE =>
    simp only [parameterUpdated, Option.some.injEq] at hst
    rw [← hst]
    exact h.after_numberOfConstraintsChanged st.supportPhase
  | _ =>
    simp only [parameterUpdated, Option.some.injEq] at hst
    rw [← hst]
    exact h.of_same_buffers rfl rfl rfl rfl rfl rfl rfl rfl rfl rfl rfl rfl rfl rfl rfl

theorem DimInv.after_step {C : Constants R} {st st' : LocomotionThread R}
    (h : DimInv C st) (L : Library R) (e : Event R) (hst : step C L e st = some st') :
    DimInv C st' := by
  cases e with
  | activeJointsChanged mask =>
    have h0 : DimInv C { st with activeJoints := vfill st.activeJoints.length mask } :=
      h.of_same_buffers rfl rfl rfl rfl rfl rfl rfl rfl rfl rfl rfl rfl rfl rfl rfl
    exact h0.after_parameterUpdated ParamId.PARAM_ID_ACTIVE_JOINTS hst
  | supportPhaseChanged phase =>
    simp only [step, parameterUpdated, Option.some.injEq] at hst
    rw [← hst]
    exact h.after_numberOfConstraintsChanged phase
  | callback pd => exact h.after_parameterUpdated pd hst
  | tick inp rob =>
    simp only [step, Option.some.injEq] at hst
    rw [← hst]
    exact h.after_run L inp rob
  | command cd rob =>
    simp only [step, Option.some.injEq] at hst
    rw [← hst]
    exact h.after_commandReceived L rob cd

theorem DimInv.after_runEvents {C : Constants R} (L : Library R) (es : List (Event R))
    {st st' : LocomotionThread R} (h : DimInv C st)
    (hst : runEvents C L es st = some st') : DimInv C st' := by
  induction es generalizing st with
  | nil =>
    simp only [runEvents, Option.some.injEq] at hst
    rw [← hst]; exact h
  | cons e es ih =>
    unfold runEvents at hst
    cases hs : step C L e st with
    | none => rw [hs] at hst; exact absurd hst (by simp)
    | some s1 =>
      rw [hs] at hst
      exact ih (h.after_step L e hs) hst

/-- After `threadInit` on a freshly constructed thread the dimension invariant holds. -/
theorem DimInv.after_threadInit (C : Constants R) (L : Library R) (rob : RobotAnswers R)
    (activeJoints : List R) (supportPhase : SupportPhase) (mem : LocomotionThread R)
    (robotJointList : List LocalId) (st0 : LocomotionThread R) (res : Bool)
    (h : threadInit C L rob activeJoints supportPhase
      (LocomotionThread.new mem robotJointList) = some (st0, res)) : DimInv C st0 := by
  unfold threadInit at h
  split at h
  · exact absurd h (by simp)
  · rename_i st1 hst1
    have hf : FixedRows ({ LocomotionThread.new mem robotJointList with
        comLinkId := LinkId.COM_LINK_ID
        activeJoints := activeJoints
        supportPhase := supportPhase } : LocomotionThread R) := ⟨rfl, rfl, rfl, rfl, rfl⟩
    obtain ⟨hf1, _, _, _, _, d2, d3, d4, d5, d6, d7, d8, d9, d10, d11, d12, d13, d14⟩ :=
      numberOfJointsChanged_dims C _ st1 hf hst1
    have h2 : DimInv C (resizeVectors C (numberOfConstraintsChanged st1)) :=
      ⟨rfl, (MatrixXd.resize_dims _ _ _).1, (MatrixXd.resize_dims _ _ _).2,
        hf1.Jcom_2xN_rows, d2, hf1.Jfoot_rows, d3, d4, d5, d6, d7, d8, d9, d10, d11,
        hf1.Jcom_6xN_rows, d12, hf1.JfootR_rows, d13, hf1.JfootL_rows, d14⟩
    have h3 := h2.after_readRobotStatus L rob true
    simp only [] at h
    split_ifs at h
    · injection h with h
      injection h with h _
      rw [← h]
      exact h3.of_same_buffers rfl rfl rfl rfl rfl rfl rfl rfl rfl rfl rfl rfl rfl rfl rfl
    · injection h with h
      injection h with h _
      rw [← h]
      exact h3

end DimInvLemmas

section JointListLemmas

variable {R : Type} [CommRing R] [DecidableEq R]

open LocomotionThread

theorem numberOfJointsChanged_body_jointList (C : Constants R) (cur : List LocalId)
    (s : LocomotionThread R) (t : Nat) :
    (numberOfJointsChanged_body C cur s t).activeJoints = s.activeJoints ∧
    (numberOfJointsChanged_body C cur s t).robotJointList =
      (if C.globalToLocalId t ∈ cur then
        (if s.activeJoints.getD t 0 = 0
          then s.robotJointList.filter (fun x => x ≠ C.globalToLocalId t)
          else s.robotJointList)
      else
        (if s.activeJoints.getD t 0 = 1
          then (if C.globalToLocalId t ∈ s.robotJointList then s.robotJointList
            else s.robotJointList ++ [C.globalToLocalId t])
          else s.robotJointList)) := by
  unfold numberOfJointsChanged_body
  simp only []
  by_cases c1 : C.globalToLocalId t ∈ cur
  · rw [if_pos c1, if_pos c1]
    by_cases c2 : s.activeJoints.getD t 0 = 0
    · rw [if_pos c2, if_pos c2]
      exact ⟨rfl, rfl⟩
    · rw [if_neg c2, if_neg c2]
      exact ⟨rfl, rfl⟩
  · rw [if_neg c1, if_neg c1]
    by_cases c2 : s.activeJoints.getD t 0 = 1
    · rw [if_pos c2, if_pos c2]
      exact ⟨rfl, rfl⟩
    · rw [if_neg c2, if_neg c2]
      exact ⟨rfl, rfl⟩

/-- The joint list of the robot interface after the first `t` iterations of the loop of
`numberOfJointsChanged`: a joint of the list before is still there unless an index below
`t` with mask entry 0 names it, and a joint that was not there is there now exactly when an
index below `t` with mask entry 1 names it. A list without repetition stays so. -/
theorem numberOfJointsChanged_loop_jointList (C : Constants R) (st : LocomotionThread R)
    (t : Nat) :
    ((List.range t).foldl (numberOfJointsChanged_body C st.robotJointList) st).activeJoints
        = st.activeJoints ∧
    (∀ lid, lid ∈ ((List.range t).foldl
          (numberOfJointsChanged_body C st.robotJointList) st).robotJointList ↔
        (lid ∈ st.robotJointList ∧
          ¬ ∃ i, i < t ∧ C.globalToLocalId i = lid ∧ st.activeJoints.getD i 0 = 0) ∨
        (lid ∉ st.robotJointList ∧
          ∃ i, i < t ∧ C.globalToLocalId i = lid ∧ st.activeJoints.getD i 0 = 1)) ∧
    (st.robotJointList.Nodup →
      ((List.range t).foldl
        (numberOfJointsChanged_body C st.robotJointList) st).robotJointList.Nodup) := by
  induction t with
  | zero =>
    refine ⟨rfl, fun lid => ?_, fun h => h⟩
    simp
  | succ t ih =>
    obtain ⟨ha, hm, hn⟩ := ih
    rw [List.range_succ, List.foldl_append, List.foldl_cons, List.foldl_nil]
    obtain ⟨b1, b2⟩ := numberOfJointsChanged_body_jointList C st.robotJointList
      ((List.range t).foldl (numberOfJointsChanged_body C st.robotJointList) st) t
    rw [ha] at b2
    refine ⟨b1.trans ha, fun lid => ?_, fun hnd => ?_⟩
    · rw [b2]
      by_cases hcur : C.globalToLocalId t ∈ st.robotJointList
      · rw [if_pos hcur]
        by_cases h0 : st.activeJoints.getD t 0 = 0
        · rw [if_pos h0, List.mem_filter, hm lid]
          constructor
          · rintro ⟨h | h, hne⟩
            · left
              refine ⟨h.1, ?_⟩
              rintro ⟨i, hi, hg, hz⟩
              rcases Nat.lt_succ_iff_lt_or_eq.mp hi with hlt | heq
              · exact h.2 ⟨i, hlt, hg, hz⟩
              · subst heq
                simp [hg] at hne
            · right
              obtain ⟨hl, i, hi, hg, hz⟩ := h
              exact ⟨hl, i, Nat.lt_succ_of_lt hi, hg, hz⟩
          · rintro (h | h)
            · refine ⟨Or.inl ⟨h.1, fun ⟨i, hi, hg, hz⟩ =>
                h.2 ⟨i, Nat.lt_succ_of_lt hi, hg, hz⟩⟩, ?_⟩
              have : lid ≠ C.globalToLocalId t := by
                intro he
                exact h.2 ⟨t, Nat.lt_succ_self t, he.symm, h0⟩
              simpa using this
            · obtain ⟨hl, i, hi, hg, hz⟩ := h
              have hne : lid ≠ C.globalToLocalId t := by
                intro he; rw [he] at hl; exact hl hcur
              rcases Nat.lt_succ_iff_lt_or_eq.mp hi with hlt | heq
              · exact ⟨Or.inr ⟨hl, i, hlt, hg, hz⟩, by simpa using hne⟩
              · subst heq
                exact absurd hg.symm hne
        · rw [if_neg h0, hm lid]
          constructor
          · rintro (h | h)
            · left
              refine ⟨h.1, ?_⟩
              rintro ⟨i, hi, hg, hz⟩
              rcases Nat.lt_succ_iff_lt_or_eq.mp hi with hlt | heq
              · exact h.2 ⟨i, hlt, hg, hz⟩
              · subst heq; exact h0 hz
            · right
              obtain ⟨hl, i, hi, hg, hz⟩ := h
              exact ⟨hl, i, Nat.lt_succ_of_lt hi, hg, hz⟩
          · rintro (h | h)
            · exact Or.inl ⟨h.1, fun ⟨i, hi, hg, hz⟩ =>
                h.2 ⟨i, Nat.lt_succ_of_lt hi, hg, hz⟩⟩
            · obtain ⟨hl, i, hi, hg, hz⟩ := h
              rcases Nat.lt_succ_iff_lt_or_eq.mp hi with hlt | heq
              · exact Or.inr ⟨hl, i, hlt, hg, hz⟩
              · subst heq
                rw [← hg] at hl
                exact absurd hcur hl
      · rw [if_neg hcur]
        have hadd : ∀ l : List LocalId,
            lid ∈ (if C.globalToLocalId t ∈ l then l else l ++ [C.globalToLocalId t]) ↔
              lid ∈ l ∨ lid = C.globalToLocalId t := by
          intro l
          split_ifs with hin
          · constructor
            · exact fun h => Or.inl h
            · rintro (h | h)
              · exact h
              · rw [h]; exact hin
          · simp
        by_cases h1 : st.activeJoints.getD t 0 = 1
        · rw [if_pos h1, hadd, hm lid]
          constructor
          · rintro ((h | h) | h)
            · left
              refine ⟨h.1, ?_⟩
              rintro ⟨i, hi, hg, hz⟩
              rcases Nat.lt_succ_iff_lt_or_eq.mp hi with hlt | heq
              · exact h.2 ⟨i, hlt, hg, hz⟩
              · subst heq
                rw [← hg] at h
                exact hcur h.1
            · right
              obtain ⟨hl, i, hi, hg, hz⟩ := h
              exact ⟨hl, i, Nat.lt_succ_of_lt hi, hg, hz⟩
            · right
              rw [h]
              exact ⟨hcur, t, Nat.lt_succ_self t, rfl, h1⟩
          · rintro (h | h)
            · exact Or.inl (Or.inl ⟨h.1, fun ⟨i, hi, hg, hz⟩ =>
                h.2 ⟨i, Nat.lt_succ_of_lt hi, hg, hz⟩⟩)
            · obtain ⟨hl, i, hi, hg, hz⟩ := h
              rcases Nat.lt_succ_iff_lt_or_eq.mp hi with hlt | heq
              · exact Or.inl (Or.inr ⟨hl, i, hlt, hg, hz⟩)
              · subst heq
                exact Or.inr hg.symm
        · rw [if_neg h1, hm lid]
          constructor
          · rintro (h | h)
            · left
              refine ⟨h.1, ?_⟩
              rintro ⟨i, hi, hg, hz⟩
              rcases Nat.lt_succ_iff_lt_or_eq.mp hi with hlt | heq
              · exact h.2 ⟨i, hlt, hg, hz⟩
              · subst heq
                rw [← hg] at h
                exact hcur h.1
            · right
              obtain ⟨hl, i, hi, hg, hz⟩ := h
              exact ⟨hl, i, Nat.lt_succ_of_lt hi, hg, hz⟩
          · rintro (h | h)
            · exact Or.inl ⟨h.1, fun ⟨i, hi, hg, hz⟩ =>
                h.2 ⟨i, Nat.lt_succ_of_lt hi, hg, hz⟩⟩
            · obtain ⟨hl, i, hi, hg, hz⟩ := h
              rcases Nat.lt_succ_iff_lt_or_eq.mp hi with hlt | heq
              · exact Or.inr ⟨hl, i, hlt, hg, hz⟩
              · subst heq
                exact absurd hz h1
    · rw [b2]
      have hprev := hn hnd
      split_ifs with c1 c2 c3 c4
      · exact hprev.filter _
      · exact hprev
      · exact hprev
      · exact List.Nodup.append hprev (List.nodup_singleton _)
          (by
            intro x hx hx'
            rw [List.mem_singleton] at hx'
            rw [hx'] at hx
            exact c4 hx)
      · exact hprev

/-- The loop of `numberOfJointsChanged` changes nothing when every joint the mask governs
that is in the joint list has a nonzero mask entry and every one that is not has a mask
entry other than 1. -/
theorem numberOfJointsChanged_loop_fixed (C : Constants R) (s : LocomotionThread R)
    (l : List Nat)
    (h : ∀ i ∈ l, (C.globalToLocalId i ∈ s.robotJointList → s.activeJoints.getD i 0 ≠ 0) ∧
      (C.globalToLocalId i ∉ s.robotJointList → s.activeJoints.getD i 0 ≠ 1)) :
    l.foldl (numberOfJointsChanged_body C s.robotJointList) s = s := by
  induction l with
  | nil => rfl
  | cons i l ih =>
    rw [List.foldl_cons]
    have hb : numberOfJointsChanged_body C s.robotJointList s i = s := by
      obtain ⟨h1, h2⟩ := h i (List.mem_cons_self i l)
      unfold numberOfJointsChanged_body
      simp only []
      split_ifs with c1 c2 c3
      · exact absurd c2 (h1 c1)
      · rfl
      · exact absurd c3 (h2 c1)
      · rfl
    rw [hb]
    exact ih (fun j hj => h j (List.mem_cons_of_mem i hj))

/-- The function `updateSelectionMatrix` on the thread state does not read the old `S`. -/
theorem updateSelectionMatrix_congr_S (C : Constants R) (s : LocomotionThread R)
    (S0 : MatrixXd R) :
    ({ s with S := S0 } : LocomotionThread R).updateSelectionMatrix C
      = s.updateSelectionMatrix C := by
  unfold LocomotionThread.updateSelectionMatrix
  cases Locomotion.updateSelectionMatrix s._n C.ICUB_DOFS
    (fun i => s.activeJoints.getD i 0) <;> rfl

end JointListLemmas

section ReconfigurationLemmas

variable {R : Type} [CommRing R] [DecidableEq R]

open LocomotionThread

theorem MatrixXd.resizeCols_self (M : MatrixXd R) (c : Nat) (hc : M.cols = c) :
    M.resizeCols c = M :=
  MatrixXd.resize_self M M.rows c rfl hc

theorem vresize_self (v : List R) (len : Nat) (h : v.length = len) : vresize v len = v := by
  unfold vresize
  rw [if_pos h]

/-- The joint list after the loop and the resizes of `numberOfJointsChanged`, the mask,
and the buffers that are rebuilt with their values. -/
theorem numberOfJointsChanged_resize_jointList (C : Constants R) (st : LocomotionThread R) :
    (∀ lid, lid ∈ (numberOfJointsChanged_resize C st).robotJointList ↔
        (lid ∈ st.robotJointList ∧ ¬ ∃ i, i < st.activeJoints.length ∧
            C.globalToLocalId i = lid ∧ st.activeJoints.getD i 0 = 0) ∨
        (lid ∉ st.robotJointList ∧ ∃ i, i < st.activeJoints.length ∧
            C.globalToLocalId i = lid ∧ st.activeJoints.getD i 0 = 1)) ∧
    (st.robotJointList.Nodup → (numberOfJointsChanged_resize C st).robotJointList.Nodup) ∧
    (numberOfJointsChanged_resize C st).Jposture
      = MatrixXd.identity (numberOfJointsChanged_resize C st)._n
          ((numberOfJointsChanged_resize C st)._n + 6) ∧
    (numberOfJointsChanged_resize C st).q
      = List.replicate (numberOfJointsChanged_resize C st)._n 0 ∧
    (numberOfJointsChanged_resize C st).dqc
      = List.replicate (numberOfJointsChanged_resize C st)._n 0 ∧
    (numberOfJointsChanged_resize C st).kp_posture
      = List.replicate (numberOfJointsChanged_resize C st)._n 0 := by
  obtain ⟨_, hm, hn⟩ := numberOfJointsChanged_loop_jointList C st st.activeJoints.length
  obtain ⟨jl, lg, hloop, h⟩ := numberOfJointsChanged_resize_eq C st
  rw [hloop] at hm hn
  rw [h]
  exact ⟨hm, hn, rfl, rfl, rfl, rfl⟩

/-- A state on which `numberOfJointsChanged` has nothing to add or remove and whose
buffers already have the dimensions and the values the resizes give is left as it is by
the loop and the resizes. -/
theorem numberOfJointsChanged_resize_fixed (C : Constants R) (s : LocomotionThread R)
    (hfix : ∀ i, i < s.activeJoints.length →
      (C.globalToLocalId i ∈ s.robotJointList → s.activeJoints.getD i 0 ≠ 0) ∧
      (C.globalToLocalId i ∉ s.robotJointList → s.activeJoints.getD i 0 ≠ 1))
    (hn : s._n = s.robotJointList.length)
    (h1 : s.Jcom_6xN.cols = s._n + 6) (h2 : s.Jcom_2xN.cols = s._n + 6)
    (h3 : s.Jfoot.cols = s._n + 6) (h4 : s.JfootR.cols = s._n + 6)
    (h5 : s.JfootL.cols = s._n + 6) (h6 : s.Jc.cols = s._n + 6)
    (h7 : MatrixXd.identity s._n (s._n + 6) = s.Jposture)
    (h8 : List.replicate s._n 0 = s.q) (h9 : s.dq.length = s._n + 6)
    (h10 : s.dqJ.length = s._n) (h11 : List.replicate s._n 0 = s.dqc)
    (h12 : List.replicate s._n 0 = s.kp_posture) :
    numberOfJointsChanged_resize C s = s := by
  obtain ⟨jl, lg, hloop, h⟩ := numberOfJointsChanged_resize_eq C s
  rw [numberOfJointsChanged_loop_fixed C s (List.range s.activeJoints.length)
    (fun i hi => hfix i (List.mem_range.mp hi))] at hloop
  have hj : s.robotJointList = jl := congrArg (fun x => x.robotJointList) hloop
  have hl : s.log = lg := congrArg (fun x => x.log) hloop
  subst hj
  subst hl
  rw [h, ← hn, MatrixXd.resizeCols_self _ _ h1, MatrixXd.resizeCols_self _ _ h2,
    MatrixXd.resizeCols_self _ _ h3, MatrixXd.resizeCols_self _ _ h4,
    MatrixXd.resizeCols_self _ _ h5, MatrixXd.resizeCols_self _ _ h6, h7,
    vresize_self _ _ h9, vresize_self _ _ h10]
  nth_rewrite 1 [h12]
  nth_rewrite 1 [h8]
  rw [h11]

/-- The selection matrix `updateSelectionMatrix` leaves in the thread state is a function
of `_n`, `ICUB_DOFS` and the mask. -/
theorem updateSelectionMatrix_S (C : Constants R) (s : LocomotionThread R) :
    (s.updateSelectionMatrix C).map (fun r => r.S)
      = (Locomotion.updateSelectionMatrix s._n C.ICUB_DOFS
          (fun i => s.activeJoints.getD i 0)).map MatrixXd.ofMatrix := by
  unfold LocomotionThread.updateSelectionMatrix
  cases Locomotion.updateSelectionMatrix s._n C.ICUB_DOFS
    (fun i => s.activeJoints.getD i 0) <;> rfl

/-- What `numberOfJointsChanged` leaves: the state after the loop and the resizes with a
new `S`; the mask is the one before, `_n` is the length of the joint list of the robot
interface. -/
theorem numberOfJointsChanged_eq (C : Constants R) (st st1 : LocomotionThread R)
    (h : numberOfJointsChanged C st = some st1) :
    st1.activeJoints = st.activeJoints ∧
    st1._n = (numberOfJointsChanged_resize C st)._n ∧
    st1._n = st1.robotJointList.length ∧
    st1.robotJointList = (numberOfJointsChanged_resize C st).robotJointList ∧
    some st1.S = (Locomotion.updateSelectionMatrix (numberOfJointsChanged_resize C st)._n
      C.ICUB_DOFS (fun i => st.activeJoints.getD i 0)).map MatrixXd.ofMatrix := by
  unfold numberOfJointsChanged at h
  have hS := updateSelectionMatrix_S C (numberOfJointsChanged_resize C st)
  rw [h] at hS
  obtain ⟨S, hst1, _, _⟩ := updateSelectionMatrix_state_eq C _ st1 h
  obtain ⟨_, _, d3, d4, _⟩ := numberOfJointsChanged_resize_dims C st
  rw [d3, Option.map_some'] at hS
  subst hst1
  exact ⟨d3, rfl, d4, rfl, hS⟩

end ReconfigurationLemmas

section JointCountLemmas

variable {R : Type} [CommRing R] [DecidableEq R]

open LocomotionThread

/-- For a mask of `ICUB_DOFS` entries that are all 0 or 1, a table `globalToLocalId` that
gives distinct joints for distinct indices, and a joint list of the robot interface without
repetition that holds joints of the table only, `numberOfJointsChanged` ends with `_n` the
number of nonzero entries of the mask; `updateSelectionMatrix` then stays inside `S` and
every row of `S` has a 1. -/
theorem numberOfJointsChanged_count [Nontrivial R] (C : Constants R)
    (st : LocomotionThread R)
    (h01 : ∀ i, i < st.activeJoints.length →
      st.activeJoints.getD i 0 = 0 ∨ st.activeJoints.getD i 0 = 1)
    (hlen : st.activeJoints.length = C.ICUB_DOFS)
    (hinj : ∀ i j, i < st.activeJoints.length → j < st.activeJoints.length →
      C.globalToLocalId i = C.globalToLocalId j → i = j)
    (hnd : st.robotJointList.Nodup)
    (hrange : ∀ lid, lid ∈ st.robotJointList →
      ∃ i, i < st.activeJoints.length ∧ C.globalToLocalId i = lid) :
    ∃ st1, numberOfJointsChanged C st = some st1 ∧
      st1._n = nonzerosBefore (fun i => st.activeJoints.getD i 0) C.ICUB_DOFS ∧
      st1.S.rows = st1._n ∧ st1.S.cols = C.ICUB_DOFS ∧
      ∀ j, j < st1._n → ∃ i, i < C.ICUB_DOFS ∧ st1.S.get j i = 1 := by
  obtain ⟨hm, hnd', _⟩ := numberOfJointsChanged_resize_jointList C st
  obtain ⟨_, _, d3, d4, _⟩ := numberOfJointsChanged_resize_dims C st
  have hmem : ∀ lid, lid ∈ (numberOfJointsChanged_resize C st).robotJointList ↔
      ∃ i, i < st.activeJoints.length ∧ C.globalToLocalId i = lid ∧
        st.activeJoints.getD i 0 ≠ 0 := by
    intro lid
    rw [hm lid]
    constructor
    · rintro (⟨hin, hno⟩ | ⟨_, i, hi, hg, h1⟩)
      · obtain ⟨i, hi, hg⟩ := hrange lid hin
        exact ⟨i, hi, hg, fun hz => hno ⟨i, hi, hg, hz⟩⟩
      · exact ⟨i, hi, hg, by rw [h1]; exact one_ne_zero⟩
    · rintro ⟨i, hi, hg, hne⟩
      have h1 : st.activeJoints.getD i 0 = 1 := (h01 i hi).resolve_left hne
      by_cases hin : lid ∈ st.robotJointList
      · refine Or.inl ⟨hin, ?_⟩
        rintro ⟨i', hi2, hg', hz⟩
        have := hinj i' i hi2 hi (hg'.trans hg.symm)
        subst this
        exact hne hz
      · exact Or.inr ⟨hin, i, hi, hg, h1⟩
  have hcount : (numberOfJointsChanged_resize C st)._n
      = nonzerosBefore (fun i => st.activeJoints.getD i 0) C.ICUB_DOFS := by
    rw [d4, ← List.toFinset_card_of_nodup (hnd' hnd), ← hlen]
    unfold nonzerosBefore
    have himg : (numberOfJointsChanged_resize C st).robotJointList.toFinset
        = ((Finset.range st.activeJoints.length).filter
            (fun c => st.activeJoints.getD c 0 ≠ 0)).image C.globalToLocalId := by
      ext lid
      rw [List.mem_toFinset, hmem lid, Finset.mem_image]
      constructor
      · rintro ⟨i, hi, hg, hne⟩
        exact ⟨i, Finset.mem_filter.mpr ⟨Finset.mem_range.mpr hi, hne⟩, hg⟩
      · rintro ⟨i, hi, hg⟩
        obtain ⟨hi1, hne⟩ := Finset.mem_filter.mp hi
        exact ⟨i, Finset.mem_range.mp hi1, hg, hne⟩
    rw [himg]
    apply Finset.card_image_of_injOn
    intro i hi j hj hg
    exact hinj i j (Finset.mem_range.mp (Finset.mem_filter.mp hi).1)
      (Finset.mem_range.mp (Finset.mem_filter.mp hj).1) hg
  have hsel := updateSelectionMatrix_eq (numberOfJointsChanged_resize C st)._n C.ICUB_DOFS
    (fun i => st.activeJoints.getD i 0) hcount.symm
  have hS : (numberOfJointsChanged C st).map (fun r => r.S)
      = some (MatrixXd.ofMatrix (Matrix.of
          (fun (j : Fin (numberOfJointsChanged_resize C st)._n) (i : Fin C.ICUB_DOFS) =>
            if st.activeJoints.getD i.val 0 ≠ 0 ∧
              nonzerosBefore (fun i => st.activeJoints.getD i 0) i.val = j.val
            then (1 : R) else 0))) := by
    unfold numberOfJointsChanged
    rw [updateSelectionMatrix_S, d3, hsel]
    rfl
  cases hq : numberOfJointsChanged C st with
  | none =>
    rw [hq] at hS
    exact absurd hS (by simp)
  | some st1 =>
    rw [hq, Option.map_some', Option.some.injEq] at hS
    obtain ⟨_, a2, _⟩ := numberOfJointsChanged_eq C st st1 hq
    refine ⟨st1, rfl, a2.trans hcount, ?_, ?_, ?_⟩
    · rw [hS, a2]
      rfl
    · rw [hS]
      rfl
    · intro j hj
      rw [a2] at hj
      have hj' : j < nonzerosBefore (fun i => st.activeJoints.getD i 0) C.ICUB_DOFS :=
        hcount ▸ hj
      obtain ⟨i, hi, hne, hrank⟩ := exists_index_of_lt_nonzerosBefore _ _ _ hj'
      refine ⟨i, hi, ?_⟩
      rw [hS]
      unfold MatrixXd.get
      rw [dif_pos ⟨hj, hi⟩]
      show (if st.activeJoints.getD i 0 ≠ 0 ∧
          nonzerosBefore (fun i => st.activeJoints.getD i 0) i = j then (1 : R) else 0) = 1
      rw [if_pos ⟨hne, hrank⟩]

end JointCountLemmas

section ReconfigurationClaims

variable {R : Type} [CommRing R] [DecidableEq R]

open LocomotionThread

/-- When the table `globalToLocalId` gives distinct joints for distinct indices of the
mask and `numberOfJointsChanged` has run once (without `updateSelectionMatrix` writing
outside `S`), running it again with the same mask changes nothing: the whole thread state,
with `_n`, every buffer, the joint list of the robot interface and `S`, is the one after the
first run. The matrix `S` is determined by the mask together with the joint count `_n`: two
runs of `numberOfJointsChanged` with the same mask that end with the same `_n` end with the
same `S`, whatever the joint lists before. -/
theorem numberOfJointsChanged_idempotent [Nontrivial R] (C : Constants R)
    (st st1 : LocomotionThread R)
    (hinj : ∀ i j, i < st.activeJoints.length → j < st.activeJoints.length →
      C.globalToLocalId i = C.globalToLocalId j → i = j)
    (h : numberOfJointsChanged C st = some st1) :
    numberOfJointsChanged C st1 = some st1 ∧
    ∀ t t1 : LocomotionThread R, numberOfJointsChanged C t = some t1 →
      t.activeJoints = st.activeJoints → t1._n = st1._n → t1.S = st1.S := by
  constructor
  · have h0 := h
    unfold numberOfJointsChanged at h ⊢
    obtain ⟨S, hst1, _, _⟩ := updateSelectionMatrix_state_eq C _ st1 h
    obtain ⟨_, _, d3, d4, _, d6, _, _, _, d10, _, _, d13⟩ :=
      numberOfJointsChanged_resize_dims C st
    obtain ⟨⟨_, j1⟩, ⟨_, j2⟩, ⟨_, j3⟩, ⟨_, j4⟩, ⟨_, j5⟩⟩ :=
      numberOfJointsChanged_resize_jacobians C st
    obtain ⟨hm, _, v1, v2, v3, v4⟩ := numberOfJointsChanged_resize_jointList C st
    have hfixed : numberOfJointsChanged_resize C st1 = st1 := by
      rw [hst1]
      refine numberOfJointsChanged_resize_fixed C _ ?_ d4 j1 j2 j3 j4 j5 d6 v1.symm v2.symm
        d13 d10 v3.symm v4.symm
      intro i hi
      have hi' : i < st.activeJoints.length := by
        have : (numberOfJointsChanged_resize C st).activeJoints.length
            = st.activeJoints.length := by rw [d3]
        exact this ▸ hi
      have hmask : ∀ x : R, ({ numberOfJointsChanged_resize C st with S := S } :
          LocomotionThread R).activeJoints.getD i 0 = x ↔ st.activeJoints.getD i 0 = x := by
        intro x
        have : ({ numberOfJointsChanged_resize C st with S := S } :
          LocomotionThread R).activeJoints = st.activeJoints := d3
        rw [this]
      constructor
      · intro hin h0'
        rw [hmask] at h0'
        rcases (hm _).mp hin with ⟨_, hno⟩ | ⟨_, i', hi2, hg, h1⟩
        · exact hno ⟨i, hi', rfl, h0'⟩
        · have := hinj i' i hi2 hi' hg
          subst this
          rw [h0'] at h1
          exact zero_ne_one h1
      · intro hnin h1
        rw [hmask] at h1
        by_cases hcur : C.globalToLocalId i ∈ st.robotJointList
        · apply hnin
          refine (hm _).mpr (Or.inl ⟨hcur, ?_⟩)
          rintro ⟨i', hi2, hg, hz⟩
          have := hinj i' i hi2 hi' hg
          subst this
          rw [h1] at hz
          exact one_ne_zero hz
        · exact hnin ((hm _).mpr (Or.inr ⟨hcur, i, hi', rfl, h1⟩))
    rw [hfixed]
    rw [hst1] at h ⊢
    rw [updateSelectionMatrix_congr_S]
    exact h
  · intro t t1 ht ha hn
    obtain ⟨_, a2, _, _, a5⟩ := numberOfJointsChanged_eq C st st1 h
    obtain ⟨_, b2, _, _, b5⟩ := numberOfJointsChanged_eq C t t1 ht
    rw [← b2, ha, hn, a2] at b5
    rw [← a5] at b5
    exact Option.some.inj b5

end ReconfigurationClaims

/-- C14. After `threadInit` on a freshly constructed thread, and after any finite sequence
of events from there (changes of the active-joint mask and of the support phase in any
order, and also ticks, commands and other parameter callbacks), every state reached
satisfies the dimension invariant: with `n = _n` and `D = ICUB_DOFS`, `Jc` is `k x (n+6)`
with `k = 12` in double support and 6 otherwise, `Jcom_2xN` is `2 x (n+6)`, `Jfoot` is
`6 x (n+6)`, `Jposture` is `n x (n+6)`, `S` is `n x D`, the vectors `q`, `dqJ` and `dqc`
have `n` entries and `dq` has `n+6`. -/
theorem C14_dimension_invariant {R : Type} [CommRing R] [DecidableEq R]
    (C : Constants R) (L : Library R) (rob : RobotAnswers R) (activeJoints : List R)
    (supportPhase : SupportPhase) (mem : LocomotionThread R)
    (robotJointList : List LocalId) (st0 : LocomotionThread R) (res : Bool)
    (es : List (Event R)) (st' : LocomotionThread R)
    (h0 : LocomotionThread.threadInit C L rob activeJoints supportPhase
      (LocomotionThread.new mem robotJointList) = some (st0, res))
    (hes : runEvents C L es st0 = some st') :
    DimInv C st0 ∧ DimInv C st' ∧
      st'.Jc.rows = (if st'.supportPhase = SupportPhase.SUPPORT_DOUBLE then 12 else 6) ∧
      st'.Jc.cols = st'._n + 6 ∧
      (st'.Jcom_2xN.rows = 2 ∧ st'.Jcom_2xN.cols = st'._n + 6) ∧
      (st'.Jfoot.rows = 6 ∧ st'.Jfoot.cols = st'._n + 6) ∧
      (st'.Jposture.rows = st'._n ∧ st'.Jposture.cols = st'._n + 6) ∧
      (st'.S.rows = st'._n ∧ st'.S.cols = C.ICUB_DOFS) ∧
      st'.q.length = st'._n ∧ st'.dqJ.length = st'._n ∧ st'.dqc.length = st'._n ∧
      st'.dq.length = st'._n + 6 := by
  have hi := DimInv.after_threadInit C L rob activeJoints supportPhase mem robotJointList
    st0 res h0
  have hf := DimInv.after_runEvents L es hi hes
  exact ⟨hi, hf, hf.Jc_rows.trans hf.k_eq, hf.Jc_cols, ⟨hf.Jcom_2xN_rows, hf.Jcom_2xN_cols⟩,
    ⟨hf.Jfoot_rows, hf.Jfoot_cols⟩, ⟨hf.Jposture_rows, hf.Jposture_cols⟩,
    ⟨hf.S_rows, hf.S_cols⟩, hf.q_length, hf.dqJ_length, hf.dqc_length, hf.dq_length⟩

/-! ## Theorems, Part IV: the contact stack and the tick -/

section ContactStack

variable {R : Type} [CommRing R] [DecidableEq R]

open LocomotionThread

theorem MatrixXd.get_ofFn (r c : Nat) (f : Nat → Nat → R) (i j : Nat) :
    (MatrixXd.ofFn r c f).get i j = if i < r ∧ j < c then f i j else 0 := by
  unfold MatrixXd.get MatrixXd.ofFn
  split_ifs <;> rfl

theorem MatrixXd.get_of_cols_le (M : MatrixXd R) (i j : Nat) (h : M.cols ≤ j) :
    M.get i j = 0 := by
  unfold MatrixXd.get
  rw [dif_neg]
  omega

/-- The entries of a 12-row matrix after its top six rows were overwritten with `A` and
its bottom six rows with `B`. -/
theorem MatrixXd.stack_get (M A B : MatrixXd R) (hM : M.rows = 12)
    (hA : A.cols = M.cols) (hB : B.cols = M.cols) (i j : Nat) (hi : i < 6) :
    ((M.setTopRows 6 A).setBottomRows 6 B).get i j = A.get i j ∧
      ((M.setTopRows 6 A).setBottomRows 6 B).get (i + 6) j = B.get i j := by
  have hrows : (M.setTopRows 6 A).rows = 12 := hM
  have hcols : (M.setTopRows 6 A).cols = M.cols := rfl
  unfold MatrixXd.setBottomRows
  rw [MatrixXd.get_ofFn, MatrixXd.get_ofFn, hrows, hcols]
  by_cases hj : j < M.cols
  · constructor
    · rw [if_pos ⟨by omega, hj⟩, if_neg (by omega)]
      unfold MatrixXd.setTopRows
      rw [MatrixXd.get_ofFn, if_pos ⟨by omega, hj⟩, if_pos hi]
    · rw [if_pos ⟨by omega, hj⟩, if_pos (by omega)]
      congr 1
  · constructor
    · rw [if_neg (by tauto), MatrixXd.get_of_cols_le A i j (by omega)]
    · rw [if_neg (by tauto), MatrixXd.get_of_cols_le B i j (by omega)]

/-- The contact stack a state read assembles in double support. -/
theorem readRobotStatus_Jc_double (L : Library R) (rob : RobotAnswers R) (b : Bool)
    (st : LocomotionThread R) (hsp : st.supportPhase = SupportPhase.SUPPORT_DOUBLE) :
    (readRobotStatus L rob b st).1.Jc
      = (st.Jc.setTopRows 6 (readRobotStatus L rob b st).1.JfootR).setBottomRows 6
          (readRobotStatus L rob b st).1.JfootL ∧
    (readRobotStatus L rob b st).1.Jfoot = MatrixXd.zero st.Jfoot.rows st.Jfoot.cols := by
  obtain ⟨q', dqJ', res, h, _, _⟩ := readJointState_eq rob b st
  unfold LocomotionThread.readRobotStatus
  rw [h]
  simp [estimateBaseVelocity, convertJacobians, readJacobians, readForwardKinematics,
    readBasePose, emit, hsp]

/-- The foot a state read controls and the pose it measures for it. -/
theorem readRobotStatus_foot (L : Library R) (rob : RobotAnswers R) (b : Bool)
    (st : LocomotionThread R) :
    (readRobotStatus L rob b st).1.footLinkId
      = (if st.supportPhase = SupportPhase.SUPPORT_LEFT then LinkId.LINK_ID_RIGHT_FOOT
          else LinkId.LINK_ID_LEFT_FOOT) ∧
    (readRobotStatus L rob b st).1.x_foot
      = vfill st.x_foot.length
          (rob.forwardKinematics (readRobotStatus L rob b st).1.q
            (readRobotStatus L rob b st).1.xBase (readRobotStatus L rob b st).1.footLinkId) := by
  obtain ⟨q', dqJ', res, h, _, _⟩ := readJointState_eq rob b st
  unfold LocomotionThread.readRobotStatus
  rw [h]
  cases hsp : st.supportPhase <;>
    simp [estimateBaseVelocity, convertJacobians, readJacobians, readForwardKinematics,
      readBasePose, emit, hsp]

end ContactStack

/-- C11. In double support `numberOfConstraintsChanged` sets `_k = 12` and makes `Jc` a
`12 x (_n+6)` matrix; after the state read that follows (and so after a tick), for foot
Jacobian buffers of `_n+6` columns, rows 0 to 5 of `Jc` are the right-foot Jacobian and
rows 6 to 11 the left-foot Jacobian computed in that read, for every `_n`. -/
theorem C11_double_support_contact_stack {R : Type} [CommRing R] [DecidableEq R]
    (C : Constants R) (L : Library R) (inp : StreamInput R) (rob : RobotAnswers R)
    (b : Bool) (st : LocomotionThread R)
    (h : st.supportPhase = SupportPhase.SUPPORT_DOUBLE)
    (hR : st.JfootR.cols = st._n + 6) (hL : st.JfootL.cols = st._n + 6) :
    (LocomotionThread.numberOfConstraintsChanged st)._k = 12 ∧
      ((LocomotionThread.readRobotStatus L rob b
          (LocomotionThread.numberOfConstraintsChanged st)).1.Jc.rows = 12 ∧
        (LocomotionThread.readRobotStatus L rob b
          (LocomotionThread.numberOfConstraintsChanged st)).1.Jc.cols = st._n + 6 ∧
        ∀ i j, i < 6 →
          (LocomotionThread.readRobotStatus L rob b
              (LocomotionThread.numberOfConstraintsChanged st)).1.Jc.get i j
            = (LocomotionThread.readRobotStatus L rob b
                (LocomotionThread.numberOfConstraintsChanged st)).1.JfootR.get i j ∧
          (LocomotionThread.readRobotStatus L rob b
              (LocomotionThread.numberOfConstraintsChanged st)).1.Jc.get (i + 6) j
            = (LocomotionThread.readRobotStatus L rob b
                (LocomotionThread.numberOfConstraintsChanged st)).1.JfootL.get i j) ∧
      ((LocomotionThread.run C L inp rob
          (LocomotionThread.numberOfConstraintsChanged st)).Jc.rows = 12 ∧
        ∀ i j, i < 6 →
          (LocomotionThread.run C L inp rob
              (LocomotionThread.numberOfConstraintsChanged st)).Jc.get i j
            = (LocomotionThread.run C L inp rob
                (LocomotionThread.numberOfConstraintsChanged st)).JfootR.get i j ∧
          (LocomotionThread.run C L inp rob
              (LocomotionThread.numberOfConstraintsChanged st)).Jc.get (i + 6) j
            = (LocomotionThread.run C L inp rob
                (LocomotionThread.numberOfConstraintsChanged st)).JfootL.get i j) := by
  have hk : (LocomotionThread.numberOfConstraintsChanged st)._k = 12 := by
    simp [LocomotionThread.numberOfConstraintsChanged, h]
  have hJc : (LocomotionThread.numberOfConstraintsChanged st).Jc.rows = 12 ∧
      (LocomotionThread.numberOfConstraintsChanged st).Jc.cols = st._n + 6 := by
    have := MatrixXd.resize_dims st.Jc 12 (st._n + 6)
    simpa [LocomotionThread.numberOfConstraintsChanged, h] using this
  have key : ∀ (b' : Bool) (s : LocomotionThread R),
      s.supportPhase = SupportPhase.SUPPORT_DOUBLE → s.Jc.rows = 12 →
      s.Jc.cols = st._n + 6 → s.JfootR.cols = st._n + 6 → s.JfootL.cols = st._n + 6 →
      (LocomotionThread.readRobotStatus L rob b' s).1.Jc.rows = 12 ∧
      (LocomotionThread.readRobotStatus L rob b' s).1.Jc.cols = st._n + 6 ∧
      ∀ i j, i < 6 →
        (LocomotionThread.readRobotStatus L rob b' s).1.Jc.get i j
          = (LocomotionThread.readRobotStatus L rob b' s).1.JfootR.get i j ∧
        (LocomotionThread.readRobotStatus L rob b' s).1.Jc.get (i + 6) j
          = (LocomotionThread.readRobotStatus L rob b' s).1.JfootL.get i j := by
    intro b' s hs h1 h2 h3 h4
    obtain ⟨_, _, _, _, _, _, _, _, _, _, d11, _, d13, _⟩ := readRobotStatus_dims L rob b' s
    obtain ⟨e, _⟩ := readRobotStatus_Jc_double L rob b' s hs
    refine ⟨?_, ?_, ?_⟩
    · rw [e]; exact h1
    · rw [e]; exact h2
    · intro i j hi
      rw [e]
      exact MatrixXd.stack_get s.Jc _ _ h1 (by rw [d11, h3, h2]) (by rw [d13, h4, h2]) i j hi
  refine ⟨hk, key b _ h hJc.1 hJc.2 hR hL, ?_⟩
  obtain ⟨j1, j2, j3, _⟩ := run_jacobians C L inp rob
    (LocomotionThread.numberOfConstraintsChanged st)
  rw [j1, j2, j3]
  obtain ⟨k1, _, k3⟩ := key false
    (LocomotionThread.readStreamParams inp
      ((LocomotionThread.numberOfConstraintsChanged st).emit Action.lock))
    h hJc.1 hJc.2 hR hL
  exact ⟨k1, k3⟩

/-- C12. In left-foot support the state read sets `Jc` to the left-foot Jacobian and
`Jfoot` to the right-foot Jacobian and measures the pose of the right foot; in right-foot
support it sets `Jc` to the right-foot Jacobian and `Jfoot` to the left-foot Jacobian and
measures the pose of the left foot. The foot Jacobians are the ones computed in that read
and have the 6 rows of their buffers. -/
theorem C12_single_support_stance_and_swing {R : Type} [CommRing R] [DecidableEq R]
    (L : Library R) (rob : RobotAnswers R) (b : Bool) (st : LocomotionThread R)
    (hR : st.JfootR.rows = 6) (hL : st.JfootL.rows = 6) :
    (st.supportPhase = SupportPhase.SUPPORT_LEFT →
        (LocomotionThread.readRobotStatus L rob b st).1.Jc
          = (LocomotionThread.readRobotStatus L rob b st).1.JfootL ∧
        (LocomotionThread.readRobotStatus L rob b st).1.Jc.rows = 6 ∧
        (LocomotionThread.readRobotStatus L rob b st).1.Jfoot
          = (LocomotionThread.readRobotStatus L rob b st).1.JfootR ∧
        (LocomotionThread.readRobotStatus L rob b st).1.x_foot
          = vfill st.x_foot.length
              (rob.forwardKinematics (LocomotionThread.readRobotStatus L rob b st).1.q
                (LocomotionThread.readRobotStatus L rob b st).1.xBase
                LinkId.LINK_ID_RIGHT_FOOT)) ∧
      (st.supportPhase = SupportPhase.SUPPORT_RIGHT →
        (LocomotionThread.readRobotStatus L rob b st).1.Jc
          = (LocomotionThread.readRobotStatus L rob b st).1.JfootR ∧
        (LocomotionThread.readRobotStatus L rob b st).1.Jc.rows = 6 ∧
        (LocomotionThread.readRobotStatus L rob b st).1.Jfoot
          = (LocomotionThread.readRobotStatus L rob b st).1.JfootL ∧
        (LocomotionThread.readRobotStatus L rob b st).1.x_foot
          = vfill st.x_foot.length
              (rob.forwardKinematics (LocomotionThread.readRobotStatus L rob b st).1.q
                (LocomotionThread.readRobotStatus L rob b st).1.xBase
                LinkId.LINK_ID_LEFT_FOOT)) ∧
      (LocomotionThread.readRobotStatus L rob b st).1.JfootR = st.JfootR.fill
        (rob.computeJacobian (LocomotionThread.readRobotStatus L rob b st).1.q
          (LocomotionThread.readRobotStatus L rob b st).1.xBase LinkId.LINK_ID_RIGHT_FOOT) ∧
      (LocomotionThread.readRobotStatus L rob b st).1.JfootL = st.JfootL.fill
        (rob.computeJacobian (LocomotionThread.readRobotStatus L rob b st).1.q
          (LocomotionThread.readRobotStatus L rob b st).1.xBase LinkId.LINK_ID_LEFT_FOOT) := by
  obtain ⟨cl, cr⟩ := readRobotStatus_Jc L rob b st
  obtain ⟨f1, f2⟩ := readRobotStatus_foot L rob b st
  obtain ⟨_, _, _, _, _, _, _, _, _, d10, _, d12, _⟩ := readRobotStatus_dims L rob b st
  obtain ⟨bR, bL⟩ := readRobotStatus_Jfoot_buffers L rob b st
  refine ⟨fun hsp => ?_, fun hsp => ?_, bR, bL⟩
  · obtain ⟨c1, c2⟩ := cl hsp
    rw [hsp] at f1
    simp only [if_true] at f1
    rw [f1] at f2
    exact ⟨c1, by rw [c1, d12, hL], c2, f2⟩
  · obtain ⟨c1, c2⟩ := cr hsp
    rw [hsp] at f1
    simp only [reduceCtorEq, if_false] at f1
    rw [f1] at f2
    exact ⟨c1, by rw [c1, d10, hR], c2, f2⟩

section TickLemmas

variable {R : Type} [CommRing R] [DecidableEq R]

open LocomotionThread

/-- The log of a tick. -/
theorem run_log (C : Constants R) (L : Library R) (inp : StreamInput R)
    (rob : RobotAnswers R) (st : LocomotionThread R) :
    (run C L inp rob st).log = st.log ++ tickActions C L inp rob st := by
  obtain ⟨_, _, _, _, _, _, _, h8⟩ := tickRead_frame L inp rob st
  unfold tickActions
  rcases run_cases C L inp rob st with ⟨hs, hd, e⟩ | ⟨hs, hd, a, b, e⟩ | ⟨hs, e⟩
  · rw [e, if_pos hs, hd, if_pos rfl]
    show (tickRead L inp rob st).log ++ _ ++ _ ++ [Action.sendStreamParams, Action.unlock] = _
    rw [h8]
    simp [controlActions]
  · rw [e, if_pos hs, hd, if_neg (by simp)]
    show (tickRead L inp rob st).log ++ _ = _
    rw [h8]
    simp [referenceActions]
  · rw [e, if_neg hs]
    show (tickRead L inp rob st).log ++ [Action.sendStreamParams, Action.unlock] = _
    rw [h8]
    simp

/-- The value a state read returns: both reads succeeded. -/
theorem readRobotStatus_result (L : Library R) (rob : RobotAnswers R) (b : Bool)
    (st : LocomotionThread R) :
    (readRobotStatus L rob b st).2 = ((rob.getQ b).isSome && (rob.getDq b).isSome) := by
  unfold LocomotionThread.readRobotStatus readJointState
  cases hq : rob.getQ b with
  | none => rfl
  | some fq =>
    cases hdq : rob.getDq b with
    | none => rfl
    | some fdq => rfl

/-- A failed read of the joint positions leaves the last samples in place. -/
theorem readRobotStatus_stale (L : Library R) (rob : RobotAnswers R) (b : Bool)
    (st : LocomotionThread R) (hq : rob.getQ b = none) :
    (readRobotStatus L rob b st).1.q = st.q ∧ (readRobotStatus L rob b st).1.dqJ = st.dqJ := by
  unfold LocomotionThread.readRobotStatus readJointState
  rw [hq]
  cases hsp : st.supportPhase <;>
    simp [estimateBaseVelocity, convertJacobians, readJacobians, readForwardKinematics,
      readBasePose, emit, hsp]

theorem readActions_no_lock (rob : RobotAnswers R) (b : Bool) (st : LocomotionThread R) :
    ∀ a ∈ readActions rob b st, a ≠ Action.lock ∧ a ≠ Action.unlock := by
  unfold readActions
  cases rob.getQ b <;> simp

theorem controlActions_no_lock (C : Constants R) (L : Library R) (X : LocomotionThread R) :
    ∀ a ∈ controlActions C L X, a ≠ Action.lock ∧ a ≠ Action.unlock := by
  unfold controlActions
  simp

theorem lockHeld_append_unlock (l : List (Action R)) :
    lockHeld (l ++ [Action.unlock]) = false := by
  simp [lockHeld, List.foldl_append]

theorem solveTaskHierarchy_length (C : Constants R) (L : Library R)
    (st : LocomotionThread R) :
    (LocomotionThread.solveTaskHierarchy C L st).length = st._n := by
  simp [LocomotionThread.solveTaskHierarchy]

theorem count_eq_zero_of_forall_ne (l : List (Action R)) (a : Action R)
    (h : ∀ b ∈ l, b ≠ a) : l.count a = 0 := by
  rw [List.count_eq_zero]
  intro hmem
  exact h a hmem rfl

end TickLemmas

section StoppedTickLemmas

variable {R : Type} [CommRing R] [DecidableEq R]

open LocomotionThread

/-- The actions of a tick that reaches its end: the status is not ON, or lines 135-137 are
well-formed. -/
theorem tickActions_of_defined (C : Constants R) (L : Library R) (inp : StreamInput R)
    (rob : RobotAnswers R) (st : LocomotionThread R)
    (h : st.status = LocomotionStatus.LOCOMOTION_ON →
      feedbackLawDefined L (updateReferenceTrajectories L (tickRead L inp rob st)) = true) :
    tickActions C L inp rob st
      = Action.lock ::
          ((Action.readStreamParams ::
            (readActions rob false st
              ++ (if st.status = LocomotionStatus.LOCOMOTION_ON
                    then controlActions C L (tickRead L inp rob st) else [])
              ++ [Action.sendStreamParams])) ++ [Action.unlock]) := by
  unfold tickActions
  by_cases hs : st.status = LocomotionStatus.LOCOMOTION_ON
  · rw [if_pos hs, if_pos hs, h hs, if_pos rfl]
    simp
  · rw [if_neg hs, if_neg hs]
    simp

/-- Whatever the state read of a tick returns, a tick that reaches its end appends the
same steps after it: when ON the three generator advances, the solver run and the velocity
reference, and in every case the stream send and the unlock. The value of the state read is
whether both reads succeeded, and a failed read of the joint positions leaves the last
samples of `q` and `dqJ` in place. -/
theorem run_log_of_defined (C : Constants R) (L : Library R) (inp : StreamInput R)
    (rob : RobotAnswers R) (st : LocomotionThread R)
    (h : st.status = LocomotionStatus.LOCOMOTION_ON →
      feedbackLawDefined L (updateReferenceTrajectories L (tickRead L inp rob st)) = true) :
    (run C L inp rob st).log
        = st.log ++ Action.lock :: Action.readStreamParams ::
            (readActions rob false st
              ++ (if st.status = LocomotionStatus.LOCOMOTION_ON
                    then controlActions C L (tickRead L inp rob st) else [])
              ++ [Action.sendStreamParams, Action.unlock]) ∧
      ((readRobotStatus L rob false (readStreamParams inp (st.emit Action.lock))).2
        = ((rob.getQ false).isSome && (rob.getDq false).isSome)) ∧
      (rob.getQ false = none →
        (tickRead L inp rob st).q = st.q ∧ (tickRead L inp rob st).dqJ = st.dqJ) := by
  refine ⟨?_, readRobotStatus_result L rob false _, ?_⟩
  · rw [run_log, tickActions_of_defined C L inp rob st h]
    simp
  · intro hq
    exact readRobotStatus_stale L rob false _ hq

/-- The value `threadInit` returns is the result of its blocking read, and it creates the
generators only when that is true. -/
theorem threadInit_result (C : Constants R) (L : Library R) (rob : RobotAnswers R)
    (activeJoints : List R) (supportPhase : SupportPhase)
    (st0 st' : LocomotionThread R) (r : Bool)
    (h : LocomotionThread.threadInit C L rob activeJoints supportPhase st0 = some (st', r)) :
    r = ((rob.getQ true).isSome && (rob.getDq true).isSome) ∧
      (r = false → st'.trajGenCom = st0.trajGenCom ∧
        st'.trajGenFoot = st0.trajGenFoot ∧ st'.trajGenPosture = st0.trajGenPosture) := by
  unfold LocomotionThread.threadInit at h
  split at h
  · exact absurd h (by simp)
  · rename_i st1 hst1
    simp only [] at h
    have hr := readRobotStatus_result L rob true
      (LocomotionThread.resizeVectors C (LocomotionThread.numberOfConstraintsChanged st1))
    obtain ⟨_, _, _, _, _, g1, g2, g3, _⟩ := readRobotStatus_frame L rob true
      (LocomotionThread.resizeVectors C (LocomotionThread.numberOfConstraintsChanged st1))
    obtain ⟨S, hS, _, _⟩ := updateSelectionMatrix_state_eq C _ st1 hst1
    obtain ⟨jl, lg, _, hz⟩ := numberOfJointsChanged_resize_eq C
      ({ st0 with
        comLinkId := LinkId.COM_LINK_ID
        activeJoints := activeJoints
        supportPhase := supportPhase } : LocomotionThread R)
    have t1 : st1.trajGenCom = st0.trajGenCom ∧ st1.trajGenFoot = st0.trajGenFoot ∧
        st1.trajGenPosture = st0.trajGenPosture := by
      rw [hS, hz]
      exact ⟨rfl, rfl, rfl⟩
    split_ifs at h with hrr
    · injection h with h
      injection h with _ h2
      rw [← h2, ← hr, hrr]
      exact ⟨rfl, fun hf => absurd hf (by simp)⟩
    · injection h with h
      injection h with h1 h2
      rw [← h2, ← hr]
      refine ⟨by simpa using hrr, fun _ => ?_⟩
      rw [← h1, g1, g2, g3]
      exact t1

/-- A tick that reaches its end takes the lock first and releases it last, once each, with
every other action of the tick between the two, and does not hold the lock at the end. -/
theorem ended_tick (C : Constants R) (L : Library R) (inp : StreamInput R)
    (rob : RobotAnswers R) (st : LocomotionThread R)
    (h : st.status = LocomotionStatus.LOCOMOTION_ON →
      feedbackLawDefined L (updateReferenceTrajectories L (tickRead L inp rob st)) = true) :
    (∀ a ∈ Action.readStreamParams ::
              (readActions rob false st
                ++ (if st.status = LocomotionStatus.LOCOMOTION_ON
                      then controlActions C L (tickRead L inp rob st) else [])
                ++ [Action.sendStreamParams]),
          a ≠ Action.lock ∧ a ≠ Action.unlock) ∧
      (tickActions C L inp rob st).count Action.lock = 1 ∧
      (tickActions C L inp rob st).count Action.unlock = 1 ∧
      (tickActions C L inp rob st).head? = some Action.lock ∧
      (tickActions C L inp rob st).getLast? = some Action.unlock ∧
      lockHeld (LocomotionThread.run C L inp rob st).log = false := by
  have hmid : ∀ a ∈ Action.readStreamParams ::
        (readActions rob false st
          ++ (if st.status = LocomotionStatus.LOCOMOTION_ON
                then controlActions C L (tickRead L inp rob st) else [])
          ++ [Action.sendStreamParams]),
      a ≠ Action.lock ∧ a ≠ Action.unlock := by
    intro a ha
    simp only [List.mem_cons, List.mem_append, List.not_mem_nil, or_false] at ha
    rcases ha with h | (h | h) | h
    · subst h; simp
    · exact readActions_no_lock rob false st a h
    · split_ifs at h
      · exact controlActions_no_lock C L _ a h
      · exact absurd h (List.not_mem_nil _)
    · subst h; simp
  have hshape := tickActions_of_defined C L inp rob st h
  have hlog := run_log C L inp rob st
  refine ⟨hmid, ?_, ?_, ?_, ?_, ?_⟩
  · rw [hshape, List.count_cons_self, List.count_append,
      count_eq_zero_of_forall_ne _ _ (fun b hb => (hmid b hb).1)]
    simp
  · rw [hshape, List.count_cons_of_ne (by simp), List.count_append,
      count_eq_zero_of_forall_ne _ _ (fun b hb => (hmid b hb).2)]
    simp
  · rw [hshape]; rfl
  · rw [hshape, ← List.cons_append, List.getLast?_append]
    simp
  · rw [hlog, hshape, ← List.cons_append, ← List.append_assoc]
    exact lockHeld_append_unlock _

end StoppedTickLemmas

section StoppedTickExample

open LocomotionThread

end StoppedTickExample

section OptimalityLemmas

/-- With damping factor 0 the damped pseudoinverse is the pseudoinverse. -/
theorem IsDampedPinv.eq_pinv_of_damp_zero {R : Type} [CommRing R] {r c : Nat}
    {A : Matrix (Fin r) (Fin c) R} {X XD : Matrix (Fin c) (Fin r) R}
    (h : IsPinv A X) (hD : IsDampedPinv A 0 X XD) : XD = X := by
  have h1 : Aᵀ * A * XD = Aᵀ := by
    have := hD.normal_eq
    simpa using this
  have h2 : A * XD = A * X := by
    calc A * XD = A * X * A * XD := by rw [h.mul_pinv_mul]
      _ = (A * X)ᵀ * (A * XD) := by rw [h.mul_pinv_symm, Matrix.mul_assoc]
      _ = Xᵀ * (Aᵀ * A * XD) := by
        rw [Matrix.transpose_mul]; simp only [Matrix.mul_assoc]
      _ = (A * X)ᵀ := by rw [h1, Matrix.transpose_mul]
      _ = A * X := h.mul_pinv_symm
  calc XD = X * A * XD := hD.row_space.symm
    _ = X * (A * XD) := Matrix.mul_assoc _ _ _
    _ = X * A * X := by rw [h2, Matrix.mul_assoc]
    _ = X := h.pinv_mul_pinv

theorem dotProduct_self_nonneg_field {R : Type} [LinearOrderedField R] {m : Nat}
    (v : Fin m → R) : 0 ≤ Matrix.dotProduct v v :=
  Finset.sum_nonneg (fun i _ => mul_self_nonneg (v i))

/-- Least squares. For the pseudoinverse `X` of `A`, the point `X c` minimises the squared
distance of `A y` to `c`. -/
theorem IsPinv.least_squares {R : Type} [LinearOrderedField R] {r c : Nat}
    {A : Matrix (Fin r) (Fin c) R} {X : Matrix (Fin c) (Fin r) R} (h : IsPinv A X)
    (y : Fin c → R) (b : Fin r → R) :
    Matrix.dotProduct ((A * X).mulVec b - b) ((A * X).mulVec b - b)
      ≤ Matrix.dotProduct (A.mulVec y - b) (A.mulVec y - b) := by
  have hQA : (A * X).mulVec (A.mulVec y) = A.mulVec y := by
    rw [Matrix.mulVec_mulVec, h.mul_pinv_mul]
  have hQQ : (A * X) * (A * X) = A * X := by
    rw [← Matrix.mul_assoc, h.mul_pinv_mul]
  have hu : A.mulVec y - (A * X).mulVec b = (A * X).mulVec (A.mulVec y - b) := by
    rw [Matrix.mulVec_sub, hQA]
  have horth : Matrix.dotProduct ((A * X).mulVec (A.mulVec y - b)) ((A * X).mulVec b - b)
      = 0 := by
    rw [Matrix.dotProduct_comm, Matrix.dotProduct_mulVec, ← Matrix.mulVec_transpose,
      h.mul_pinv_symm, Matrix.mulVec_sub, Matrix.mulVec_mulVec, hQQ, sub_self,
      Matrix.zero_dotProduct]
  have hsplit : A.mulVec y - b
      = (A * X).mulVec (A.mulVec y - b) + ((A * X).mulVec b - b) := by
    rw [← hu]; abel
  rw [hsplit, Matrix.add_dotProduct, Matrix.dotProduct_add, Matrix.dotProduct_add, horth,
    Matrix.dotProduct_comm ((A * X).mulVec b - b) ((A * X).mulVec (A.mulVec y - b)), horth]
  have := dotProduct_self_nonneg_field ((A * X).mulVec (A.mulVec y - b))
  linarith

variable {R : Type} [CommRing R] {k n : Nat}

/-- A velocity that the contact Jacobian annihilates is fixed by the contact projector. -/
theorem N_contact_mulVec_of_feasible (U : PinvUtils R) (tol : R) (inp : SolverInput R k n)
    (x : Fin (n + 6) → R) (hx : inp.Jc.mulVec x = 0) :
    (N_contact U tol inp).mulVec x = x := by
  rw [N_contact, Matrix.sub_mulVec, Matrix.one_mulVec, ← Matrix.mulVec_mulVec, hx,
    Matrix.mulVec_zero, sub_zero]

/-- A velocity that the contact and the CoM Jacobian annihilate is fixed by the projector
after the CoM step. -/
theorem N_com_mulVec_of_feasible (U : PinvUtils R) (tol : R) (inp : SolverInput R k n)
    (d : Fin (n + 6) → R) (hc : inp.Jc.mulVec d = 0) (hcom : inp.Jcom_2xN.mulVec d = 0) :
    (N_com U tol inp).mulVec d = d := by
  have h1 := N_contact_mulVec_of_feasible U tol inp d hc
  rw [N_com, Matrix.sub_mulVec, h1, Matrix.mul_assoc, ← Matrix.mulVec_mulVec,
    ← Matrix.mulVec_mulVec, h1, hcom, Matrix.mulVec_zero, sub_zero]

/-- The CoM task velocity after the CoM step, for damping factor 0. -/
theorem Jcom_mulVec_dqDes_com (U : PinvUtils R) (tol : R) (inp : SolverInput R k n)
    (h : ExactPinvs U tol inp) (h0 : inp.pinvDamp = 0) :
    inp.Jcom_2xN.mulVec (dqDes_com U tol inp)
      = (inp.Jcom_2xN * N_contact U tol inp * (Jcom_pinvs U tol inp).1).mulVec
          inp.dxc_comE := by
  obtain ⟨hp, _⟩ := N_contact_facts U tol inp h
  have hD := h.comD
  rw [h0] at hD
  have hX := IsDampedPinv.eq_pinv_of_damp_zero h.com hD
  have hNX : N_contact U tol inp * (Jcom_pinvs U tol inp).1 = (Jcom_pinvs U tol inp).1 := by
    have e := h.com.eq_proj_mul hp.symm
    have e' := congrArg (fun Y => N_contact U tol inp * Y) e
    simp only at e'
    rw [e', ← Matrix.mul_assoc, hp.idem]
    exact e.symm
  rw [dqDes_com, zero_add, hX, Matrix.mulVec_mulVec, Matrix.mul_assoc, hNX]

/-- The foot and posture steps do not change the CoM task velocity. -/
theorem Jcom_mulVec_dqDes_eq_com (U : PinvUtils R) (tol : R) (inp : SolverInput R k n)
    (h : ExactPinvs U tol inp) :
    inp.Jcom_2xN.mulVec (dqDes U tol inp)
      = inp.Jcom_2xN.mulVec (dqDes_com U tol inp) := by
  obtain ⟨hp, _, hcom⟩ := N_com_facts U tol inp h
  have hX : inp.Jcom_2xN * (Jfoot_pinvs U tol inp).2 = 0 :=
    IsDampedPinv.damped_left_annihilated h.foot h.footD hp.symm inp.Jcom_2xN hcom
  rw [Jcom_mulVec_dqDes U tol inp h, dqDes_foot, Matrix.mulVec_add, Matrix.mulVec_mulVec,
    hX, Matrix.zero_mulVec, add_zero]

/-- The foot task velocity after the foot step, for damping factor 0. -/
theorem Jfoot_mulVec_dqDes_foot (U : PinvUtils R) (tol : R) (inp : SolverInput R k n)
    (h : ExactPinvs U tol inp) (h0 : inp.pinvDamp = 0) :
    inp.Jfoot.mulVec (dqDes_foot U tol inp)
      = inp.Jfoot.mulVec (dqDes_com U tol inp)
        + (inp.Jfoot * N_com U tol inp * (Jfoot_pinvs U tol inp).1).mulVec
            (inp.dxc_footE - inp.Jfoot.mulVec (dqDes_com U tol inp)) := by
  obtain ⟨hp, _, _⟩ := N_com_facts U tol inp h
  have hD := h.footD
  rw [h0] at hD
  have hX := IsDampedPinv.eq_pinv_of_damp_zero h.foot hD
  have hNX : N_com U tol inp * (Jfoot_pinvs U tol inp).1 = (Jfoot_pinvs U tol inp).1 := by
    have e := h.foot.eq_proj_mul hp.symm
    have e' := congrArg (fun Y => N_com U tol inp * Y) e
    simp only at e'
    rw [e', ← Matrix.mul_assoc, hp.idem]
    exact e.symm
  rw [dqDes_foot, Matrix.mulVec_add, hX, Matrix.mulVec_mulVec, Matrix.mul_assoc, hNX]

/-- The posture step does not change the foot task velocity. -/
theorem Jfoot_mulVec_dqDes (U : PinvUtils R) (tol : R) (inp : SolverInput R k n)
    (h : ExactPinvs U tol inp) :
    inp.Jfoot.mulVec (dqDes U tol inp) = inp.Jfoot.mulVec (dqDes_foot U tol inp) := by
  obtain ⟨hp, _, _, hfoot⟩ := N_foot_facts U tol inp h
  have hX : inp.Jfoot * Jposture_pinv U tol inp = 0 :=
    h.posture.left_annihilated hp.symm inp.Jfoot hfoot
  simp only [dqDes, Matrix.mulVec_add, Matrix.mulVec_mulVec, hX, Matrix.zero_mulVec,
    add_zero]

end OptimalityLemmas

/-- C16. With damping factor 0 and exact pseudoinverses, the vector `dqDes` that
`solveTaskHierarchy` builds satisfies `Jc * dqDes = 0` and minimises the squared norm of
`Jcom_2xN * x - dxc_com` over all `x` with `Jc * x = 0`; when some `x` with `Jc * x = 0`
attains `Jcom_2xN * x = dxc_com` (as is the case for every target when `Jcom_2xN` has full
row rank on the nullspace of `Jc`), then `Jcom_2xN * dqDes = dxc_com`; and the foot and
posture steps leave `Jcom_2xN * dqDes` as the CoM step made it. -/
theorem C16_com_task_optimal {R : Type} [LinearOrderedField R] {k n : Nat}
    (U : PinvUtils R) (PINV_TOL : R) (inp : SolverInput R k n)
    (h : ExactPinvs U PINV_TOL inp) (h0 : inp.pinvDamp = 0) :
    inp.Jc.mulVec (dqDes U PINV_TOL inp) = 0 ∧
      (∀ x : Fin (n + 6) → R, inp.Jc.mulVec x = 0 →
        Matrix.dotProduct (inp.Jcom_2xN.mulVec (dqDes U PINV_TOL inp) - inp.dxc_comE)
            (inp.Jcom_2xN.mulVec (dqDes U PINV_TOL inp) - inp.dxc_comE)
          ≤ Matrix.dotProduct (inp.Jcom_2xN.mulVec x - inp.dxc_comE)
              (inp.Jcom_2xN.mulVec x - inp.dxc_comE)) ∧
      ((∃ x : Fin (n + 6) → R, inp.Jc.mulVec x = 0 ∧ inp.Jcom_2xN.mulVec x = inp.dxc_comE) →
        inp.Jcom_2xN.mulVec (dqDes U PINV_TOL inp) = inp.dxc_comE) ∧
      inp.Jcom_2xN.mulVec (dqDes U PINV_TOL inp)
        = inp.Jcom_2xN.mulVec (dqDes_com U PINV_TOL inp) := by
  have hval : inp.Jcom_2xN.mulVec (dqDes U PINV_TOL inp)
      = (inp.Jcom_2xN * N_contact U PINV_TOL inp * (Jcom_pinvs U PINV_TOL inp).1).mulVec
          inp.dxc_comE := by
    rw [Jcom_mulVec_dqDes_eq_com U PINV_TOL inp h, Jcom_mulVec_dqDes_com U PINV_TOL inp h h0]
  have hP : ∀ x : Fin (n + 6) → R, inp.Jc.mulVec x = 0 →
      inp.Jcom_2xN.mulVec x = (inp.Jcom_2xN * N_contact U PINV_TOL inp).mulVec x := by
    intro x hx
    rw [← Matrix.mulVec_mulVec, N_contact_mulVec_of_feasible U PINV_TOL inp x hx]
  refine ⟨Jc_mulVec_dqDes U PINV_TOL inp h, ?_, ?_, Jcom_mulVec_dqDes_eq_com U PINV_TOL inp h⟩
  · intro x hx
    rw [hval, hP x hx]
    exact h.com.least_squares x inp.dxc_comE
  · rintro ⟨x, hx, hb⟩
    rw [hval, ← hb, hP x hx, Matrix.mulVec_mulVec, h.com.mul_pinv_mul]

/-- C17. With damping factor 0 and exact pseudoinverses, the vector `dqDes` that
`solveTaskHierarchy` builds satisfies `Jc * dqDes = 0`, gives the CoM task velocity of the
CoM step, and minimises the squared norm of `Jfoot * x - dxc_foot` over all `x` with
`Jc * x = 0` and the same `Jcom_2xN * x` as the CoM step; the foot step adds the damped
pseudoinverse applied to the residual `dxc_foot - Jfoot * dqDes` left after the CoM step;
and the posture step leaves `Jfoot * dqDes` as the foot step made it. -/
theorem C17_foot_task_optimal {R : Type} [LinearOrderedField R] {k n : Nat}
    (U : PinvUtils R) (PINV_TOL : R) (inp : SolverInput R k n)
    (h : ExactPinvs U PINV_TOL inp) (h0 : inp.pinvDamp = 0) :
    (inp.Jc.mulVec (dqDes U PINV_TOL inp) = 0 ∧
        inp.Jcom_2xN.mulVec (dqDes U PINV_TOL inp)
          = inp.Jcom_2xN.mulVec (dqDes_com U PINV_TOL inp)) ∧
      (∀ x : Fin (n + 6) → R, inp.Jc.mulVec x = 0 →
        inp.Jcom_2xN.mulVec x = inp.Jcom_2xN.mulVec (dqDes_com U PINV_TOL inp) →
        Matrix.dotProduct (inp.Jfoot.mulVec (dqDes U PINV_TOL inp) - inp.dxc_footE)
            (inp.Jfoot.mulVec (dqDes U PINV_TOL inp) - inp.dxc_footE)
          ≤ Matrix.dotProduct (inp.Jfoot.mulVec x - inp.dxc_footE)
              (inp.Jfoot.mulVec x - inp.dxc_footE)) ∧
      dqDes_foot U PINV_TOL inp = dqDes_com U PINV_TOL inp
        + (Jfoot_pinvs U PINV_TOL inp).2.mulVec
            (inp.dxc_footE - inp.Jfoot.mulVec (dqDes_com U PINV_TOL inp)) ∧
      inp.Jfoot.mulVec (dqDes U PINV_TOL inp)
        = inp.Jfoot.mulVec (dqDes_foot U PINV_TOL inp) := by
  refine ⟨⟨Jc_mulVec_dqDes U PINV_TOL inp h, Jcom_mulVec_dqDes_eq_com U PINV_TOL inp h⟩,
    ?_, rfl, Jfoot_mulVec_dqDes U PINV_TOL inp h⟩
  intro x hx hxcom
  have hc0 := Jc_mulVec_dqDes_com U PINV_TOL inp h
  have hd : (N_com U PINV_TOL inp).mulVec (x - dqDes_com U PINV_TOL inp)
      = x - dqDes_com U PINV_TOL inp := by
    apply N_com_mulVec_of_feasible
    · rw [Matrix.mulVec_sub, hx, hc0, sub_zero]
    · rw [Matrix.mulVec_sub, hxcom, sub_self]
  have hx' : inp.Jfoot.mulVec x - inp.dxc_footE
      = (inp.Jfoot * N_com U PINV_TOL inp).mulVec (x - dqDes_com U PINV_TOL inp)
        - (inp.dxc_footE - inp.Jfoot.mulVec (dqDes_com U PINV_TOL inp)) := by
    rw [← Matrix.mulVec_mulVec, hd, Matrix.mulVec_sub]; abel
  have hv : inp.Jfoot.mulVec (dqDes U PINV_TOL inp) - inp.dxc_footE
      = (inp.Jfoot * N_com U PINV_TOL inp * (Jfoot_pinvs U PINV_TOL inp).1).mulVec
          (inp.dxc_footE - inp.Jfoot.mulVec (dqDes_com U PINV_TOL inp))
        - (inp.dxc_footE - inp.Jfoot.mulVec (dqDes_com U PINV_TOL inp)) := by
    rw [Jfoot_mulVec_dqDes U PINV_TOL inp h, Jfoot_mulVec_dqDes_foot U PINV_TOL inp h h0]
    abel
  rw [hv, hx']
  exact h.foot.least_squares _ _

section FootTaskExample

theorem footTaskInput_N_contact :
    N_contact isometryUtils 0 footTaskInput = diag8 (fun i => decide (6 ≤ i)) := by
  with_unfolding_all decide

theorem footTaskInput_Jcom_pinvs :
    (Jcom_pinvs isometryUtils 0 footTaskInput).1 = footTaskInput.Jcom_2xNᵀ ∧
    (Jcom_pinvs isometryUtils 0 footTaskInput).2 = (1 : ℚ) • footTaskInput.Jcom_2xNᵀ := by
  unfold Jcom_pinvs
  rw [footTaskInput_N_contact]
  with_unfolding_all decide

theorem footTaskInput_N_com :
    N_com isometryUtils 0 footTaskInput = diag8 (fun i => decide (i = 7)) := by
  unfold N_com
  rw [footTaskInput_Jcom_pinvs.1, footTaskInput_N_contact]
  with_unfolding_all decide

theorem footTaskInput_Jfoot_pinvs :
    (Jfoot_pinvs isometryUtils 0 footTaskInput).1 = footTaskInput.Jfootᵀ ∧
    (Jfoot_pinvs isometryUtils 0 footTaskInput).2 = (1 : ℚ) • footTaskInput.Jfootᵀ := by
  unfold Jfoot_pinvs
  rw [footTaskInput_N_com]
  with_unfolding_all decide

theorem footTaskInput_N_foot :
    N_foot isometryUtils 0 footTaskInput = 0 := by
  unfold N_foot
  rw [footTaskInput_Jfoot_pinvs.1, footTaskInput_N_com]
  with_unfolding_all decide

theorem footTaskInput_Jposture_pinv :
    Jposture_pinv isometryUtils 0 footTaskInput = 0 := by
  unfold Jposture_pinv
  rw [footTaskInput_N_foot]
  with_unfolding_all decide

/-- The utilities `isometryUtils` are exact at the four calls made on `footTaskInput`. -/
theorem footTaskInput_exact : ExactPinvs isometryUtils 0 footTaskInput := by
  refine ⟨⟨?_, ?_, ?_, ?_⟩, ⟨?_, ?_, ?_, ?_⟩, ⟨?_, ?_⟩, ⟨?_, ?_, ?_, ?_⟩, ⟨?_, ?_⟩,
    ⟨?_, ?_, ?_, ?_⟩⟩
  all_goals
    simp only [Jc_pinv, footTaskInput_Jcom_pinvs.1, footTaskInput_Jcom_pinvs.2,
      footTaskInput_Jfoot_pinvs.1, footTaskInput_Jfoot_pinvs.2, footTaskInput_Jposture_pinv,
      footTaskInput_N_contact, footTaskInput_N_com, footTaskInput_N_foot]
    with_unfolding_all decide

theorem footTaskInput_dqDes_com :
    dqDes_com isometryUtils 0 footTaskInput = ![0, 0, 0, 0, 0, 0, 3, 0] := by
  unfold dqDes_com
  rw [footTaskInput_Jcom_pinvs.2]
  with_unfolding_all decide

theorem footTaskInput_dqDes_foot :
    dqDes_foot isometryUtils 0 footTaskInput = ![0, 0, 0, 0, 0, 0, 3, 4] := by
  unfold dqDes_foot
  rw [footTaskInput_dqDes_com, footTaskInput_Jfoot_pinvs.2]
  with_unfolding_all decide

theorem footTaskInput_dqDes :
    dqDes isometryUtils 0 footTaskInput = ![0, 0, 0, 0, 0, 0, 3, 4] := by
  unfold dqDes
  rw [footTaskInput_dqDes_foot, footTaskInput_Jposture_pinv]
  with_unfolding_all decide

end FootTaskExample

/-- C16 at `baseFirstInput`, where the CoM target `(3, 0)` is attained inside the
nullspace of `Jc` by the joint velocity `(3, 0)`: the solver output attains it. -/
theorem C16_com_task_optimal_witness :
    ExactPinvs isometryUtils 0 baseFirstInput ∧ baseFirstInput.pinvDamp = 0 ∧
      baseFirstInput.Jcom_2xN.mulVec (dqDes isometryUtils 0 baseFirstInput)
        = baseFirstInput.dxc_comE ∧
      dqDes isometryUtils 0 baseFirstInput = ![0, 0, 0, 0, 0, 0, 3, 0] :=
  ⟨baseFirstInput_exact, rfl,
    (C16_com_task_optimal isometryUtils 0 baseFirstInput baseFirstInput_exact rfl).2.2.1
      ⟨![0, 0, 0, 0, 0, 0, 3, 0], by with_unfolding_all decide,
        by with_unfolding_all decide⟩,
    baseFirstInput_dqDes⟩

/-- C17 at `footTaskInput`: the output `(0, 0, 0, 0, 0, 0, 3, 4)` keeps the contact and the
CoM velocity of the CoM step, and the posture step leaves the foot velocity of the foot
step. -/
theorem C17_foot_task_optimal_witness :
    ExactPinvs isometryUtils 0 footTaskInput ∧ footTaskInput.pinvDamp = 0 ∧
      (footTaskInput.Jc.mulVec (dqDes isometryUtils 0 footTaskInput) = 0 ∧
        footTaskInput.Jcom_2xN.mulVec (dqDes isometryUtils 0 footTaskInput)
          = footTaskInput.Jcom_2xN.mulVec (dqDes_com isometryUtils 0 footTaskInput)) ∧
      footTaskInput.Jfoot.mulVec (dqDes isometryUtils 0 footTaskInput)
        = footTaskInput.Jfoot.mulVec (dqDes_foot isometryUtils 0 footTaskInput) ∧
      dqDes isometryUtils 0 footTaskInput = ![0, 0, 0, 0, 0, 0, 3, 4] :=
  ⟨footTaskInput_exact, rfl,
    (C17_foot_task_optimal isometryUtils 0 footTaskInput footTaskInput_exact rfl).1,
    (C17_foot_task_optimal isometryUtils 0 footTaskInput footTaskInput_exact rfl).2.2.2,
    footTaskInput_dqDes⟩

/-! ## Theorems, Part VI: the claims of Parts III and IV at the examples -/

section ReconfigurationExamples

open LocomotionThread

/-- C11 at `doubleSupportThread`: `_k = 12`, and after the state read `Jc` has 12 rows,
with the entry (0,0) of the right-foot Jacobian, 1, in row 0 and the entry (0,0) of the
left-foot Jacobian, 2, in row 6. -/
theorem C11_double_support_contact_stack_witness :
    doubleSupportThread.supportPhase = SupportPhase.SUPPORT_DOUBLE ∧
      doubleSupportThread.JfootR.cols = doubleSupportThread._n + 6 ∧
      doubleSupportThread.JfootL.cols = doubleSupportThread._n + 6 ∧
      (numberOfConstraintsChanged doubleSupportThread)._k = 12 ∧
      (readRobotStatus exampleLibrary exampleRobot false
        (numberOfConstraintsChanged doubleSupportThread)).1.Jc.rows = 12 ∧
      (readRobotStatus exampleLibrary exampleRobot false
        (numberOfConstraintsChanged doubleSupportThread)).1.Jc.get 0 0 = 1 ∧
      (readRobotStatus exampleLibrary exampleRobot false
        (numberOfConstraintsChanged doubleSupportThread)).1.Jc.get 6 0 = 2 :=
  ⟨by with_unfolding_all decide, by with_unfolding_all decide, by with_unfolding_all decide,
    (C11_double_support_contact_stack exampleConstants exampleLibrary
      ⟨none, none, none, none⟩ exampleRobot false doubleSupportThread
      (by with_unfolding_all decide) (by with_unfolding_all decide)
      (by with_unfolding_all decide)).1,
    (C11_double_support_contact_stack exampleConstants exampleLibrary
      ⟨none, none, none, none⟩ exampleRobot false doubleSupportThread
      (by with_unfolding_all decide) (by with_unfolding_all decide)
      (by with_unfolding_all decide)).2.1.1,
    by with_unfolding_all decide, by with_unfolding_all decide⟩

/-- C12 at `exampleThread`, which is in left-foot support: after the state read `Jc` is the
left-foot Jacobian, `Jfoot` the right-foot Jacobian and `x_foot` the pose of the right
foot. -/
theorem C12_single_support_stance_and_swing_witness :
    exampleThread.JfootR.rows = 6 ∧ exampleThread.JfootL.rows = 6 ∧
      exampleThread.supportPhase = SupportPhase.SUPPORT_LEFT ∧
      (readRobotStatus exampleLibrary exampleRobot false exampleThread).1.Jc
        = (readRobotStatus exampleLibrary exampleRobot false exampleThread).1.JfootL ∧
      (readRobotStatus exampleLibrary exampleRobot false exampleThread).1.Jc.rows = 6 ∧
      (readRobotStatus exampleLibrary exampleRobot false exampleThread).1.Jfoot
        = (readRobotStatus exampleLibrary exampleRobot false exampleThread).1.JfootR ∧
      (readRobotStatus exampleLibrary exampleRobot false exampleThread).1.x_foot
        = [0, -1, 0, 0, 0, 0, 0] :=
  ⟨by with_unfolding_all decide, by with_unfolding_all decide, by with_unfolding_all decide,
    ((C12_single_support_stance_and_swing exampleLibrary exampleRobot false exampleThread
      (by with_unfolding_all decide) (by with_unfolding_all decide)).1
        (by with_unfolding_all decide)).1,
    ((C12_single_support_stance_and_swing exampleLibrary exampleRobot false exampleThread
      (by with_unfolding_all decide) (by with_unfolding_all decide)).1
        (by with_unfolding_all decide)).2.1,
    ((C12_single_support_stance_and_swing exampleLibrary exampleRobot false exampleThread
      (by with_unfolding_all decide) (by with_unfolding_all decide)).1
        (by with_unfolding_all decide)).2.2.1,
    by with_unfolding_all decide⟩

/-- C13 fails at the mask `(1, 2, 0)` with `ICUB_DOFS = 3`. The loop of
`numberOfJointsChanged` adds a joint where the entry is `== 1`, removes it where the entry
is `== 0` and leaves the joint list as it was at the entry 2, and `_n` is the size of the
list, while `updateSelectionMatrix` gives a row to every entry that is `!= 0.0`. From a
joint list that holds no joint, `_n = 1` and the write `S(1, 1)` falls outside the 1-row `S`,
so that `numberOfJointsChanged` gives no state;
from a joint list that holds joint 1, `_n = 2` and `S` is a matrix of 2 rows and 3 columns
with `S(0, 0) = S(1, 1) = 1`, which a second run with the same mask reproduces. So `_n` and
`S` depend on the prior joint list and not on the mask only. -/
theorem C13_selection_matrix_depends_on_prior_joints :
    exampleConstants.ICUB_DOFS = 3 ∧
    (freshThread [] [1, 2, 0]).activeJoints = (freshThread [⟨0, 1⟩] [1, 2, 0]).activeJoints ∧
    (numberOfJointsChanged_resize exampleConstants (freshThread [] [1, 2, 0]))._n = 1 ∧
    numberOfJointsChanged exampleConstants (freshThread [] [1, 2, 0]) = none ∧
    ∃ b, numberOfJointsChanged exampleConstants (freshThread [⟨0, 1⟩] [1, 2, 0]) = some b ∧
      b._n = 2 ∧ b.robotJointList = [⟨0, 1⟩, ⟨0, 0⟩] ∧ b.S.rows = 2 ∧ b.S.cols = 3 ∧
      b.S.get 0 0 = 1 ∧ b.S.get 1 1 = 1 ∧
      numberOfJointsChanged exampleConstants b = some b := by
  have hinj : ∀ i j, i < (freshThread [⟨0, 1⟩] [1, 2, 0]).activeJoints.length →
      j < (freshThread [⟨0, 1⟩] [1, 2, 0]).activeJoints.length →
      exampleConstants.globalToLocalId i = exampleConstants.globalToLocalId j → i = j := by
    intro i j _ _ h
    exact congrArg LocalId.index h
  have hb : (numberOfJointsChanged exampleConstants (freshThread [⟨0, 1⟩] [1, 2, 0])).map
      (fun s => (s._n, s.robotJointList, s.S.rows, s.S.cols, s.S.get 0 0, s.S.get 1 1))
      = some (2, [⟨0, 1⟩, ⟨0, 0⟩], 2, 3, 1, 1) := by with_unfolding_all decide
  obtain ⟨b, hb1, hb2⟩ := Option.map_eq_some'.mp hb
  simp only [Prod.mk.injEq] at hb2
  obtain ⟨b1, b2, b3, b4, b5, b6⟩ := hb2
  refine ⟨rfl, rfl, by with_unfolding_all decide, ?_,
    b, hb1, b1, b2, b3, b4, b5, b6,
    (numberOfJointsChanged_idempotent exampleConstants (freshThread [⟨0, 1⟩] [1, 2, 0]) b
      hinj hb1).1⟩
  apply Option.isNone_iff_eq_none.mp
  with_unfolding_all decide

/-- C14 at the example: `threadInit` gives a state, the three events of `exampleEvents`
give a state from there, and both satisfy the dimension invariant. -/
theorem C14_dimension_invariant_witness :
    ∃ st0 res st',
      threadInit exampleConstants exampleLibrary exampleRobot [1, 0, 1]
        SupportPhase.SUPPORT_LEFT (LocomotionThread.new blankMemory []) = some (st0, res) ∧
      runEvents exampleConstants exampleLibrary exampleEvents st0 = some st' ∧
      DimInv exampleConstants st0 ∧ DimInv exampleConstants st' := by
  have h1 : (threadInit exampleConstants exampleLibrary exampleRobot [1, 0, 1]
      SupportPhase.SUPPORT_LEFT (LocomotionThread.new blankMemory [])).isSome = true := by
    with_unfolding_all decide
  obtain ⟨r, hr⟩ := Option.isSome_iff_exists.mp h1
  have h2 : ((threadInit exampleConstants exampleLibrary exampleRobot [1, 0, 1]
      SupportPhase.SUPPORT_LEFT (LocomotionThread.new blankMemory [])).bind
        (fun r => runEvents exampleConstants exampleLibrary exampleEvents r.1)).isSome
      = true := by
    with_unfolding_all decide
  rw [hr, Option.some_bind] at h2
  obtain ⟨st', hst'⟩ := Option.isSome_iff_exists.mp h2
  exact ⟨r.1, r.2, st', hr, hst',
    (C14_dimension_invariant exampleConstants exampleLibrary exampleRobot [1, 0, 1]
      SupportPhase.SUPPORT_LEFT blankMemory [] r.1 r.2 exampleEvents st' hr hst').1,
    (C14_dimension_invariant exampleConstants exampleLibrary exampleRobot [1, 0, 1]
      SupportPhase.SUPPORT_LEFT blankMemory [] r.1 r.2 exampleEvents st' hr hst').2.1⟩

/-- C20, the code at the failing input: `ICUB_DOFS = 3`, no joint at the robot interface,
mask `(1, 2, 0)`. The mask has 2 nonzero entries; the loop of `numberOfJointsChanged` adds
joint 0 only (entry 1 is not `== 1`), so `_n = 1` and `S` gets 1 row; `updateSelectionMatrix`
then writes `S(1, 1)`, outside `S`, and neither `numberOfJointsChanged` nor `threadInit`
gives a state. -/
theorem C20_joint_count_differs_from_nonzero_count :
    exampleConstants.ICUB_DOFS = 3 ∧
      nonzerosBefore (fun i => (freshThread [] [1, 2, 0]).activeJoints.getD i 0) 3 = 2 ∧
      (numberOfJointsChanged_resize exampleConstants (freshThread [] [1, 2, 0]))._n = 1 ∧
      (numberOfJointsChanged_resize exampleConstants
        (freshThread [] [1, 2, 0])).robotJointList = [⟨0, 0⟩] ∧
      numberOfJointsChanged exampleConstants (freshThread [] [1, 2, 0]) = none ∧
      threadInit exampleConstants exampleLibrary exampleRobot [1, 2, 0]
        SupportPhase.SUPPORT_LEFT (LocomotionThread.new blankMemory []) = none := by
  refine ⟨rfl, by with_unfolding_all decide, by with_unfolding_all decide,
    by with_unfolding_all decide, ?_, ?_⟩
  · apply Option.isNone_iff_eq_none.mp
    with_unfolding_all decide
  · apply Option.isNone_iff_eq_none.mp
    with_unfolding_all decide

end ReconfigurationExamples

/-! ## Theorems, Part VII: the projectors, the feedback law and the measured velocity -/

section ProjectorLemmas

variable {R : Type} [CommRing R]

/-- The Moore-Penrose pseudoinverse is unique: two matrices that satisfy the four Penrose
equations for `A` are equal. -/
theorem IsPinv.pinv_unique {r c : Nat} {A : Matrix (Fin r) (Fin c) R}
    {X Y : Matrix (Fin c) (Fin r) R} (hX : IsPinv A X) (hY : IsPinv A Y) : X = Y := by
  have h1 : X = X * A * Y := by
    calc X = X * A * X := hX.pinv_mul_pinv.symm
      _ = X * (A * X)ᵀ := by rw [hX.mul_pinv_symm, Matrix.mul_assoc]
      _ = X * (A * Y * A * X)ᵀ := by rw [hY.mul_pinv_mul]
      _ = X * ((A * X)ᵀ * (A * Y)ᵀ) := by
        rw [show A * Y * A * X = A * Y * (A * X) by simp only [Matrix.mul_assoc],
          Matrix.transpose_mul]
      _ = X * (A * X * (A * Y)) := by rw [hX.mul_pinv_symm, hY.mul_pinv_symm]
      _ = X * A * X * A * Y := by simp only [Matrix.mul_assoc]
      _ = X * A * Y := by rw [hX.pinv_mul_pinv]
  have h2 : Y = X * A * Y := by
    calc Y = Y * A * Y := hY.pinv_mul_pinv.symm
      _ = (Y * A)ᵀ * Y := by rw [hY.pinv_mul_symm]
      _ = (Y * (A * X * A))ᵀ * Y := by rw [hX.mul_pinv_mul]
      _ = ((X * A)ᵀ * (Y * A)ᵀ) * Y := by
        rw [show Y * (A * X * A) = Y * A * (X * A) by simp only [Matrix.mul_assoc],
          Matrix.transpose_mul]
      _ = (X * A * (Y * A)) * Y := by rw [hX.pinv_mul_symm, hY.pinv_mul_symm]
      _ = X * (A * Y * A) * Y := by simp only [Matrix.mul_assoc]
      _ = X * A * Y := by rw [hY.mul_pinv_mul]
  rw [h1]
  exact h2.symm

/-- The pseudoinverse of the zero matrix is zero. -/
theorem IsPinv.pinv_of_zero {r c : Nat} {X : Matrix (Fin c) (Fin r) R}
    (h : IsPinv (0 : Matrix (Fin r) (Fin c) R) X) : X = 0 := by
  rw [← h.pinv_mul_pinv, Matrix.mul_zero, Matrix.zero_mul]

/-- The damped pseudoinverse of the zero matrix is zero, for every damping factor. -/
theorem IsDampedPinv.damped_of_zero {r c : Nat} {damp : R} {X XD : Matrix (Fin c) (Fin r) R}
    (h : IsDampedPinv (0 : Matrix (Fin r) (Fin c) R) damp X XD) : XD = 0 := by
  rw [← h.row_space, Matrix.mul_zero, Matrix.zero_mul]

end ProjectorLemmas

/-- C24. For two runs of `solveTaskHierarchy` on the same four Jacobians, with exact
pseudoinverses and any two damping factors (and any targets), the projector `N` after the
contact step, after the CoM step and after the foot step is the same in both runs, and so
are the undamped pseudoinverses `Jcom_pinv`, `Jfoot_pinv` and `Jposture_pinv`. The damping
factor reaches `dqDes` through the damped pseudoinverses `Jcom_pinvD` and `Jfoot_pinvD`
of the CoM and foot command terms only: with the same targets, two runs in which these two
matrices agree return the same `dqDes`. -/
theorem C24_damping_does_not_leak_into_projector {R : Type} [CommRing R] {k n : Nat}
    (U : PinvUtils R) (PINV_TOL : R) (inp inp' : SolverInput R k n)
    (h : ExactPinvs U PINV_TOL inp) (h' : ExactPinvs U PINV_TOL inp')
    (hJc : inp'.Jc = inp.Jc) (hJcom : inp'.Jcom_2xN = inp.Jcom_2xN)
    (hJfoot : inp'.Jfoot = inp.Jfoot) (hJposture : inp'.Jposture = inp.Jposture) :
    N_contact U PINV_TOL inp' = N_contact U PINV_TOL inp ∧
      (Jcom_pinvs U PINV_TOL inp').1 = (Jcom_pinvs U PINV_TOL inp).1 ∧
      N_com U PINV_TOL inp' = N_com U PINV_TOL inp ∧
      (Jfoot_pinvs U PINV_TOL inp').1 = (Jfoot_pinvs U PINV_TOL inp).1 ∧
      N_foot U PINV_TOL inp' = N_foot U PINV_TOL inp ∧
      Jposture_pinv U PINV_TOL inp' = Jposture_pinv U PINV_TOL inp ∧
      (inp'.dxc_comE = inp.dxc_comE → inp'.dxc_footE = inp.dxc_footE →
        inp'.dqcE = inp.dqcE →
        (Jcom_pinvs U PINV_TOL inp').2 = (Jcom_pinvs U PINV_TOL inp).2 →
        (Jfoot_pinvs U PINV_TOL inp').2 = (Jfoot_pinvs U PINV_TOL inp).2 →
        dqDes U PINV_TOL inp' = dqDes U PINV_TOL inp) := by
  have e0 : Jc_pinv U PINV_TOL inp' = Jc_pinv U PINV_TOL inp := by
    have := h'.contact
    rw [hJc] at this
    exact this.pinv_unique h.contact
  have e1 : N_contact U PINV_TOL inp' = N_contact U PINV_TOL inp := by
    unfold N_contact
    rw [e0, hJc]
  have e2 : (Jcom_pinvs U PINV_TOL inp').1 = (Jcom_pinvs U PINV_TOL inp).1 := by
    have := h'.com
    rw [hJcom, e1] at this
    exact this.pinv_unique h.com
  have e3 : N_com U PINV_TOL inp' = N_com U PINV_TOL inp := by
    unfold N_com
    rw [e1, e2, hJcom]
  have e4 : (Jfoot_pinvs U PINV_TOL inp').1 = (Jfoot_pinvs U PINV_TOL inp).1 := by
    have := h'.foot
    rw [hJfoot, e3] at this
    exact this.pinv_unique h.foot
  have e5 : N_foot U PINV_TOL inp' = N_foot U PINV_TOL inp := by
    unfold N_foot
    rw [e3, e4, hJfoot]
  have e6 : Jposture_pinv U PINV_TOL inp' = Jposture_pinv U PINV_TOL inp := by
    have := h'.posture
    rw [hJposture, e5] at this
    exact this.pinv_unique h.posture
  refine ⟨e1, e2, e3, e4, e5, e6, ?_⟩
  intro t1 t2 t3 d1 d2
  unfold dqDes dqDes_foot dqDes_com
  rw [e6, d1, d2, t1, t2, t3, hJfoot, hJposture]

/-- C25. With exact pseudoinverses the debug assertions of `solveTaskHierarchy` hold for
every input, each at its place: after the CoM step `Jc*N = 0` and `Jc*dqDes = 0` for the `N`
of the contact step; after the foot step `Jc*N = 0`, `Jcom_2xN*N = 0` and `Jc*dqDes = 0` for
the `N` of the CoM step; after the posture step `Jc*N = 0`, `Jcom_2xN*N = 0`, `Jfoot*N = 0`
and `Jc*dqDes = 0` for the final `N`, which so annihilates the Jacobian of every task of
higher priority. -/
theorem C25_debug_assertions_hold {R : Type} [CommRing R] {k n : Nat}
    (U : PinvUtils R) (PINV_TOL : R) (inp : SolverInput R k n)
    (h : ExactPinvs U PINV_TOL inp) :
    (inp.Jc * N_contact U PINV_TOL inp = 0 ∧
        inp.Jc.mulVec (dqDes_com U PINV_TOL inp) = 0) ∧
      (inp.Jc * N_com U PINV_TOL inp = 0 ∧ inp.Jcom_2xN * N_com U PINV_TOL inp = 0 ∧
        inp.Jc.mulVec (dqDes_foot U PINV_TOL inp) = 0) ∧
      (inp.Jc * N_foot U PINV_TOL inp = 0 ∧ inp.Jcom_2xN * N_foot U PINV_TOL inp = 0 ∧
        inp.Jfoot * N_foot U PINV_TOL inp = 0 ∧
        inp.Jc.mulVec (dqDes U PINV_TOL inp) = 0) := by
  obtain ⟨_, a1⟩ := N_contact_facts U PINV_TOL inp h
  obtain ⟨_, b1, b2⟩ := N_com_facts U PINV_TOL inp h
  obtain ⟨_, c1, c2, c3⟩ := N_foot_facts U PINV_TOL inp h
  exact ⟨⟨a1, Jc_mulVec_dqDes_com U PINV_TOL inp h⟩,
    ⟨b1, b2, Jc_mulVec_dqDes_foot U PINV_TOL inp h⟩,
    ⟨c1, c2, c3, Jc_mulVec_dqDes U PINV_TOL inp h⟩⟩

section VoidFootStep

variable {R : Type} [CommRing R] {k n : Nat}

/-- With `Jfoot = 0` and exact pseudoinverses both pseudoinverses of the foot step are
zero. -/
theorem Jfoot_pinvs_of_Jfoot_zero (U : PinvUtils R) (tol : R) (inp : SolverInput R k n)
    (h : ExactPinvs U tol inp) (hJ : inp.Jfoot = 0) :
    (Jfoot_pinvs U tol inp).1 = 0 ∧ (Jfoot_pinvs U tol inp).2 = 0 := by
  have hA : inp.Jfoot * N_com U tol inp = 0 := by rw [hJ, Matrix.zero_mul]
  have h1 := h.foot
  have h2 := h.footD
  rw [hA] at h1 h2
  exact ⟨h1.pinv_of_zero, h2.damped_of_zero⟩

/-- The exactness of the pseudoinverse utilities does not depend on the foot target, which
none of the four calls reads. -/
theorem ExactPinvs.of_foot_target {U : PinvUtils R} {tol : R} {inp : SolverInput R k n}
    (h : ExactPinvs U tol inp) (t : Fin 6 → R) :
    ExactPinvs U tol { inp with dxc_footE := t } :=
  ⟨h.contact, h.com, h.comD, h.foot, h.footD, h.posture⟩

end VoidFootStep

section VoidFootStepThread

variable {R : Type} [CommRing R] [DecidableEq R]

open LocomotionThread

theorem MatrixXd.toMatrix_zero (a b r c : Nat) :
    (MatrixXd.zero a b : MatrixXd R).toMatrix r c = 0 := by
  ext i j
  simp [MatrixXd.toMatrix, MatrixXd.zero, MatrixXd.get_ofFn]

theorem solverInput_Jfoot_zero (s : LocomotionThread R) (a b : Nat)
    (h : s.Jfoot = MatrixXd.zero a b) : s.solverInput.Jfoot = 0 := by
  show s.Jfoot.toMatrix 6 (s._n + 6) = 0
  rw [h, MatrixXd.toMatrix_zero]

/-- The reference update and the feedback law leave the Jacobians, the selection matrix,
`q` and the gains as the state read made them. -/
theorem feedbackLaw_frame (L : Library R) (X : LocomotionThread R) :
    (feedbackLaw L (updateReferenceTrajectories L X)).Jfoot = X.Jfoot ∧
    (feedbackLaw L (updateReferenceTrajectories L X)).Jc = X.Jc ∧
    (feedbackLaw L (updateReferenceTrajectories L X)).Jposture = X.Jposture ∧
    (feedbackLaw L (updateReferenceTrajectories L X)).S = X.S ∧
    (feedbackLaw L (updateReferenceTrajectories L X)).q = X.q ∧
    (feedbackLaw L (updateReferenceTrajectories L X)).kp_posture = X.kp_posture ∧
    (feedbackLaw L (updateReferenceTrajectories L X))._n = X._n :=
  ⟨rfl, rfl, rfl, rfl, rfl, rfl, rfl⟩

/-- In double support the state a tick hands to the solver has the zero matrix as
`Jfoot`. -/
theorem tick_Jfoot_double (L : Library R) (inp : StreamInput R) (rob : RobotAnswers R)
    (st : LocomotionThread R) (hsp : st.supportPhase = SupportPhase.SUPPORT_DOUBLE) :
    (tickRead L inp rob st).Jfoot = MatrixXd.zero st.Jfoot.rows st.Jfoot.cols ∧
      (feedbackLaw L (updateReferenceTrajectories L (tickRead L inp rob st))).solverInput.Jfoot
        = 0 := by
  have hsp' : (readStreamParams inp (st.emit Action.lock)).supportPhase
      = SupportPhase.SUPPORT_DOUBLE := by
    rw [(readStreamParams_frame inp (st.emit Action.lock)).2.1]
    exact hsp
  have hJ : (readStreamParams inp (st.emit Action.lock)).Jfoot = st.Jfoot := rfl
  have h1 : (tickRead L inp rob st).Jfoot = MatrixXd.zero st.Jfoot.rows st.Jfoot.cols := by
    unfold tickRead
    rw [(readRobotStatus_Jc_double L rob false _ hsp').2, hJ]
  refine ⟨h1, ?_⟩
  apply solverInput_Jfoot_zero _ st.Jfoot.rows st.Jfoot.cols
  rw [(feedbackLaw_frame L _).1, h1]

end VoidFootStepThread

/-- C26. In double support the state read sets `Jfoot` to the zero matrix, so the solver
input of the tick has `Jfoot = 0`. For every solver input with `Jfoot = 0`, exact
pseudoinverses, every foot target and every damping factor, the foot term added to `dqDes`
is the zero vector, `dqDes` and `N` after the foot step are those after the CoM step, and
the final `dqDes` is the same for every foot target. -/
theorem C26_double_support_foot_step_is_void {R : Type} [CommRing R] [DecidableEq R]
    (L : Library R) (inp : StreamInput R) (rob : RobotAnswers R) (b : Bool)
    (st : LocomotionThread R) (hsp : st.supportPhase = SupportPhase.SUPPORT_DOUBLE)
    {k n : Nat} (U : PinvUtils R) (PINV_TOL : R) (sin : SolverInput R k n)
    (h : ExactPinvs U PINV_TOL sin) (hJ : sin.Jfoot = 0) :
    ((LocomotionThread.readRobotStatus L rob b st).1.Jfoot
          = MatrixXd.zero st.Jfoot.rows st.Jfoot.cols ∧
        (tickRead L inp rob st).Jfoot = MatrixXd.zero st.Jfoot.rows st.Jfoot.cols ∧
        (LocomotionThread.feedbackLaw L (LocomotionThread.updateReferenceTrajectories L
          (tickRead L inp rob st))).solverInput.Jfoot = 0) ∧
      ((Jfoot_pinvs U PINV_TOL sin).2.mulVec
          (sin.dxc_footE - sin.Jfoot.mulVec (dqDes_com U PINV_TOL sin)) = 0 ∧
        dqDes_foot U PINV_TOL sin = dqDes_com U PINV_TOL sin ∧
        N_foot U PINV_TOL sin = N_com U PINV_TOL sin ∧
        ∀ t : Fin 6 → R,
          dqDes U PINV_TOL { sin with dxc_footE := t } = dqDes U PINV_TOL sin) := by
  obtain ⟨z1, z2⟩ := Jfoot_pinvs_of_Jfoot_zero U PINV_TOL sin h hJ
  have hfoot : dqDes_foot U PINV_TOL sin = dqDes_com U PINV_TOL sin := by
    unfold dqDes_foot
    rw [z2, Matrix.zero_mulVec, add_zero]
  refine ⟨⟨(readRobotStatus_Jc_double L rob b st hsp).2,
    (tick_Jfoot_double L inp rob st hsp).1, (tick_Jfoot_double L inp rob st hsp).2⟩,
    ?_, hfoot, ?_, ?_⟩
  · rw [z2, Matrix.zero_mulVec]
  · unfold N_foot
    rw [z1, Matrix.zero_mul, Matrix.zero_mul, sub_zero]
  · intro t
    have z2' := (Jfoot_pinvs_of_Jfoot_zero U PINV_TOL { sin with dxc_footE := t }
      (h.of_foot_target t) hJ).2
    have hfoot' : dqDes_foot U PINV_TOL { sin with dxc_footE := t }
        = dqDes_com U PINV_TOL sin := by
      unfold dqDes_foot
      rw [z2', Matrix.zero_mulVec, add_zero]
      rfl
    unfold dqDes
    rw [hfoot', hfoot]
    rfl

section PostureBuffers

variable {R : Type} [CommRing R] [DecidableEq R]

open LocomotionThread

/-- The buffers of the posture task after `numberOfJointsChanged`: `kp_posture` has `_n`
entries, `S` is `_n x ICUB_DOFS`, and `Jposture` is `MatrixXd::Identity(_n, _n+6)`, whose
entry `(i, j)` is 1 exactly when `i = j`. -/
theorem numberOfJointsChanged_posture_buffers (C : Constants R)
    (st st' : LocomotionThread R) (h : numberOfJointsChanged C st = some st') :
    st'.kp_posture.length = st'._n ∧ st'.S.rows = st'._n ∧ st'.S.cols = C.ICUB_DOFS ∧
      st'.Jposture = MatrixXd.identity st'._n (st'._n + 6) ∧
      ∀ i j, st'.Jposture.get i j
        = if i < st'._n ∧ j < st'._n + 6 then (if i = j then 1 else 0) else 0 := by
  unfold numberOfJointsChanged at h
  obtain ⟨S, hS, hr, hc⟩ := updateSelectionMatrix_state_eq C _ st' h
  obtain ⟨_, _, _, _, _, _, _, _, _, _, _, a12, _⟩ := numberOfJointsChanged_resize_dims C st
  obtain ⟨_, _, v1, _⟩ := numberOfJointsChanged_resize_jointList C st
  have e1 : st'.kp_posture = (numberOfJointsChanged_resize C st).kp_posture := by rw [hS]
  have e2 : st'._n = (numberOfJointsChanged_resize C st)._n := by rw [hS]
  have e3 : st'.Jposture = (numberOfJointsChanged_resize C st).Jposture := by rw [hS]
  have e4 : st'.S = S := by rw [hS]
  have hJ : st'.Jposture = MatrixXd.identity st'._n (st'._n + 6) := by rw [e3, e2, ← v1]
  refine ⟨by rw [e1, e2, a12], by rw [e4, e2, hr], by rw [e4, hc], hJ, ?_⟩
  intro i j
  rw [hJ]
  unfold MatrixXd.identity
  rw [MatrixXd.get_ofFn]

end PostureBuffers

section BaseVelocity

variable {R : Type} [CommRing R] [DecidableEq R]

open LocomotionThread

theorem vfill_getD (len : Nat) (f : Nat → R) (j : Nat) :
    (vfill len f).getD j 0 = if j < len then f j else 0 := by
  unfold vfill
  by_cases h : j < len
  · rw [if_pos h, List.getD_eq_getElem _ _ (by simpa using h)]
    simp
  · rw [if_neg h, List.getD_eq_default _ _ (by simpa using Nat.le_of_not_lt h)]

/-- The product `M * v` reads the entries of `v` below the column count of `M` only. -/
theorem MatrixXd.mulVec_congr (M : MatrixXd R) (v w : List R)
    (h : ∀ j, j < M.cols → v.getD j 0 = w.getD j 0) : M.mulVec v = M.mulVec w := by
  unfold MatrixXd.mulVec
  apply List.map_congr_left
  intro i _
  congr 1
  apply List.map_congr_left
  intro j hj
  rw [h j (List.mem_range.mp hj)]

/-- For a matrix of `6 + n` columns and a vector laid out as `[base(6); joints(n)]`, the
product is the sum of the products of the 6 left columns with the base part and of the `n`
right columns with the joint part. -/
theorem MatrixXd.mulVec_base_joints (M : MatrixXd R) (n : Nat) (hc : M.cols = 6 + n)
    (v : List R) :
    M.mulVec v
      = vadd ((M.leftCols 6).mulVec v)
          ((M.rightCols n).mulVec (vfill n (fun j => v.getD (6 + j) 0))) := by
  unfold MatrixXd.mulVec vadd
  have hrl : (M.leftCols 6).rows = M.rows := rfl
  have hrr : (M.rightCols n).rows = M.rows := rfl
  have hcl : (M.leftCols 6).cols = 6 := rfl
  have hcr : (M.rightCols n).cols = n := rfl
  rw [hrl, hrr, hcl, hcr, List.zipWith_map, List.zipWith_same]
  apply List.map_congr_left
  intro i hi
  have hi' : i < M.rows := List.mem_range.mp hi
  rw [hc, List.range_add, List.map_append, List.sum_append, List.map_map]
  congr 1
  · congr 1
    apply List.map_congr_left
    intro j hj
    have hj' : j < 6 := List.mem_range.mp hj
    unfold MatrixXd.leftCols
    rw [MatrixXd.get_ofFn, if_pos ⟨hi', hj'⟩]
  · congr 1
    apply List.map_congr_left
    intro j hj
    have hj' : j < n := List.mem_range.mp hj
    unfold MatrixXd.rightCols
    rw [MatrixXd.get_ofFn, if_pos ⟨hi', hj'⟩, vfill_getD, if_pos hj', hc]
    simp only [Function.comp_apply, Nat.add_sub_cancel]

/-- The contact velocity that `readRobotStatus` leaves, for every state whose buffers have
the dimensions of the invariant: when `svd.solve` returns an exact solution `v` of
`Jcb * v = Jc.rightCols(_n) * dqJ`, the assembled `dq = [v; dqJ]` gives
`Jc * dq = 2 * (Jc.rightCols(_n) * dqJ)`, not 0. -/
theorem estimateBaseVelocity_contact_velocity (L : Library R) (s : LocomotionThread R)
    (hc : s.Jc.cols = 6 + s._n) (hdq : s.dq.length = 6 + s._n)
    (hsolve : (s.Jc.leftCols 6).mulVec
        (L.svdSolve (s.Jc.leftCols 6) ((s.Jc.rightCols s._n).mulVec s.dqJ))
      = (s.Jc.rightCols s._n).mulVec s.dqJ) :
    (estimateBaseVelocity L s).Jc.mulVec (estimateBaseVelocity L s).dq
      = vadd ((s.Jc.rightCols s._n).mulVec s.dqJ) ((s.Jc.rightCols s._n).mulVec s.dqJ) := by
  have hJc : (estimateBaseVelocity L s).Jc = s.Jc := rfl
  have hd : (estimateBaseVelocity L s).dq
      = setTail (setHead s.dq 6
          (L.svdSolve (s.Jc.leftCols 6) ((s.Jc.rightCols s._n).mulVec s.dqJ))) s._n s.dqJ :=
    rfl
  rw [hJc, hd, MatrixXd.mulVec_base_joints s.Jc s._n hc]
  have hlen : (setHead s.dq 6
      (L.svdSolve (s.Jc.leftCols 6) ((s.Jc.rightCols s._n).mulVec s.dqJ))).length
        = 6 + s._n := by
    simp [setHead, vfill, hdq]
  have h1 : (s.Jc.leftCols 6).mulVec (setTail (setHead s.dq 6
        (L.svdSolve (s.Jc.leftCols 6) ((s.Jc.rightCols s._n).mulVec s.dqJ))) s._n s.dqJ)
      = (s.Jc.leftCols 6).mulVec
          (L.svdSolve (s.Jc.leftCols 6) ((s.Jc.rightCols s._n).mulVec s.dqJ)) := by
    apply MatrixXd.mulVec_congr
    intro j hj
    have hj6 : j < 6 := hj
    unfold setTail
    rw [vfill_getD, hlen, if_pos (by omega), if_neg (by omega)]
    unfold setHead
    rw [vfill_getD, hdq, if_pos (by omega), if_pos hj6]
  have h2 : (s.Jc.rightCols s._n).mulVec (vfill s._n (fun j => (setTail (setHead s.dq 6
        (L.svdSolve (s.Jc.leftCols 6) ((s.Jc.rightCols s._n).mulVec s.dqJ))) s._n
          s.dqJ).getD (6 + j) 0))
      = (s.Jc.rightCols s._n).mulVec s.dqJ := by
    apply MatrixXd.mulVec_congr
    intro j hj
    have hjn : j < s._n := hj
    rw [vfill_getD, if_pos hjn]
    unfold setTail
    rw [vfill_getD, hlen, if_pos (by omega), if_pos (by omega)]
    congr 1
    omega
  rw [h1, h2, hsolve]

end BaseVelocity

/-! ## Theorems, Part VIII: the claims of Part VII at the examples -/

section DampedExample

theorem dampedBaseFirstInput_N_contact :
    N_contact isometryUtils 0 dampedBaseFirstInput = diag8 (fun i => decide (6 ≤ i)) := by
  with_unfolding_all decide

theorem dampedBaseFirstInput_Jcom_pinvs :
    (Jcom_pinvs isometryUtils 0 dampedBaseFirstInput).1 = dampedBaseFirstInput.Jcom_2xNᵀ ∧
    (Jcom_pinvs isometryUtils 0 dampedBaseFirstInput).2
      = (1 / 2 : ℚ) • dampedBaseFirstInput.Jcom_2xNᵀ := by
  unfold Jcom_pinvs
  rw [dampedBaseFirstInput_N_contact]
  with_unfolding_all decide

theorem dampedBaseFirstInput_N_com :
    N_com isometryUtils 0 dampedBaseFirstInput = diag8 (fun i => decide (i = 7)) := by
  unfold N_com
  rw [dampedBaseFirstInput_Jcom_pinvs.1, dampedBaseFirstInput_N_contact]
  with_unfolding_all decide

theorem dampedBaseFirstInput_Jfoot_pinvs :
    (Jfoot_pinvs isometryUtils 0 dampedBaseFirstInput).1 = 0 ∧
    (Jfoot_pinvs isometryUtils 0 dampedBaseFirstInput).2 = 0 := by
  unfold Jfoot_pinvs
  rw [dampedBaseFirstInput_N_com]
  with_unfolding_all decide

theorem dampedBaseFirstInput_N_foot :
    N_foot isometryUtils 0 dampedBaseFirstInput = diag8 (fun i => decide (i = 7)) := by
  unfold N_foot
  rw [dampedBaseFirstInput_Jfoot_pinvs.1, dampedBaseFirstInput_N_com]
  with_unfolding_all decide

theorem dampedBaseFirstInput_Jposture_pinv :
    Jposture_pinv isometryUtils 0 dampedBaseFirstInput = 0 := by
  unfold Jposture_pinv
  rw [dampedBaseFirstInput_N_foot]
  with_unfolding_all decide

/-- The utilities `isometryUtils` are exact at the four calls made on
`dampedBaseFirstInput`. -/
theorem dampedBaseFirstInput_exact : ExactPinvs isometryUtils 0 dampedBaseFirstInput := by
  refine ⟨⟨?_, ?_, ?_, ?_⟩, ⟨?_, ?_, ?_, ?_⟩, ⟨?_, ?_⟩, ⟨?_, ?_, ?_, ?_⟩, ⟨?_, ?_⟩,
    ⟨?_, ?_, ?_, ?_⟩⟩
  all_goals
    simp only [Jc_pinv, dampedBaseFirstInput_Jcom_pinvs.1,
      dampedBaseFirstInput_Jcom_pinvs.2, dampedBaseFirstInput_Jfoot_pinvs.1, dampedBaseFirstInput_Jfoot_pinvs.2,
      dampedBaseFirstInput_Jposture_pinv, dampedBaseFirstInput_N_contact,
      dampedBaseFirstInput_N_com, dampedBaseFirstInput_N_foot]
    with_unfolding_all decide

theorem dampedBaseFirstInput_dqDes_com :
    dqDes_com isometryUtils 0 dampedBaseFirstInput = ![0, 0, 0, 0, 0, 0, 3 / 2, 0] := by
  unfold dqDes_com
  rw [dampedBaseFirstInput_Jcom_pinvs.2]
  with_unfolding_all decide

end DampedExample

/-- C24 at `baseFirstInput` (damping 0) and `dampedBaseFirstInput` (damping 1): the
projector after the foot step is the same, while the CoM term is `(.., 3, 0)` without and
`(.., 3/2, 0)` with damping. -/
theorem C24_damping_does_not_leak_into_projector_witness :
    ExactPinvs isometryUtils 0 baseFirstInput ∧
      ExactPinvs isometryUtils 0 dampedBaseFirstInput ∧
      baseFirstInput.pinvDamp = 0 ∧ dampedBaseFirstInput.pinvDamp = 1 ∧
      N_foot isometryUtils 0 dampedBaseFirstInput = N_foot isometryUtils 0 baseFirstInput ∧
      dqDes_com isometryUtils 0 baseFirstInput = ![0, 0, 0, 0, 0, 0, 3, 0] ∧
      dqDes_com isometryUtils 0 dampedBaseFirstInput = ![0, 0, 0, 0, 0, 0, 3 / 2, 0] :=
  ⟨baseFirstInput_exact, dampedBaseFirstInput_exact, rfl, rfl,
    (C24_damping_does_not_leak_into_projector isometryUtils 0 baseFirstInput
      dampedBaseFirstInput baseFirstInput_exact dampedBaseFirstInput_exact
      rfl rfl rfl rfl).2.2.2.2.1,
    baseFirstInput_dqDes_com, dampedBaseFirstInput_dqDes_com⟩

/-- C25 at `exampleInput`: the last block of assertions. -/
theorem C25_debug_assertions_hold_witness :
    ExactPinvs isometryUtils 0 exampleInput ∧
      exampleInput.Jc * N_foot isometryUtils 0 exampleInput = 0 ∧
      exampleInput.Jcom_2xN * N_foot isometryUtils 0 exampleInput = 0 ∧
      exampleInput.Jfoot * N_foot isometryUtils 0 exampleInput = 0 ∧
      exampleInput.Jc.mulVec (dqDes isometryUtils 0 exampleInput) = 0 :=
  ⟨exampleInput_exact,
    (C25_debug_assertions_hold isometryUtils 0 exampleInput exampleInput_exact).2.2⟩

section FeedbackExampleTheorems

open LocomotionThread

/-- C26 at `doubleSupportThread` and at the solver input `baseFirstInput`, whose `Jfoot` is
zero: the solver input of a tick has `Jfoot = 0`, and the solver output for the foot target
`(1, 1, 1, 1, 1, 1)` is the one for the target 0. -/
theorem C26_double_support_foot_step_is_void_witness :
    doubleSupportThread.supportPhase = SupportPhase.SUPPORT_DOUBLE ∧
      ExactPinvs isometryUtils 0 baseFirstInput ∧ baseFirstInput.Jfoot = 0 ∧
      (feedbackLaw exampleLibrary (updateReferenceTrajectories exampleLibrary
        (tickRead exampleLibrary ⟨none, none, none, none⟩ exampleRobot
          doubleSupportThread))).solverInput.Jfoot = 0 ∧
      dqDes isometryUtils 0 { baseFirstInput with dxc_footE := ![1, 1, 1, 1, 1, 1] }
        = dqDes isometryUtils 0 baseFirstInput :=
  ⟨by with_unfolding_all decide, baseFirstInput_exact, rfl,
    (C26_double_support_foot_step_is_void exampleLibrary ⟨none, none, none, none⟩
      exampleRobot false doubleSupportThread (by with_unfolding_all decide)
      isometryUtils 0 baseFirstInput baseFirstInput_exact rfl).1.2.2,
    (C26_double_support_foot_step_is_void exampleLibrary ⟨none, none, none, none⟩
      exampleRobot false doubleSupportThread (by with_unfolding_all decide)
      isometryUtils 0 baseFirstInput baseFirstInput_exact rfl).2.2.2.2 ![1, 1, 1, 1, 1, 1]⟩

/-- C21, the code at the failing input: `ICUB_DOFS = 3`, the started example thread (mask
`(1, 0, 1)`, so `_n = 2`), where `kp_posture` has the 3 entries `threadInit` gave it, then
the callback for the active joints. `numberOfJointsChanged` resizes `kp_posture` to `_n = 2`
entries, and in the next ON tick the feedback law multiplies the `2 x 3` matrix `S` with
this vector of 2 entries; `dqr` and `qr` have 3 entries and `q` has 2. -/
theorem C21_kp_posture_resized_to_active_joints :
    exampleConstants.ICUB_DOFS = 3 ∧
      startedThread.status = LocomotionStatus.LOCOMOTION_ON ∧
      startedThread.kp_posture.length = 3 ∧
      (parameterUpdated exampleConstants ParamId.PARAM_ID_ACTIVE_JOINTS startedThread).map
          (fun s => (s.status, s._n, s.kp_posture.length))
        = some (LocomotionStatus.LOCOMOTION_ON, 2, 2) ∧
      (parameterUpdated exampleConstants ParamId.PARAM_ID_ACTIVE_JOINTS startedThread).map
          (fun s =>
            ((updateReferenceTrajectories exampleLibrary
                (tickRead exampleLibrary ⟨none, none, none, none⟩ exampleRobot s)).S.rows,
              (updateReferenceTrajectories exampleLibrary
                (tickRead exampleLibrary ⟨none, none, none, none⟩ exampleRobot s)).S.cols,
              (updateReferenceTrajectories exampleLibrary
                (tickRead exampleLibrary ⟨none, none, none, none⟩
                  exampleRobot s)).kp_posture.length,
              (updateReferenceTrajectories exampleLibrary
                (tickRead exampleLibrary ⟨none, none, none, none⟩ exampleRobot s)).dqr.length,
              (updateReferenceTrajectories exampleLibrary
                (tickRead exampleLibrary ⟨none, none, none, none⟩ exampleRobot s)).qr.length,
              (updateReferenceTrajectories exampleLibrary
                (tickRead exampleLibrary ⟨none, none, none, none⟩ exampleRobot s)).q.length))
        = some (2, 3, 2, 3, 3, 2) := by
  refine ⟨rfl, rfl, ?_, ?_, ?_⟩ <;> with_unfolding_all decide

/-- C23, the code at the failing input: `exampleThread` (`_n = 2`) and a robot whose joints
move with the velocities `(1, 2)`. `Jposture = MatrixXd::Identity(2, 8)` has its ones in the
columns 0 and 1, which are base columns of `dq = [base(6); joints(2)]`, and zeros in the
joint columns 6 and 7; for the `dq = (0, 0, 0, 0, 0, 0, 1, 2)` the state read assembles,
`Jposture*dq = (0, 0)` and `dqJ = (1, 2)`. -/
theorem C23_posture_jacobian_selects_leading_columns :
    exampleThread._n = 2 ∧
      (exampleThread.Jposture.rows = 2 ∧ exampleThread.Jposture.cols = 8) ∧
      (exampleThread.Jposture.get 0 0 = 1 ∧ exampleThread.Jposture.get 1 1 = 1 ∧
        exampleThread.Jposture.get 0 6 = 0 ∧ exampleThread.Jposture.get 1 7 = 0) ∧
      (readRobotStatus exampleLibrary movingRobot false exampleThread).1.Jposture
        = exampleThread.Jposture ∧
      (readRobotStatus exampleLibrary movingRobot false exampleThread).1.dqJ = [1, 2] ∧
      (readRobotStatus exampleLibrary movingRobot false exampleThread).1.dq
        = [0, 0, 0, 0, 0, 0, 1, 2] ∧
      (readRobotStatus exampleLibrary movingRobot false exampleThread).1.Jposture.mulVec
          (readRobotStatus exampleLibrary movingRobot false exampleThread).1.dq
        = [0, 0] := by
  refine ⟨?_, ⟨?_, ?_⟩, ⟨?_, ?_, ?_, ?_⟩,
    (readRobotStatus_dims exampleLibrary movingRobot false exampleThread).2.2.2.2.1,
    ?_, ?_, ?_⟩ <;> with_unfolding_all decide

/-- C27, the code at the failing input: `exampleThread` (left-foot support, `_n = 2`), a
robot whose left-foot Jacobian is `[2 I | e]` with a 1 at row 0 of the first joint column,
joint velocities `(1, 0)`, and an exact `svd.solve`. The estimated base velocity solves
`Jcb * v = Jc.rightCols(_n) * dqJ` (both sides are `(1, 0, 0, 0, 0, 0)`), so
`dq = (1/2, 0, 0, 0, 0, 0, 1, 0)` and `Jc*dq = (2, 0, 0, 0, 0, 0)`: the stance foot moves.
With the base velocity negated, `Jc*dq` is zero. -/
theorem C27_base_velocity_has_wrong_sign :
    exampleThread.supportPhase = SupportPhase.SUPPORT_LEFT ∧
      (readRobotStatus diagonalSolveLibrary slidingRobot false exampleThread).1.dqJ
        = [1, 0] ∧
      (readRobotStatus diagonalSolveLibrary slidingRobot false exampleThread).1.dq
        = [1 / 2, 0, 0, 0, 0, 0, 1, 0] ∧
      (((readRobotStatus diagonalSolveLibrary slidingRobot false exampleThread).1.Jc.leftCols
            6).mulVec
          ((readRobotStatus diagonalSolveLibrary slidingRobot false exampleThread).1.dq.take 6)
        = [1, 0, 0, 0, 0, 0] ∧
        ((readRobotStatus diagonalSolveLibrary slidingRobot false exampleThread).1.Jc.rightCols
            2).mulVec
          (readRobotStatus diagonalSolveLibrary slidingRobot false exampleThread).1.dqJ
        = [1, 0, 0, 0, 0, 0]) ∧
      (readRobotStatus diagonalSolveLibrary slidingRobot false exampleThread).1.Jc.mulVec
          (readRobotStatus diagonalSolveLibrary slidingRobot false exampleThread).1.dq
        = [2, 0, 0, 0, 0, 0] ∧
      (readRobotStatus diagonalSolveLibrary slidingRobot false exampleThread).1.Jc.mulVec
          [-(1 / 2), 0, 0, 0, 0, 0, 1, 0]
        = [0, 0, 0, 0, 0, 0] := by
  refine ⟨?_, ?_, ?_, ⟨?_, ?_⟩, ?_, ?_⟩ <;> with_unfolding_all decide

end FeedbackExampleTheorems

end Locomotion
